import Mathlib

/-!
# sprout `BasicProxy`: a shallow embedding of `src/sprout/basicproxy.cpp`

The stateful forking proxy core: request verification, the server-side
transaction `UASTsx` with its best-response reconciliation, and the client-side
leaves `UACTsx`.

Conventions of the embedding.

* C `int` values (status codes, `_pending_targets`, `_context_count`) are `Int`;
  the code only compares, increments and decrements them.
* Pointers to `UACTsx` objects are indices into an explicit heap; a null pointer
  is `none`.
* Calls into the SIP stack that send something are recorded, in order, in an
  output trace of `Effect`s.
* Undefined behaviour (null dereference, out-of-range vector write) is a `Fault`
  returned through `Except`.
* Results of stack calls that can fail are inputs of the embedded function (a
  status, a flag, an `Alloc` oracle, the `send_status` of `pjsip_tsx_send_msg`).
* `delete this` marks the object `deleted`. The destructor of a child runs in
  `UACTsx.exit_context`; the destructor of a `UASTsx` is `UASTsx.destroy`, run by
  `UASTsx.exit_context_delete` at the end of `UASTsx::on_tsx_state`, the method
  that makes a destroy pending.
* Logging, SAS markers, group-lock acquisition and reference counting of message
  buffers have no influence on the modelled fields and are left out.
-/

namespace BasicProxy

/-! ## Constants of the SIP stack used by the code -/

def PJ_SUCCESS : Int := 0
def PJ_EUNKNOWN : Int := 70001
def PJ_ENOMEM : Int := 70007
def PJSIP_SC_OK : Int := 200
def PJSIP_SC_REQUEST_TIMEOUT : Int := 408
def PJSIP_SC_UNSUPPORTED_URI_SCHEME : Int := 416
def PJSIP_SC_TOO_MANY_HOPS : Int := 483
def PJSIP_SC_REQUEST_TERMINATED : Int := 487

/-- The pjsip constant `PJSIP_ERRNO_START` (`PJ_ERRNO_START_USER`). -/
def PJSIP_ERRNO_START : Int := 170000

/-- The pjsip macro `PJSIP_ERRNO_FROM_SIP_STATUS(code)`. -/
def PJSIP_ERRNO_FROM_SIP_STATUS (code : Int) : Int := PJSIP_ERRNO_START + code

/-- The `pjsip_method_e` identifiers the code distinguishes. -/
inductive pjsip_method_e where
  | INVITE
  | CANCEL
  | ACK
  | BYE
  | REGISTER
  | OPTIONS
  | OTHER
  deriving DecidableEq, Repr

/-! ## Messages -/

/-- A URI as far as the proxy inspects it: scheme name, user, host and the `lr`
parameter. -/
structure Uri where
  scheme : List Char
  user : String
  host : String
  lr_param : Bool
  deriving DecidableEq, Repr

/-- ASCII lower-casing of one character, as done by `pj_stricmp2`. -/
def pj_tolower (c : Char) : Nat :=
  if 65 ≤ c.toNat ∧ c.toNat ≤ 90 then c.toNat + 32 else c.toNat

/-- The pjsip macro `PJSIP_URI_SCHEME_IS_SIP(url)`:
`pj_stricmp2(pjsip_uri_get_scheme(url), "sip") == 0`. -/
def PJSIP_URI_SCHEME_IS_SIP (u : Uri) : Bool :=
  u.scheme.map pj_tolower == [115, 105, 112]

/-- A received request (`pjsip_rx_data` holding a request): method,
Request-URI and the parsed `Max-Forwards` header (`msg_info.max_fwd`, a null
pointer when the header is absent, else its `ivalue`). -/
structure RxRequest where
  method : pjsip_method_e
  uri : Uri
  max_fwd : Option Int
  deriving DecidableEq, Repr

/-- A Via header (`pjsip_via_hdr`) as far as the proxy reads it: transport
name, sent-by host and port, the `received` parameter (empty when absent) and
the `rport` parameter (the parser leaves -1 when absent and 0 when it has no
value). -/
structure Via where
  transport : String
  sent_by_host : String
  sent_by_port : Int
  recvd_param : String
  rport_param : Int
  deriving DecidableEq, Repr

/-- A received response (`pjsip_rx_data` holding a response): its status code,
the rest of the message as an abstract payload, whether
`PJUtils::create_response_fwd` succeeds on it (it fails only when allocation
fails), and its Via headers, topmost first. -/
structure RxData where
  code : Int
  body : Nat
  fwd_ok : Bool
  vias : List Via := []
  deriving DecidableEq, Repr

/-- Where a response buffer was built. -/
inductive Origin where
  | template
  | forwarded (body : Nat)
  deriving DecidableEq, Repr

/-- A response buffer (`pjsip_tx_data` holding a response): the status code
`msg->line.status.code` and where the message comes from, either built locally
by `pjsip_endpt_create_response` or cloned from a received response by
`PJUtils::create_response_fwd`. -/
structure TxData where
  code : Int
  origin : Origin
  vias : List Via := []
  deriving DecidableEq, Repr

/-- Embeds `PJUtils::create_response_fwd(endpt, rdata, 0, &tdata)`: the forwardable
copy of a received response, with the topmost Via header stripped; `none` when
it reports an error. -/
def create_response_fwd (rdata : RxData) : Option TxData :=
  if rdata.fwd_ok then
    some { code := rdata.code, origin := Origin.forwarded rdata.body,
           vias := rdata.vias.tail }
  else none

/-- Undefined behaviour reached by the C++ code. -/
inductive Fault where
  | null_deref
  | out_of_range
  deriving DecidableEq, Repr

/-! ## `BasicProxy::UASTsx::compare_sip_sc` -/

/-- Embeds `BasicProxy::UASTsx::compare_sip_sc`. -/
def compare_sip_sc (sc1 sc2 : Int) : Int :=
  if sc1 = sc2 then 0
  else if sc1 = PJSIP_SC_REQUEST_TIMEOUT then -1
  else if sc2 = PJSIP_SC_REQUEST_TIMEOUT then 1
  else if sc2 = PJSIP_SC_REQUEST_TERMINATED then -1
  else if sc1 = PJSIP_SC_REQUEST_TERMINATED then 1
  else if sc1 < sc2 then 1
  else -1

/-- The tier of a status code in the best-response ordering as the
specification words it: 487 below every other code, 408 above every other
code. -/
def tier46 (s : Int) : Int :=
  if s = 487 then 0 else if s = 408 then 2 else 1

/-- The best-response ordering as the specification words it: `a` ranks
strictly before `b` when its tier is lower, or the tiers agree and `a` is
numerically lower (rank(s) = s for the ordinary codes). -/
def better46 (a b : Int) : Prop :=
  tier46 a < tier46 b ∨ (tier46 a = tier46 b ∧ a < b)

instance (a b : Int) : Decidable (better46 a b) := by
  unfold better46; infer_instance

/-! ## Requests, targets and the transaction objects -/

/-- A request buffer (`pjsip_tx_data` holding a request): method, Request-URI
and the URIs of its Route headers, topmost first. -/
structure TxRequest where
  method : pjsip_method_e
  uri : Uri
  routes : List Uri
  deriving DecidableEq, Repr

/-- Embeds `BasicProxy::Target`. -/
structure Target where
  uri : Option Uri
  paths : List Uri
  transport : Option Nat
  deriving DecidableEq, Repr

/-- The fields of the stack's UAS `pjsip_transaction` that the code reads and
the stack does not change. -/
structure pjsip_transaction where
  method : pjsip_method_e
  deriving DecidableEq, Repr

/-- Embeds `BasicProxy::UACTsx`. `_uas_tsx` and `_tsx` record whether the pointer is
non-null (there is one parent in the model); `tp_sel` is the transport pinned on
the stack transaction; `deleted` records that the destructor ran; `status_code`
is `_tsx->status_code`, the status of the last response the stack has seen on
the child's transaction (0 before any response). -/
structure UACTsx where
  _uas_tsx : Bool
  _index : Nat
  _tsx : Bool
  _tdata : Option TxRequest
  tp_sel : Option Nat
  _pending_destroy : Bool
  _context_count : Int
  deleted : Bool
  status_code : Int := 0
  deriving DecidableEq, Repr

/-- What the code hands to the SIP stack to be sent. `uac_send_msg p req` is
`pjsip_tsx_send_msg` on the stack transaction of the child at heap address
`p`; the other `tsx_` effects are on the UAS transaction. `send_cancel p reason
tp` is the CANCEL sent for the child at `p` with `pjsip_endpt_send_request`,
with the value of its Reason header, if any, and the transport it is pinned to,
if any. `endpt_send_response tp host port tdata` is
`pjsip_endpt_send_response` to the given transport type, host and port. -/
inductive Effect where
  | respond_stateless (code : Int)
  | respond_stateful (code : Int)
  | tsx_send_msg (tdata : TxData)
  | tsx_terminate (code : Int)
  | uac_send_msg (uac : Nat) (req : TxRequest)
  | send_cancel (uac : Nat) (reason : Option String) (tp : Option Nat)
  | endpt_send_response (tp : String) (host : String) (port : Int) (tdata : TxData)
  deriving DecidableEq, Repr

/-- Embeds `BasicProxy::UASTsx`, together with the heap of `UACTsx` objects its slots
point into, the proxy's `_delay_trying` flag and the output trace. -/
structure UASTsx where
  delay_trying : Bool
  _req : Option TxRequest
  _tsx : Option pjsip_transaction
  _targets : List Target
  _uac_tsx : List (Option Nat)
  _pending_targets : Int
  _best_rsp : Option TxData
  _pending_destroy : Bool
  _context_count : Int
  deleted : Bool
  heap : List UACTsx
  out : List Effect
  deriving DecidableEq, Repr

/-- The `UASTsx` constructor. -/
def UASTsx.new (delay_trying : Bool) : UASTsx :=
  { delay_trying := delay_trying, _req := none, _tsx := none, _targets := [],
    _uac_tsx := [], _pending_targets := 0, _best_rsp := none,
    _pending_destroy := false, _context_count := 0, deleted := false,
    heap := [], out := [] }

/-- Embeds `UASTsx::enter_context`. -/
def UASTsx.enter_context (s : UASTsx) : UASTsx :=
  { s with _context_count := s._context_count + 1 }

/-- Embeds `UASTsx::exit_context` up to the body of the destructor: `delete this`
when the count drops to zero with a destroy pending, which `deleted` records.
What the destructor then does is `UASTsx.destroy`; `UASTsx.exit_context_delete`
is `exit_context` with it, and `UASTsx::on_tsx_state`, the one method that sets
`_pending_destroy`, ends with that. While no destroy is pending the two are the
same. -/
def UASTsx.exit_context (s : UASTsx) : UASTsx :=
  let s1 := { s with _context_count := s._context_count - 1 }
  if s1._context_count = 0 ∧ s1._pending_destroy = true then { s1 with deleted := true }
  else s1

/-- Embeds `UASTsx::init`. The three results of the stack calls that can fail are
inputs: the status of `pj_grp_lock_create`, the status of
`pjsip_tsx_create_uas2`, and whether `pjsip_endpt_create_response` produced the
408 buffer (its status is not checked by the code). -/
def UASTsx.init (s : UASTsx) (rdata : RxRequest) (tdata : TxRequest)
    (lock_status tsx_status : Int) (rsp_ok : Bool) : Int × UASTsx :=
  let s := { s with _req := some tdata }
  if lock_status ≠ PJ_SUCCESS then (lock_status, s)
  else if tsx_status ≠ PJ_SUCCESS then (tsx_status, s)
  else
    let s := { s with _tsx := some { method := rdata.method } }
    let s := UASTsx.enter_context s
    let s := if rsp_ok then
        { s with _best_rsp := some { code := PJSIP_SC_REQUEST_TIMEOUT, origin := Origin.template } }
      else s
    if rdata.method = pjsip_method_e.INVITE ∧ s.delay_trying = false then
      (PJ_SUCCESS, { s with out := s.out ++ [Effect.respond_stateful 100] })
    else (PJ_SUCCESS, s)

/-- Embeds `UASTsx::dissociate`: clears the child's parent link and the slot
`_uac_tsx[uac_tsx->_index]`. -/
def UASTsx.dissociate (s : UASTsx) (uac : Nat) : Except Fault UASTsx :=
  match s.heap[uac]? with
  | none => Except.error Fault.null_deref
  | some u =>
    if u._index < s._uac_tsx.length then
      Except.ok { s with heap := s.heap.set uac { u with _uas_tsx := false },
                         _uac_tsx := s._uac_tsx.set u._index none }
    else Except.error Fault.out_of_range

/-- The loop of the destructor `~UASTsx` over the slot indices: every child still
in a slot is dissociated. -/
def UASTsx.disconnect_loop : List Nat → UASTsx → Except Fault UASTsx
  | [], s => Except.ok s
  | ii :: rest, s =>
    match s._uac_tsx[ii]? with
    | some (some p) => (s.dissociate p).bind fun s => UASTsx.disconnect_loop rest s
    | _ => UASTsx.disconnect_loop rest s

/-- Embeds the destructor `~UASTsx`: every child still in a slot is dissociated,
the original request and the unused best response are freed, the targets not
acted on are deleted. The stack transaction, when there still is one, is only
unbound. -/
def UASTsx.destroy (s : UASTsx) : Except Fault UASTsx :=
  (UASTsx.disconnect_loop (List.range s._uac_tsx.length) s).bind fun s =>
  Except.ok { s with _req := none, _best_rsp := none, _targets := [] }

/-- Embeds `UASTsx::exit_context` with the destructor that `delete this` runs. -/
def UASTsx.exit_context_delete (s : UASTsx) : Except Fault UASTsx :=
  if s._context_count - 1 = 0 ∧ s._pending_destroy = true then
    UASTsx.destroy (UASTsx.exit_context s)
  else Except.ok (UASTsx.exit_context s)

/-- Embeds `UASTsx::on_final_response`. -/
def UASTsx.on_final_response (s : UASTsx) : Except Fault UASTsx :=
  match s._tsx with
  | none => Except.ok s
  | some tsx =>
    match s._best_rsp with
    | none => Except.error Fault.null_deref
    | some best_rsp =>
      let s := { s with _best_rsp := none, out := s.out ++ [Effect.tsx_send_msg best_rsp] }
      if tsx.method = pjsip_method_e.INVITE ∧ best_rsp.code = 200 then
        Except.ok { s with out := s.out ++ [Effect.tsx_terminate 200] }
      else Except.ok s

/-- Embeds `UASTsx::on_new_client_response`. -/
def UASTsx.on_new_client_response (s : UASTsx) (uac : Nat) (rdata : RxData) :
    Except Fault UASTsx :=
  match s._tsx with
  | none => Except.ok s
  | some tsx =>
    let s := UASTsx.enter_context s
    let status_code := rdata.code
    if tsx.method = pjsip_method_e.INVITE ∧ status_code = 100 ∧ s.delay_trying = false then
      Except.ok (UASTsx.exit_context s)
    else
      match create_response_fwd rdata with
      | none => Except.ok (UASTsx.exit_context s)
      | some tdata =>
        if 100 < status_code ∧ status_code < 199 then
          Except.ok (UASTsx.exit_context { s with out := s.out ++ [Effect.tsx_send_msg tdata] })
        else if status_code = 200 then
          let s := { s with _best_rsp := some tdata,
                            _pending_targets := s._pending_targets - 1 }
          (UASTsx.dissociate s uac).bind fun s =>
          (UASTsx.on_final_response s).bind fun s =>
          Except.ok (UASTsx.exit_context s)
        else
          let s :=
            match s._best_rsp with
            | none => { s with _best_rsp := some tdata }
            | some best_rsp =>
              if compare_sip_sc status_code best_rsp.code > 0 then
                { s with _best_rsp := some tdata }
              else s
          (UASTsx.dissociate s uac).bind fun s =>
          let s := { s with _pending_targets := s._pending_targets - 1 }
          (if s._pending_targets = 0 then UASTsx.on_final_response s else Except.ok s).bind fun s =>
          Except.ok (UASTsx.exit_context s)

/-- Embeds `UASTsx::on_client_not_responding`. -/
def UASTsx.on_client_not_responding (s : UASTsx) (uac : Nat) : Except Fault UASTsx :=
  match s._tsx with
  | none => Except.ok s
  | some _ =>
    let s := UASTsx.enter_context s
    let s := { s with _pending_targets := s._pending_targets - 1 }
    (if s._pending_targets = 0 then UASTsx.on_final_response s else Except.ok s).bind fun s =>
    (UASTsx.dissociate s uac).bind fun s =>
    Except.ok (UASTsx.exit_context s)

/-! ## `UACTsx` methods and fork dispatch -/

/-- The `UACTsx` constructor `UACTsx(proxy, uas_tsx, index)`. `_tsx` is not in
the initialiser list; the model takes it as null. -/
def UACTsx.new (index : Nat) : UACTsx :=
  { _uas_tsx := true, _index := index, _tsx := false, _tdata := none,
    tp_sel := none, _pending_destroy := false, _context_count := 0,
    deleted := false }

/-- Writes back the child object at heap address `p`. -/
def UASTsx.store (s : UASTsx) (p : Nat) (u : UACTsx) : UASTsx :=
  { s with heap := s.heap.set p u }

/-- The `UACTsx` destructor, run on the child at heap address `p`. -/
def UACTsx.destroy (s : UASTsx) (p : Nat) : Except Fault UASTsx :=
  match s.heap[p]? with
  | none => Except.error Fault.null_deref
  | some u =>
    (if u._uas_tsx then s.dissociate p else Except.ok s).bind fun s =>
    match s.heap[p]? with
    | none => Except.error Fault.null_deref
    | some u =>
      Except.ok (s.store p { u with _tdata := none, _tsx := false, deleted := true })

/-- Embeds `UACTsx::enter_context` on the child at heap address `p`. -/
def UACTsx.enter_context (s : UASTsx) (p : Nat) : Except Fault UASTsx :=
  match s.heap[p]? with
  | none => Except.error Fault.null_deref
  | some u => Except.ok (s.store p { u with _context_count := u._context_count + 1 })

/-- Embeds `UACTsx::exit_context` on the child at heap address `p`. -/
def UACTsx.exit_context (s : UASTsx) (p : Nat) : Except Fault UASTsx :=
  match s.heap[p]? with
  | none => Except.error Fault.null_deref
  | some u =>
    let u := { u with _context_count := u._context_count - 1 }
    let s := s.store p u
    if u._context_count = 0 ∧ u._pending_destroy = true then UACTsx.destroy s p
    else Except.ok s

/-- Embeds `UACTsx::init`: `status` is the result of `pjsip_tsx_create_uac2`. -/
def UACTsx.init (s : UASTsx) (p : Nat) (tdata : TxRequest) (status : Int) :
    Except Fault (Int × UASTsx) :=
  match s.heap[p]? with
  | none => Except.error Fault.null_deref
  | some u =>
    let u := { u with _tdata := some tdata }
    if status ≠ PJ_SUCCESS then Except.ok (status, s.store p u)
    else Except.ok (PJ_SUCCESS, s.store p { u with _tsx := true })

/-- The effect of `UACTsx::set_target` on the cloned request:
`pjsip_msg_add_hdr` puts each new Route header at the end of the header
list. -/
def apply_target (req : TxRequest) (target : Target) : TxRequest :=
  let req := match target.uri with
    | some uri => { req with uri := uri }
    | none => req
  target.paths.foldl (fun r pit => { r with routes := r.routes ++ [pit] }) req

/-- Embeds `UACTsx::set_target` on the child at heap address `p`. -/
def UACTsx.set_target (s : UASTsx) (p : Nat) (target : Target) : Except Fault UASTsx :=
  (UACTsx.enter_context s p).bind fun s =>
  match s.heap[p]? with
  | none => Except.error Fault.null_deref
  | some u =>
    match u._tdata with
    | none => Except.error Fault.null_deref
    | some req =>
      let u := { u with _tdata := some (apply_target req target) }
      let u := match target.transport with
        | some tp => { u with tp_sel := some tp }
        | none => u
      UACTsx.exit_context (s.store p u) p

/-- The states of a stack transaction (`pjsip_tsx_state_e`). -/
inductive pjsip_tsx_state_e where
  | NULL
  | CALLING
  | TRYING
  | PROCEEDING
  | COMPLETED
  | CONFIRMED
  | TERMINATED
  | DESTROYED
  deriving DecidableEq, Repr

/-- The cause of a transaction state event (`event->body.tsx_state.type`), with
the received message for `RX_MSG`. -/
inductive TsxEvent where
  | RX_MSG (rdata : RxData)
  | TX_MSG
  | TIMER
  | TRANSPORT_ERROR
  | USER
  | UNKNOWN
  deriving DecidableEq, Repr

/-- Embeds `UACTsx::on_tsx_state` on the child at heap address `p`; `state` is the
state the stack has put the child's transaction in. -/
def UACTsx.on_tsx_state (s : UASTsx) (p : Nat) (state : pjsip_tsx_state_e)
    (event : TsxEvent) : Except Fault UASTsx :=
  (UACTsx.enter_context s p).bind fun s =>
  match s.heap[p]? with
  | none => Except.error Fault.null_deref
  | some u =>
    (match u._uas_tsx, event with
      | true, TsxEvent.RX_MSG rdata => s.on_new_client_response p rdata
      | _, _ => Except.ok s).bind fun s =>
    match s.heap[p]? with
    | none => Except.error Fault.null_deref
    | some u =>
      if u._tsx = false then Except.error Fault.null_deref
      else
        (if state = pjsip_tsx_state_e.TERMINATED ∧ u._uas_tsx = true ∧
            (event = TsxEvent.TIMER ∨ event = TsxEvent.TRANSPORT_ERROR) then
          s.on_client_not_responding p
        else Except.ok s).bind fun s =>
        match s.heap[p]? with
        | none => Except.error Fault.null_deref
        | some u =>
          let s :=
            if state = pjsip_tsx_state_e.DESTROYED then
              s.store p { u with _tsx := false, _pending_destroy := true }
            else s
          UACTsx.exit_context s p

/-- Embeds `UACTsx::send_request` on the child at heap address `p`; `status` is the
result of `pjsip_tsx_send_msg`. What the stack does with the transaction when the
sending fails is not in the sources; the comments of the source say it: "the UAC
transaction will have been destroyed when it failed to send the request", and,
at the sending loop, "the request could fail and try to delete the transaction
from the array". So on a failure the stack has destroyed the transaction during
the call, which it reports through `on_tsx_state` with the state DESTROYED; the
child is then deleted by its own `exit_context`. -/
def UACTsx.send_request (s : UASTsx) (p : Nat) (status : Int) : Except Fault UASTsx :=
  (UACTsx.enter_context s p).bind fun s =>
  match s.heap[p]? with
  | none => Except.error Fault.null_deref
  | some u =>
    match u._tdata with
    | none => Except.error Fault.null_deref
    | some req =>
      (if status = PJ_SUCCESS then
          Except.ok { s with out := s.out ++ [Effect.uac_send_msg p req] }
        else
          UACTsx.on_tsx_state s p pjsip_tsx_state_e.DESTROYED
            TsxEvent.TRANSPORT_ERROR).bind fun s =>
      match s.heap[p]? with
      | none => Except.error Fault.null_deref
      | some u => UACTsx.exit_context (s.store p { u with _tdata := none }) p

/-- What the allocations for one target yield in `init_uac_transactions`:
`PJUtils::clone_tdata` returns null, `create_uac_tsx` returns null, or the
child is created and `UACTsx::init` returns the given status. -/
inductive Alloc where
  | clone_null
  | create_null
  | created (init_status : Int)
  deriving DecidableEq, Repr

/-- The first loop of `init_uac_transactions`, over the queued targets. Returns
the status, the state and the list `new_tsx`. -/
def UASTsx.alloc_loop (oracle : Nat → Alloc) :
    List Target → Nat → UASTsx → List Nat → Int → Except Fault (Int × UASTsx × List Nat)
  | [], _, s, new_tsx, status => Except.ok (status, s, new_tsx)
  | target :: rest, index, s, new_tsx, _ =>
    match s._req with
    | none => Except.error Fault.null_deref
    | some req =>
      match oracle index with
      | Alloc.clone_null => Except.ok (PJ_ENOMEM, s, new_tsx)
      | Alloc.create_null => Except.ok (PJ_ENOMEM, s, new_tsx)
      | Alloc.created init_status =>
        let p := s.heap.length
        let s := { s with heap := s.heap ++ [UACTsx.new index] }
        (UACTsx.init s p req init_status).bind fun r =>
        if r.1 ≠ PJ_SUCCESS then Except.ok (r.1, r.2, new_tsx)
        else
          let s := { r.2 with _targets := rest }
          (UACTsx.set_target s p target).bind fun s =>
          UASTsx.alloc_loop oracle rest (index + 1) s (new_tsx ++ [p]) r.1

/-- The sending loop of `init_uac_transactions`; `send_status p` is the result of
`pjsip_tsx_send_msg` for the child at heap address `p`. -/
def UASTsx.send_loop (send_status : Nat → Int) : List Nat → UASTsx → Except Fault UASTsx
  | [], s => Except.ok s
  | p :: rest, s =>
    let s := { s with _uac_tsx := s._uac_tsx ++ [some p] }
    (UACTsx.send_request s p (send_status p)).bind fun s =>
    UASTsx.send_loop send_status rest { s with _pending_targets := s._pending_targets + 1 }

/-- The clean-up loop of `init_uac_transactions`. -/
def UASTsx.cleanup_loop : List Nat → UASTsx → Except Fault UASTsx
  | [], s => Except.ok s
  | p :: rest, s => (UACTsx.destroy s p).bind fun s => UASTsx.cleanup_loop rest s

/-- Embeds `UASTsx::init_uac_transactions`; `oracle` gives what the allocations
yield for the target at each index, `send_status` the result of
`pjsip_tsx_send_msg` for the child at each heap address. -/
def UASTsx.init_uac_transactions (s : UASTsx) (oracle : Nat → Alloc)
    (send_status : Nat → Int) : Except Fault (Int × UASTsx) :=
  match s._tsx with
  | none => Except.ok (PJ_EUNKNOWN, s)
  | some _ =>
    (UASTsx.alloc_loop oracle s._targets s._uac_tsx.length s [] PJ_EUNKNOWN).bind fun r =>
    if r.1 = PJ_SUCCESS then
      (UASTsx.send_loop send_status r.2.2 r.2.1).bind fun s => Except.ok (r.1, s)
    else
      (UASTsx.cleanup_loop r.2.2 r.2.1).bind fun s => Except.ok (r.1, s)

/-- Embeds `UASTsx::add_target`. -/
def UASTsx.add_target (s : UASTsx) (target : Target) : UASTsx :=
  { s with _targets := s._targets ++ [target] }

/-! ## `BasicProxy::verify_request` -/

/-- Embeds `BasicProxy::verify_request`: returns the status and the stateless responses
sent. -/
def verify_request (rdata : RxRequest) : Int × List Effect :=
  if !PJSIP_URI_SCHEME_IS_SIP rdata.uri then
    (PJSIP_ERRNO_FROM_SIP_STATUS PJSIP_SC_UNSUPPORTED_URI_SCHEME,
      [Effect.respond_stateless PJSIP_SC_UNSUPPORTED_URI_SCHEME])
  else
    match rdata.max_fwd with
    | some ivalue =>
      if ivalue ≤ 1 then
        (PJSIP_ERRNO_FROM_SIP_STATUS PJSIP_SC_TOO_MANY_HOPS,
          [Effect.respond_stateless PJSIP_SC_TOO_MANY_HOPS])
      else (PJ_SUCCESS, [])
    | none => (PJ_SUCCESS, [])

/-! ## Observations on the output trace -/

/-- The responses handed to `pjsip_tsx_send_msg` on the UAS transaction, in
order. -/
def uas_sent : List Effect → List TxData
  | [] => []
  | Effect.tsx_send_msg tdata :: rest => tdata :: uas_sent rest
  | _ :: rest => uas_sent rest

/-- The final responses (status at least 200) sent on the UAS transaction. -/
def uas_finals (out : List Effect) : List TxData :=
  (uas_sent out).filter fun tdata => decide (200 ≤ tdata.code)

/-! ## Descriptions of single steps -/

/-- The forwardable copy of a received response, when it can be built. -/
def fwd_of (rdata : RxData) : TxData :=
  { code := rdata.code, origin := Origin.forwarded rdata.body, vias := rdata.vias.tail }

/-- The buffer `on_new_client_response` keeps as `_best_rsp` in its branch for
final non-OK responses: the new one when nothing is stored or when
`compare_sip_sc` says it is strictly better, else the stored one. -/
def kept_best (stored : Option TxData) (tdata : TxData) : TxData :=
  match stored with
  | none => tdata
  | some best_rsp => if compare_sip_sc tdata.code best_rsp.code > 0 then tdata else best_rsp

/-- The trace entries `on_final_response` adds when it sends `best_rsp` on a
transaction of the given method. -/
def final_effects (method : pjsip_method_e) (best_rsp : TxData) : List Effect :=
  if method = pjsip_method_e.INVITE ∧ best_rsp.code = 200 then
    [Effect.tsx_send_msg best_rsp, Effect.tsx_terminate 200]
  else [Effect.tsx_send_msg best_rsp]

/-- The state `on_new_client_response` leaves in its branch for a final non-OK
response, on a live transaction with a valid child. -/
def non_ok_result (s : UASTsx) (method : pjsip_method_e) (uac : Nat) (u : UACTsx)
    (rdata : RxData) : UASTsx :=
  UASTsx.exit_context
    { UASTsx.enter_context s with
      _best_rsp :=
        if s._pending_targets - 1 = 0 then none
        else some (kept_best s._best_rsp (fwd_of rdata))
      _pending_targets := s._pending_targets - 1
      heap := s.heap.set uac { u with _uas_tsx := false }
      _uac_tsx := s._uac_tsx.set u._index none
      out :=
        if s._pending_targets - 1 = 0 then
          s.out ++ final_effects method (kept_best s._best_rsp (fwd_of rdata))
        else s.out }

/-! ## Delivery of child events -/

/-- An event a child reports to its `UASTsx`. -/
inductive ChildEvent where
  | response (uac : Nat) (rdata : RxData)
  | not_responding (uac : Nat)
  deriving DecidableEq, Repr

/-- The `UASTsx` method a child event invokes. -/
def UASTsx.handle (s : UASTsx) : ChildEvent → Except Fault UASTsx
  | ChildEvent.response uac rdata => s.on_new_client_response uac rdata
  | ChildEvent.not_responding uac => s.on_client_not_responding uac

/-- Child events handled one after the other (the group lock serialises
them). -/
def UASTsx.run : UASTsx → List ChildEvent → Except Fault UASTsx
  | s, [] => Except.ok s
  | s, e :: rest => (s.handle e).bind fun s' => UASTsx.run s' rest

/-- The children still associated with the `UASTsx`: the non-null slots. -/
def UASTsx.children (s : UASTsx) : List Nat :=
  s._uac_tsx.filterMap id

/-- What is kept as best response after the listed responses, starting from
`best_rsp`, when each goes through the branch for final non-OK responses. -/
def best_after (best_rsp : TxData) : List (Nat × RxData) → TxData
  | [] => best_rsp
  | e :: rest => best_after (kept_best (some best_rsp) (fwd_of e.2)) rest

/-! ## Routing preprocessing and target calculation -/

/-- Modelled from the spec: the `Target` constructor, declared in `basicproxy.h`
which is not among the sources; it yields the empty Target, all fields null. -/
def Target.new : Target :=
  { uri := none, paths := [], transport := none }

/-- The first part of `BasicProxy::process_routing` (strict-route recovery), with
`PJUtils::is_uri_local` as a parameter. The result is `none` when the function
returns `PJSIP_SC_OK` at once (locally owned Request-URI, no Route header), else
the request it goes on with. -/
def strict_route_recovery (is_uri_local : Uri → Bool) (tdata : TxRequest) :
    Option TxRequest :=
  if is_uri_local tdata.uri then
    match tdata.routes.getLast? with
    | none => none
    | some hroute =>
      if hroute.lr_param = false then
        some { tdata with uri := hroute, routes := tdata.routes.dropLast }
      else some tdata
  else some tdata

/-- The second part of `BasicProxy::process_routing` (routing on the top Route
header), with `PJUtils::is_uri_local` and `PJUtils::is_home_domain` as
parameters: the request and the target it leaves. -/
def loose_route_consumption (is_uri_local is_home_domain : Uri → Bool)
    (tdata : TxRequest) : TxRequest × Option Target :=
  match tdata.routes with
  | [] => (tdata, none)
  | hroute :: rest =>
    if (!is_uri_local hroute) && (!is_home_domain hroute) then
      (tdata, some { Target.new with uri := some tdata.uri })
    else ({ tdata with routes := rest }, none)

/-- Embeds `BasicProxy::process_routing`: the status code, the request and the
target it leaves (the caller passes a null target in). -/
def process_routing (is_uri_local is_home_domain : Uri → Bool) (tdata : TxRequest) :
    Int × TxRequest × Option Target :=
  match strict_route_recovery is_uri_local tdata with
  | none => (PJSIP_SC_OK, tdata, none)
  | some tdata1 =>
    (PJSIP_SC_OK, loose_route_consumption is_uri_local is_home_domain tdata1)

def PJSIP_SC_NOT_FOUND : Int := 404
def PJSIP_SC_INTERNAL_SERVER_ERROR : Int := 500

/-- Embeds `UASTsx::calculate_targets` (the base policy), with
`PJUtils::is_home_domain` and `PJUtils::is_uri_local` as parameters. -/
def UASTsx.calculate_targets (is_home_domain is_uri_local : Uri → Bool) (s : UASTsx) :
    Except Fault (Int × UASTsx) :=
  match s._req with
  | none => Except.error Fault.null_deref
  | some tdata =>
    if (!is_home_domain tdata.uri) && (!is_uri_local tdata.uri) then
      Except.ok (PJSIP_SC_OK, s.add_target Target.new)
    else Except.ok (PJSIP_SC_NOT_FOUND, s)

/-- Embeds `UASTsx::send_response`: the buffer held as `_best_rsp` gets the given
status code and is sent on the UAS transaction; for a provisional status a copy
of it is sent and `_best_rsp` stays. The reason phrase is not modelled. With a
null `_tsx` the stack refuses the message and nothing is sent. -/
def UASTsx.send_response (s : UASTsx) (st_code : Int) : Except Fault UASTsx :=
  match s._best_rsp with
  | none => Except.error Fault.null_deref
  | some best_rsp =>
    let sent : List Effect :=
      match s._tsx with
      | none => []
      | some _ => [Effect.tsx_send_msg { best_rsp with code := st_code }]
    if 100 ≤ st_code ∧ st_code < 200 then Except.ok { s with out := s.out ++ sent }
    else Except.ok { s with _best_rsp := none, out := s.out ++ sent }

/-- The part of `process_tsx_request` that follows the target calculation. -/
def UASTsx.dispatch_targets (oracle : Nat → Alloc) (send_status : Nat → Int) (s : UASTsx) :
    Except Fault UASTsx :=
  if s._targets.length = 0 then s.send_response PJSIP_SC_NOT_FOUND
  else
    (s.init_uac_transactions oracle send_status).bind fun r =>
      if r.1 ≠ PJ_SUCCESS then r.2.send_response PJSIP_SC_INTERNAL_SERVER_ERROR
      else Except.ok r.2

/-- Embeds `UASTsx::process_tsx_request`, with the base `calculate_targets`. -/
def UASTsx.process_tsx_request (is_home_domain is_uri_local : Uri → Bool)
    (oracle : Nat → Alloc) (send_status : Nat → Int) (s : UASTsx) : Except Fault UASTsx :=
  if s._targets.length = 0 then
    (s.calculate_targets is_home_domain is_uri_local).bind fun r =>
      if r.1 ≠ PJSIP_SC_OK then r.2.send_response r.1
      else r.2.dispatch_targets oracle send_status
  else s.dispatch_targets oracle send_status

/-! ## Cancellation and the state events of the UAS transaction -/

/-- The value of the Reason header `cancel_pending_tsx` builds with
`sprintf` from the status code and its reason phrase. -/
def reason_val (st_code : Int) (st_text : String) : String :=
  "SIP ;cause=" ++ toString st_code ++ " ;text=\"" ++ st_text ++ "\""

/-- Embeds `UACTsx::cancel_pending_tsx` on the child at heap address `p`, with the
stack's `pjsip_get_status_text` as a parameter. -/
def UACTsx.cancel_pending_tsx (status_text : Int → String) (s : UASTsx) (p : Nat)
    (st_code : Int) : Except Fault UASTsx :=
  match s.heap[p]? with
  | none => Except.error Fault.null_deref
  | some u =>
    if u._tsx = true then
      (UACTsx.enter_context s p).bind fun s =>
      let s :=
        if u.status_code < 200 then
          { s with out := s.out ++
              [Effect.send_cancel p
                (if st_code ≠ 0 then some (reason_val st_code (status_text st_code)) else none)
                u.tp_sel] }
        else s
      UACTsx.exit_context s p
    else Except.ok s

/-- The loop of `cancel_pending_uac_tsx` over the slot indices. -/
def UASTsx.cancel_loop (status_text : Int → String) (st_code : Int) (dissociate_uac : Bool) :
    List Nat → UASTsx → Except Fault UASTsx
  | [], s => Except.ok s
  | ii :: rest, s =>
    match s._uac_tsx[ii]? with
    | some (some p) =>
      (UACTsx.cancel_pending_tsx status_text s p st_code).bind fun s =>
      (if dissociate_uac then s.dissociate p else Except.ok s).bind fun s =>
      UASTsx.cancel_loop status_text st_code dissociate_uac rest s
    | _ => UASTsx.cancel_loop status_text st_code dissociate_uac rest s

/-- Embeds `UASTsx::cancel_pending_uac_tsx`. -/
def UASTsx.cancel_pending_uac_tsx (status_text : Int → String) (s : UASTsx)
    (st_code : Int) (dissociate_uac : Bool) : Except Fault UASTsx :=
  let s := UASTsx.enter_context s
  (UASTsx.cancel_loop status_text st_code dissociate_uac
    (List.range s._uac_tsx.length) s).bind fun s =>
  Except.ok (UASTsx.exit_context s)

/-- Embeds `BasicProxy::on_cancel_request`. `invite_uas` tells whether
`pjsip_tsx_layer_find_tsx` finds the UAS INVITE transaction (the one of `s`);
`create_status` is the result of `pjsip_tsx_create_uas` for the CANCEL. The
`UASTsx` bound to the transaction found is `s` as long as its `_tsx` is set. -/
def on_cancel_request (status_text : Int → String) (s : UASTsx) (invite_uas : Bool)
    (create_status : Int) : Except Fault UASTsx :=
  if invite_uas = false then
    Except.ok { s with out := s.out ++ [Effect.respond_stateless 481] }
  else if create_status ≠ PJ_SUCCESS then
    Except.ok { s with out := s.out ++
      [Effect.respond_stateless PJSIP_SC_INTERNAL_SERVER_ERROR] }
  else
    let s := { s with out := s.out ++ [Effect.respond_stateful 200] }
    match s._tsx with
    | none => Except.error Fault.null_deref
    | some _ => s.cancel_pending_uac_tsx status_text 0 false

/-- Embeds `UASTsx::on_tsx_state`: `state` is the state the stack has put the UAS
transaction in. -/
def UASTsx.on_tsx_state (status_text : Int → String) (s : UASTsx)
    (state : pjsip_tsx_state_e) : Except Fault UASTsx :=
  let s := UASTsx.enter_context s
  match s._tsx with
  | none => Except.error Fault.null_deref
  | some tsx =>
    if state = pjsip_tsx_state_e.DESTROYED then
      (if tsx.method = pjsip_method_e.INVITE then
          s.cancel_pending_uac_tsx status_text 0 true
        else Except.ok s).bind fun s =>
      UASTsx.exit_context_delete { s with _tsx := none, _pending_destroy := true }
    else UASTsx.exit_context_delete s

/-! ## Stateless forwarding of late responses -/

/-- Embeds `BasicProxy::on_rx_response`: what is handed to the stack to be
sent. -/
def on_rx_response (rdata : RxData) : List Effect :=
  match create_response_fwd rdata with
  | none => []
  | some tdata =>
    match tdata.vias with
    | [] => []
    | hvia :: _ =>
      let host := if hvia.recvd_param.length = 0 then hvia.sent_by_host else hvia.recvd_param
      let port : Int := if hvia.rport_param ≠ 0 ∧ hvia.rport_param ≠ -1 then hvia.rport_param else 0
      let port := if port = 0 then hvia.sent_by_port else port
      [Effect.endpt_send_response hvia.transport host port tdata]

/-! ## Sample forks -/

def sample_uri : Uri :=
  { scheme := ['s', 'i', 'p'], user := "bob", host := "example.net", lr_param := false }

def sample_rx (method : pjsip_method_e) : RxRequest :=
  { method := method, uri := sample_uri, max_fwd := some 70 }

def sample_request (method : pjsip_method_e) : TxRequest :=
  { method := method, uri := sample_uri, routes := [] }

def empty_target : Target :=
  { uri := none, paths := [], transport := none }

/-- A request of the given method received and forked to `n` empty targets, as
`on_tsx_request` drives it: `init`, `add_target` for each target,
`init_uac_transactions` with every allocation and every sending succeeding,
`exit_context`. -/
def sample_fork (method : pjsip_method_e) (delay_trying : Bool) (n : Nat) :
    Except Fault (Int × UASTsx) :=
  let s := ((UASTsx.new delay_trying).init (sample_rx method) (sample_request method)
    PJ_SUCCESS PJ_SUCCESS true).2
  let s := (List.replicate n empty_target).foldl UASTsx.add_target s
  (s.init_uac_transactions (fun _ => Alloc.created PJ_SUCCESS) fun _ => PJ_SUCCESS).bind
    fun r => Except.ok (r.1, UASTsx.exit_context r.2)

/-- The state of `sample_fork`. -/
def fork_state (method : pjsip_method_e) (delay_trying : Bool) (n : Nat) : UASTsx :=
  match sample_fork method delay_trying n with
  | Except.ok r => r.2
  | Except.error _ => UASTsx.new delay_trying

/-- The locally built 408 response of `UASTsx::init`. -/
def template_408 : TxData :=
  { code := PJSIP_SC_REQUEST_TIMEOUT, origin := Origin.template }

/-- A received response with the given status and payload, for which the
forwardable copy can be built. -/
def rx (code : Int) (body : Nat) : RxData :=
  { code := code, body := body, fwd_ok := true }

/-- The state `on_client_not_responding` leaves on a live transaction with a
valid child, when a best response is stored. -/
def not_responding_result (s : UASTsx) (method : pjsip_method_e) (uac : Nat) (u : UACTsx)
    (best_rsp : TxData) : UASTsx :=
  UASTsx.exit_context
    { UASTsx.enter_context s with
      _best_rsp := if s._pending_targets - 1 = 0 then none else some best_rsp
      _pending_targets := s._pending_targets - 1
      heap := s.heap.set uac { u with _uas_tsx := false }
      _uac_tsx := s._uac_tsx.set u._index none
      out :=
        if s._pending_targets - 1 = 0 then s.out ++ final_effects method best_rsp
        else s.out }

/-- The child events of the listed responses, each with the child it comes
from. -/
def responses (evs : List (Nat × RxData)) : List ChildEvent :=
  evs.map fun e => ChildEvent.response e.1 e.2

/-- The status codes of the listed responses. -/
def statuses (evs : List (Nat × RxData)) : List Int :=
  evs.map fun e => e.2.code

/-- The child an event comes from. -/
def ChildEvent.child : ChildEvent → Nat
  | ChildEvent.response uac _ => uac
  | ChildEvent.not_responding uac => uac

/-- A child event that reports a failure: a response with a status in 300-699
whose forwardable copy can be built, or a timeout or transport error. -/
def ChildEvent.is_failure : ChildEvent → Prop
  | ChildEvent.response _ rdata => 300 ≤ rdata.code ∧ rdata.code ≤ 699 ∧ rdata.fwd_ok = true
  | ChildEvent.not_responding _ => True

/-- What is kept as best response after the listed failure events, starting
from `best_rsp`: responses go through `kept_best`, timeouts and transport errors
leave it as it is. -/
def best_after_events (best_rsp : TxData) : List ChildEvent → TxData
  | [] => best_rsp
  | ChildEvent.response _ rdata :: rest =>
    best_after_events (kept_best (some best_rsp) (fwd_of rdata)) rest
  | ChildEvent.not_responding _ :: rest => best_after_events best_rsp rest

/-! ## Sample requests for routing -/

/-- A URI of this proxy, with the `lr` parameter. -/
def proxy_uri : Uri :=
  { scheme := ['s', 'i', 'p'], user := "", host := "proxy.example.net", lr_param := true }

/-- A URI of another node, without the `lr` parameter. -/
def strict_hop_uri : Uri :=
  { scheme := ['s', 'i', 'p'], user := "alice", host := "strict.example.org",
    lr_param := false }

/-- A URI of another node, with the `lr` parameter. -/
def loose_hop_uri : Uri :=
  { scheme := ['s', 'i', 'p'], user := "", host := "loose.example.org", lr_param := true }

/-- A sample of `PJUtils::is_uri_local`: the proxy owns `proxy.example.net`. -/
def sample_is_uri_local (u : Uri) : Bool :=
  u.host == "proxy.example.net"

/-- A sample of `PJUtils::is_home_domain`: the home domain is `example.net`. -/
def sample_is_home_domain (u : Uri) : Bool :=
  u.host == "example.net"

/-- Two Via headers of a late response: the proxy's own on top, then the one of
the upstream node. -/
def sample_vias : List Via :=
  [{ transport := "TCP", sent_by_host := "proxy.example.net", sent_by_port := 5060,
     recvd_param := "", rport_param := -1 },
   { transport := "UDP", sent_by_host := "up.example.org", sent_by_port := 5070,
     recvd_param := "192.0.2.7", rport_param := 40001 }]

/-- The state `UASTsx::init` leaves for a request of the given method to
`sample_uri`, before any target is known. -/
def initial_state (method : pjsip_method_e) (delay_trying : Bool) : UASTsx :=
  ((UASTsx.new delay_trying).init (sample_rx method) (sample_request method)
    PJ_SUCCESS PJ_SUCCESS true).2

/-! ## Descriptions of cancellation -/

/-- The slot invariant at slot `ii`: a non-null slot holds a valid pointer to a
child whose `_index` is `ii` and which does not await destruction. -/
def UASTsx.slot_ok (s : UASTsx) (ii : Nat) : Bool :=
  match s._uac_tsx[ii]? with
  | some (some p) =>
    match s.heap[p]? with
    | some u => u._index == ii && !u._pending_destroy
    | none => false
  | _ => true

/-- What `cancel_pending_tsx` sends for the child `u` at heap address `p`: a
CANCEL when the child has a stack transaction whose status code is below 200,
with a Reason header exactly when the given code is not 0. -/
def cancel_effects (status_text : Int → String) (st_code : Int) (u : UACTsx) (p : Nat) :
    List Effect :=
  if u._tsx = true ∧ u.status_code < 200 then
    [Effect.send_cancel p
      (if st_code ≠ 0 then some (reason_val st_code (status_text st_code)) else none)
      u.tp_sel]
  else []

/-- What `cancel_pending_uac_tsx` sends over the listed slots, given the heap and
the slots on entry. -/
def cancel_list (status_text : Int → String) (st_code : Int) (heap : List UACTsx)
    (slots : List (Option Nat)) : List Nat → List Effect
  | [] => []
  | ii :: rest =>
    (match slots[ii]? with
      | some (some p) =>
        match heap[p]? with
        | some u => cancel_effects status_text st_code u p
        | none => []
      | _ => []) ++ cancel_list status_text st_code heap slots rest

/-- The reason phrases of the stack, as far as the samples need them. -/
def sample_status_text (code : Int) : String :=
  if code = 486 then "Busy Here" else if code = 200 then "OK" else "Unknown"

/-- The fields of a `UASTsx` other than the slots, the heap and the output
trace. -/
def UASTsx.core (s : UASTsx) :
    Bool × Option TxRequest × Option pjsip_transaction × List Target × Int ×
      Option TxData × Bool × Int × Bool :=
  (s.delay_trying, s._req, s._tsx, s._targets, s._pending_targets, s._best_rsp,
    s._pending_destroy, s._context_count, s.deleted)

end BasicProxy

/-!
# The registration authentication filter

`authentication.cpp` is not among the sources; its tests
(`src/sprout/ut/authentication_test.cpp`) are. The client side of the tests is
embedded from the source; the filter is modelled from the specification, and
the tests are replayed against that model.
-/

namespace Authentication

/-! ## The client side of the tests -/

/-- One hexadecimal digit, lowercase, as `std::hex` prints it. -/
def hex_digit (n : Nat) : Char :=
  if n < 10 then Char.ofNat (48 + n) else Char.ofNat (87 + n)

/-- Embeds `AuthenticationMessage::hash2str`: each of the 16 bytes of the hash as
two lowercase hexadecimal digits. -/
def hash2str (hash : List Nat) : String :=
  String.mk ((List.range 16).flatMap fun i =>
    [hex_digit (hash.getD i 0 % 256 / 16), hex_digit (hash.getD i 0 % 16)])

/-- Embeds `pj_hex_digit_to_val` of pjlib (`pj/ctype.h`), which
`calculate_digest_response` calls, on the character code. -/
def pj_hex_digit_to_val (c : Nat) : Nat :=
  if c ≤ 57 then (((c : Int) - 48) % 16).toNat
  else if c ≤ 70 then (((c : Int) - 65 + 10) % 16).toNat
  else (((c : Int) - 97 + 10) % 16).toNat

/-- The loop of `calculate_digest_response` that turns the key, two hexadecimal
digits at a time, into bytes (the character after the end of a `std::string` is
the null character). -/
def hex_decode : List Char → List Char
  | [] => []
  | [a] => [Char.ofNat ((pj_hex_digit_to_val a.toNat * 16 + pj_hex_digit_to_val 0) % 256)]
  | a :: b :: rest =>
    Char.ofNat ((pj_hex_digit_to_val a.toNat * 16 + pj_hex_digit_to_val b.toNat) % 256) ::
      hex_decode rest

/-- Embeds the test class `AuthenticationMessage`. Its field `_opaque` is `_opq`
here, the word being reserved. -/
structure AuthenticationMessage where
  _method : String
  _user : String := "6505550001"
  _domain : String := "homedomain"
  _auth_hdr : Bool := true
  _auth_user : String := "6505550001@homedomain"
  _auth_realm : String := "homedomain"
  _nonce : String := ""
  _nc : String := ""
  _cnonce : String := ""
  _qop : String := ""
  _uri : String := "sip:homedomain"
  _response : String := ""
  _algorithm : String := "MD5"
  _opq : String := ""
  _integ_prot : String := ""
  _auts : String := ""
  _key : String := ""
  _sos : Bool := false
  _extra_contact : String := ""
  deriving DecidableEq, Repr

/-- The digest `calculate_digest_response` computes, with the MD5 function of
`md5.h` as a parameter: from the data appended, the bytes of a string, to the 16
bytes of the hash. -/
def digest_response (md5 : String → List Nat) (m : AuthenticationMessage) : String :=
  let ha1 :=
    if m._algorithm = "AKAv1-MD5" then
      hash2str (md5 (m._auth_user ++ ":" ++ m._auth_realm ++ ":" ++
        String.mk (hex_decode m._key.data)))
    else m._key
  let ha2 := hash2str (md5 (m._method ++ ":" ++ m._uri))
  hash2str (md5 (ha1 ++ ":" ++ m._nonce ++ ":" ++ m._nc ++ ":" ++ m._cnonce ++ ":" ++
    m._qop ++ ":" ++ ha2))

/-- Embeds `AuthenticationMessage::calculate_digest_response`. -/
def AuthenticationMessage.calculate_digest_response (md5 : String → List Nat)
    (m : AuthenticationMessage) : AuthenticationMessage :=
  { m with _response := digest_response md5 m }

/-! ## The request as the filter sees it -/

/-- The parameters of an Authorization header. A parameter the header does not
carry is the empty string, or `none` for the three whose presence the
specification tests. -/
structure Authorization where
  username : String
  realm : String
  nonce : String
  uri : String
  response : Option String
  opq : String
  nc : String
  cnonce : String
  qop : String
  auts : Option String
  integrity_protected : Option String
  algorithm : String
  deriving DecidableEq, Repr

/-- A request as the filter inspects it: the port it arrived on, the method,
the public identity (IMPU), for each Contact URI whether it carries the `sos`
parameter, and the Authorization header. -/
structure Request where
  port : Nat
  method : String
  impu : String
  contacts_sos : List Bool
  authorization : Option Authorization
  deriving DecidableEq, Repr

/-- A parameter that `AuthenticationMessage::get` writes only when the field is
not empty. -/
def opt_param (v : String) : Option String :=
  if v = "" then none else some v

/-- Embeds `AuthenticationMessage::get`, as the request the stack parses from the
text it writes, arriving on the given port: one Contact with `sos` according to
`_sos`, a second Contact without `sos` when `_extra_contact` is set, and the
Authorization header when `_auth_hdr` is set. The response is computed first
when none is given and a key is. -/
def AuthenticationMessage.get (md5 : String → List Nat) (port : Nat)
    (m : AuthenticationMessage) : Request :=
  let m := if m._response = "" ∧ m._key ≠ "" then m.calculate_digest_response md5 else m
  { port := port,
    method := m._method,
    impu := "sip:" ++ m._user ++ "@" ++ m._domain,
    contacts_sos := if m._extra_contact = "" then [m._sos] else [m._sos, false],
    authorization :=
      if m._auth_hdr then
        some { username := m._auth_user, realm := m._auth_realm, nonce := m._nonce,
               uri := m._uri, response := opt_param m._response, opq := m._opq,
               nc := m._nc, cnonce := m._cnonce, qop := m._qop, auts := opt_param m._auts,
               integrity_protected := opt_param m._integ_prot, algorithm := m._algorithm }
      else none }

/-! ## The filter -/

/-- Modelled from the spec: the two challenge schemes of an AuthChallenge. -/
inductive Scheme where
  | Digest
  | AKA
  deriving DecidableEq, Repr

/-- Modelled from the spec: an entry of the AuthVectorStore (the `AvStore` class
is not among the sources). The expiry instant is left out: time is not
modelled, an expired entry is an absent entry. -/
structure AuthChallenge where
  impi : String
  nonce : String
  scheme : Scheme
  ha1_or_xres : String
  realm : String
  qop : String
  opq : String
  ck : Option String
  ik : Option String
  nc_used : List String
  deriving DecidableEq, Repr

/-- A query to the HSS: `/impi/<IMPI>/av?impu=<IMPU>` for Digest,
`/impi/<IMPI>/av/aka?impu=<IMPU>[&autn=<resync>]` for AKA. -/
structure HssQuery where
  impi : String
  impu : String
  aka : Bool
  autn : Option String
  deriving DecidableEq, Repr

/-- The fields of the JSON body the HSS returns; a missing field is `none`. -/
structure AvBody where
  digest_realm : Option String := none
  digest_qop : Option String := none
  digest_ha1 : Option String := none
  aka_challenge : Option String := none
  aka_response : Option String := none
  aka_cryptkey : Option String := none
  aka_integritykey : Option String := none
  deriving DecidableEq, Repr

/-- Modelled from the spec: what the HSS answers, a JSON body, 404, or 503/504. -/
inductive HssResult where
  | body (av : AvBody)
  | not_found
  | overload
  deriving DecidableEq, Repr

/-- Modelled from the spec: the parameters of a WWW-Authenticate header. -/
structure WwwAuthenticate where
  realm : String
  nonce : String
  opq : String
  qop : String
  algorithm : String
  stale : Bool
  ck : Option String
  ik : Option String
  deriving DecidableEq, Repr

/-- Modelled from the spec: what the filter does with a request. It admits it
downstream without any response, or it answers with a status code, with a
challenge for 401. -/
inductive Outcome where
  | admitted
  | rejected (code : Nat) (challenge : Option WwwAuthenticate)
  deriving DecidableEq, Repr

/-- Modelled from the spec: what the filter depends on, configuration and
collaborators. `replay_status` is the status that rejects a replayed
nonce-count, which the specification leaves open; `md5` gives the 16 bytes of
the MD5 hash of a byte string; `default_impi` gives the private identity for a
public one when no username is supplied. -/
structure Env where
  scscf_port : Nat
  home_domain : String
  replay_status : Nat
  md5 : String → List Nat
  hss : HssQuery → HssResult
  default_impi : String → String

/-- Modelled from the spec: the result of the filter on one request, the outcome,
the store afterwards and the queries sent to the HSS. -/
structure FilterResult where
  outcome : Outcome
  store : List AuthChallenge
  queries : List HssQuery
  deriving DecidableEq, Repr

/-- Modelled from the spec: lookup in the AuthVectorStore by `(impi, nonce)`. -/
def lookup (store : List AuthChallenge) (impi nonce : String) : Option AuthChallenge :=
  store.find? fun ch => ch.impi = impi ∧ ch.nonce = nonce

/-- Modelled from the spec: deletion from the AuthVectorStore by
`(impi, nonce)`. -/
def erase (store : List AuthChallenge) (impi nonce : String) : List AuthChallenge :=
  store.filter fun ch => ¬ (ch.impi = impi ∧ ch.nonce = nonce)

/-- Modelled from the spec: insertion into the AuthVectorStore, where
`(impi, nonce)` is unique. -/
def insert (store : List AuthChallenge) (ch : AuthChallenge) : List AuthChallenge :=
  ch :: erase store ch.impi ch.nonce

/-- Modelled from the spec: the challenge path of the filter (section 4.5): query
the HSS, parse the body, store an AuthChallenge and answer 401 with
WWW-Authenticate; 403 on 404 or a missing field, 504 on 503/504. For AKA the
nonce is `aka.challenge` and the realm is the home domain. -/
def challenge (env : Env) (store : List AuthChallenge) (impi impu : String) (aka : Bool)
    (autn : Option String) (stale : Bool) (fresh_nonce fresh_opq : String) :
    FilterResult :=
  let q : HssQuery := { impi := impi, impu := impu, aka := aka, autn := autn }
  match env.hss q with
  | HssResult.overload =>
    { outcome := Outcome.rejected 504 none, store := store, queries := [q] }
  | HssResult.not_found =>
    { outcome := Outcome.rejected 403 none, store := store, queries := [q] }
  | HssResult.body av =>
    if aka then
      match av.aka_challenge, av.aka_response, av.aka_cryptkey, av.aka_integritykey with
      | some c, some r, some ck, some ik =>
        { outcome := Outcome.rejected 401 (some
            { realm := env.home_domain, nonce := c, opq := fresh_opq, qop := "auth",
              algorithm := "AKAv1-MD5", stale := stale, ck := some ck, ik := some ik }),
          store := insert store
            { impi := impi, nonce := c, scheme := Scheme.AKA, ha1_or_xres := r,
              realm := env.home_domain, qop := "auth", opq := fresh_opq,
              ck := some ck, ik := some ik, nc_used := [] },
          queries := [q] }
      | _, _, _, _ =>
        { outcome := Outcome.rejected 403 none, store := store, queries := [q] }
    else
      match av.digest_realm, av.digest_qop, av.digest_ha1 with
      | some realm, some qop, some ha1 =>
        { outcome := Outcome.rejected 401 (some
            { realm := realm, nonce := fresh_nonce, opq := fresh_opq, qop := "auth",
              algorithm := "MD5", stale := stale, ck := none, ik := none }),
          store := insert store
            { impi := impi, nonce := fresh_nonce, scheme := Scheme.Digest,
              ha1_or_xres := ha1, realm := realm, qop := qop, opq := fresh_opq,
              ck := none, ik := none, nc_used := [] },
          queries := [q] }
      | _, _, _ =>
        { outcome := Outcome.rejected 403 none, store := store, queries := [q] }

/-- Modelled from the spec: the sixteen hexadecimal digits in lowercase, in the
order of their values. -/
def lowercase_digits : List Char :=
  "0123456789abcdef".data

/-- Modelled from the spec: "lowercase hex" of a hash (section 4.5, step 4): every
byte written as its two hexadecimal digits, the high one first. It is written
from the words of the specification, not from `hash2str` of the tests. -/
def lowercase_hex (bytes : List Nat) : String :=
  String.mk (bytes.flatMap fun b =>
    [lowercase_digits.getD (b / 16) '0', lowercase_digits.getD (b % 16) '0'])

/-- Modelled from the spec: the value of a hexadecimal digit, of either case, and
`none` for any other character. -/
def hex_value (c : Char) : Option Nat :=
  if 48 ≤ c.toNat ∧ c.toNat ≤ 57 then some (c.toNat - 48)
  else if 97 ≤ c.toNat ∧ c.toNat ≤ 102 then some (c.toNat - 97 + 10)
  else if 65 ≤ c.toNat ∧ c.toNat ≤ 70 then some (c.toNat - 65 + 10)
  else none

/-- Modelled from the spec: "raw bytes of `aka.response` hex-decoded" (section
4.5, step 4): two hexadecimal digits to a byte, and `none` when the text is not
made of pairs of hexadecimal digits. It is written from the words of the
specification, not from the loop of `calculate_digest_response`. -/
def hex_decoded : List Char → Option (List Char)
  | [] => some []
  | [_] => none
  | a :: b :: rest =>
    match hex_value a, hex_value b, hex_decoded rest with
    | some x, some y, some bytes => some (Char.ofNat (x * 16 + y) :: bytes)
    | _, _, _ => none

/-- Modelled from the spec: the response the filter expects (section 4.5, step 4):
`MD5(HA1:nonce:nc:cnonce:qop:HA2)` in lowercase hexadecimal, with HA1 the stored
one for Digest and `MD5(username:realm:` hex-decoded stored response`)` for AKA,
and HA2 `MD5(METHOD:URI)`. There is none when the stored AKA response cannot be
decoded. -/
def expected_response (env : Env) (ch : AuthChallenge) (a : Authorization)
    (method : String) : Option String :=
  let ha1 : Option String :=
    match ch.scheme with
    | Scheme.Digest => some ch.ha1_or_xres
    | Scheme.AKA =>
      (hex_decoded ch.ha1_or_xres.data).map fun raw =>
        lowercase_hex (env.md5 (a.username ++ ":" ++ a.realm ++ ":" ++ String.mk raw))
  let ha2 := lowercase_hex (env.md5 (method ++ ":" ++ a.uri))
  ha1.map fun ha1 =>
    lowercase_hex (env.md5 (ha1 ++ ":" ++ a.nonce ++ ":" ++ a.nc ++ ":" ++ a.cnonce ++ ":" ++
      a.qop ++ ":" ++ ha2))

/-- Modelled from the spec: the private identity of a request with an
Authorization header, its username, or the default for the public identity when it has none. -/
def impi_of (env : Env) (impu : String) (a : Authorization) : String :=
  if a.username = "" then env.default_impi impu else a.username

/-- Modelled from the spec: whether the P-CSCF asserts integrity, that is
`integrity-protected` is one of `yes`, `tls-yes`, `ip-assoc-yes`. -/
def integrity_asserted (a : Authorization) : Bool :=
  a.integrity_protected = some "yes" ∨ a.integrity_protected = some "tls-yes" ∨
    a.integrity_protected = some "ip-assoc-yes"

/-- Modelled from the spec: whether AKA is selected for a new challenge, that is
`integrity-protected` is `no`. -/
def aka_selected (a : Authorization) : Bool :=
  a.integrity_protected = some "no"

/-- Modelled from the spec: the verification path of the filter (section 4.5), for
a header with a response. An unknown `(impi, nonce)` gets a fresh challenge
marked stale; a replayed nonce-count is rejected; another realm than the stored
one gets a new challenge; a response other than the expected one gets 403; the
expected one deletes the challenge and admits the request. -/
def verify (env : Env) (store : List AuthChallenge) (method impu : String)
    (a : Authorization) (response : String) (fresh_nonce fresh_opq : String) :
    FilterResult :=
  let impi := impi_of env impu a
  match lookup store impi a.nonce with
  | none =>
    challenge env store impi impu (aka_selected a) none true fresh_nonce fresh_opq
  | some ch =>
    if a.nc ∈ ch.nc_used then
      { outcome := Outcome.rejected env.replay_status none, store := store, queries := [] }
    else
      let store1 := insert store { ch with nc_used := a.nc :: ch.nc_used }
      if a.realm ≠ ch.realm then
        challenge env store1 impi impu (aka_selected a) none false fresh_nonce fresh_opq
      else if expected_response env ch a method = some response then
        { outcome := Outcome.admitted, store := erase store impi a.nonce, queries := [] }
      else
        { outcome := Outcome.rejected 403 none, store := store1, queries := [] }

/-- Modelled from the spec: the filter on a request with an Authorization header,
its `auts` aside (section 4.5): a header asserting integrity and carrying no
response is admitted; another header without response is challenged, with AKA
when `integrity-protected` is `no`; a header with a response is verified. -/
def check_header (env : Env) (store : List AuthChallenge) (req : Request)
    (a : Authorization) (fresh_nonce fresh_opq : String) : FilterResult :=
  match a.response with
  | none =>
    if integrity_asserted a then
      { outcome := Outcome.admitted, store := store, queries := [] }
    else
      challenge env store (impi_of env req.impu a) req.impu (aka_selected a) none false
        fresh_nonce fresh_opq
  | some response =>
    verify env store req.method req.impu a response fresh_nonce fresh_opq

/-- Modelled from the spec: the length the filter requires of `auts`. The words of
the specification are "exactly 28 hex characters (14 bytes)"; the tests, which
are the code at hand, fix 14 characters: `AKAAuthResyncSuccess` sends
`auts="32132132132132"` and asserts the resynchronisation, with the resync query
`autn=876543218765432132132132132132`, and `AKAAuthResyncFail` sends 12
characters, "too short", and asserts 403. -/
def auts_length : Nat := 14

/-- Modelled from the spec: the AKA resynchronisation of the filter (section 4.5),
for a header that contains `auts`, with or without a response. An `auts` of
another length than required is answered 403 without any query. Else, when the
store holds the original AKA challenge for the nonce, the HSS is queried with
`autn` made of the first 16 characters of the nonce followed by `auts` (the query
the test `AKAAuthResyncSuccess` sets up), the new vector gives a fresh 401
challenge and the old nonce is invalidated; when there is no original AKA
challenge the header is treated as one without `auts`. -/
def resync (env : Env) (store : List AuthChallenge) (req : Request)
    (a : Authorization) (auts : String) (fresh_nonce fresh_opq : String) : FilterResult :=
  if auts.length ≠ auts_length then
    { outcome := Outcome.rejected 403 none, store := store, queries := [] }
  else
    match lookup store (impi_of env req.impu a) a.nonce with
    | some ch =>
      if ch.scheme = Scheme.AKA then
        challenge env (erase store (impi_of env req.impu a) a.nonce) (impi_of env req.impu a)
          req.impu true (some (String.mk (a.nonce.data.take 16) ++ auts)) false
          fresh_nonce fresh_opq
      else check_header env store req a fresh_nonce fresh_opq
    | none => check_header env store req a fresh_nonce fresh_opq

/-- Modelled from the spec: the registration authentication filter (section 4.5;
`authentication.cpp` is not among the sources). It runs on REGISTER requests on
the S-CSCF port only. Without Authorization header a request whose Contact URIs
all carry `sos` is admitted and any other is challenged with Digest; a header
that contains `auts` goes to the resynchronisation; any other header is admitted,
challenged or verified as `check_header` says. -/
def auth_filter (env : Env) (store : List AuthChallenge) (req : Request)
    (fresh_nonce fresh_opq : String) : FilterResult :=
  if req.port ≠ env.scscf_port ∨ req.method ≠ "REGISTER" then
    { outcome := Outcome.admitted, store := store, queries := [] }
  else
    match req.authorization with
    | none =>
      if req.contacts_sos.all id then
        { outcome := Outcome.admitted, store := store, queries := [] }
      else
        challenge env store (env.default_impi req.impu) req.impu false none false
          fresh_nonce fresh_opq
    | some a =>
      match a.auts with
      | some auts => resync env store req a auts fresh_nonce fresh_opq
      | none => check_header env store req a fresh_nonce fresh_opq

/-! ## The tests, replayed -/

/-- A stand-in for MD5 in closed examples: 16 bytes computed from the data. The
theorems hold for every hash function of 16 bytes. -/
def sample_md5 (s : String) : List Nat :=
  (List.range 16).map fun i => s.data.foldl (fun acc c => (acc * 31 + c.toNat + i) % 256) 7

/-- The result `FakeHSSConnection` holds in the Digest tests
(`DigestAuthSuccess`, `DigestAuthFailBadResponse`, `AuthorizationEmergencyReg`);
any other query is answered 404. -/
def hss_digest (q : HssQuery) : HssResult :=
  if q = { impi := "6505550001@homedomain", impu := "sip:6505550001@homedomain",
           aka := false, autn := none } then
    HssResult.body { digest_realm := some "homedomain", digest_qop := some "auth",
                     digest_ha1 := some "12345678123456781234567812345678" }
  else HssResult.not_found

/-- The results `FakeHSSConnection` holds in `AKAAuthResyncSuccess`: one for the
AKA query, one for the resync query with
`autn=876543218765432132132132132132`; any other query is answered 404. -/
def hss_aka (q : HssQuery) : HssResult :=
  if q = { impi := "6505550001@homedomain", impu := "sip:6505550001@homedomain",
           aka := true, autn := none } then
    HssResult.body { aka_challenge := some "87654321876543218765432187654321",
                     aka_response := some "12345678123456781234567812345678",
                     aka_cryptkey := some "0123456789abcdef",
                     aka_integritykey := some "fedcba9876543210" }
  else if q = { impi := "6505550001@homedomain", impu := "sip:6505550001@homedomain",
                aka := true, autn := some "876543218765432132132132132132" } then
    HssResult.body { aka_challenge := some "12345678123456781234567812345678",
                     aka_response := some "87654321876543218765432187654321",
                     aka_cryptkey := some "fedcba9876543210",
                     aka_integritykey := some "0123456789abcdef" }
  else HssResult.not_found

/-- A `FakeHSSConnection` that holds no result: every query is answered 404. -/
def hss_empty (_ : HssQuery) : HssResult :=
  HssResult.not_found

/-- A `FakeHSSConnection` whose result code is 503, as `set_rc` makes it in
`DigestAuthFailTimeout`. -/
def hss_overloaded (_ : HssQuery) : HssResult :=
  HssResult.overload

/-- The environment of the tests: `init_authentication("homedomain", ...)`, the
S-CSCF port of the test stack, the default private identity of
`sip:6505550001@homedomain` being `6505550001@homedomain`; the HSS results are
given. -/
def test_env (hss : HssQuery → HssResult) : Env :=
  { scscf_port := 5058, home_domain := "homedomain",
    replay_status := 403, md5 := sample_md5, hss := hss,
    default_impi := fun impu => String.mk (impu.data.drop 4) }

/-- The nonce and opaque of the challenge in an outcome, empty when there is
none: what the tests read from the WWW-Authenticate header. -/
def auth_params (o : Outcome) : String × String :=
  match o with
  | Outcome.rejected _ (some w) => (w.nonce, w.opq)
  | _ => ("", "")

/-- The first message of the AKA tests: a REGISTER whose Authorization header has
`integrity-protected="no"` and no response. -/
def aka_msg1 : AuthenticationMessage :=
  { _method := "REGISTER", _integ_prot := "no" }

/-- The filter on the first message of the AKA tests, from an empty store. -/
def aka_step1 : FilterResult :=
  auth_filter (test_env hss_aka) [] (aka_msg1.get sample_md5 5058) "n1" "o1"

/-- The second message of `AKAAuthResyncSuccess`, with the given `auts`,
`32132132132132` in that test: the correct response to the challenge, and an
`auts`. -/
def aka_msg2 (auts : String) : AuthenticationMessage :=
  { _method := "REGISTER", _algorithm := "AKAv1-MD5",
    _key := "12345678123456781234567812345678",
    _nonce := (auth_params aka_step1.outcome).1,
    _opq := (auth_params aka_step1.outcome).2,
    _nc := "00000001", _cnonce := "8765432187654321", _qop := "auth",
    _auts := auts, _integ_prot := "yes" }

/-- The filter on the second message of `AKAAuthResyncSuccess`, after the
first. -/
def aka_step2 (auts : String) : FilterResult :=
  auth_filter (test_env hss_aka) aka_step1.store
    ((aka_msg2 auts).get sample_md5 5058) "n2" "o2"

/-- The third message of `AKAAuthResyncSuccess`: the answer to the second
challenge, with the key of the new vector. -/
def aka_msg3 : AuthenticationMessage :=
  { _method := "REGISTER", _algorithm := "AKAv1-MD5",
    _key := "87654321876543218765432187654321",
    _nonce := (auth_params (aka_step2 "32132132132132").outcome).1,
    _opq := (auth_params (aka_step2 "32132132132132").outcome).2,
    _nc := "00000001", _cnonce := "8765432187654321", _qop := "auth",
    _integ_prot := "yes" }

/-- The filter on the third message of `AKAAuthResyncSuccess`. -/
def aka_step3 : FilterResult :=
  auth_filter (test_env hss_aka) (aka_step2 "32132132132132").store
    (aka_msg3.get sample_md5 5058) "n3" "o3"

/-- The second message of `AKAAuthFailBadResponse`: the answer to the AKA
challenge with the response `00000000000000000000000000000000`. -/
def aka_bad_msg2 : AuthenticationMessage :=
  { _method := "REGISTER", _algorithm := "AKAv1-MD5",
    _key := "12345678123456781234567812345678",
    _nonce := (auth_params aka_step1.outcome).1,
    _opq := (auth_params aka_step1.outcome).2,
    _nc := "00000001", _cnonce := "8765432187654321", _qop := "auth",
    _response := "00000000000000000000000000000000", _integ_prot := "yes" }

/-- The first message of `DigestAuthSuccess`: a REGISTER without Authorization
header. -/
def digest_msg1 : AuthenticationMessage :=
  { _method := "REGISTER", _auth_hdr := false }

/-- The filter on the first message of `DigestAuthSuccess`, from an empty
store. -/
def digest_step1 : FilterResult :=
  auth_filter (test_env hss_digest) [] (digest_msg1.get sample_md5 5058) "n1" "o1"

/-- The second message of `DigestAuthSuccess`, and with the response
`00000000000000000000000000000000` of `DigestAuthFailBadResponse`. -/
def digest_msg2 (response : String) : AuthenticationMessage :=
  { _method := "REGISTER", _algorithm := "MD5",
    _key := "12345678123456781234567812345678",
    _nonce := (auth_params digest_step1.outcome).1,
    _opq := (auth_params digest_step1.outcome).2,
    _nc := "00000001", _cnonce := "8765432187654321", _qop := "auth",
    _response := response }

/-- The filter on the second message of the Digest tests, after the first. -/
def digest_step2 (response : String) : FilterResult :=
  auth_filter (test_env hss_digest) digest_step1.store
    ((digest_msg2 response).get sample_md5 5058) "n2" "o2"

/-- The second message of `DigestAuthFailWrongRealm`, with the realm
`otherdomain`, and with the given response in place of the computed one. -/
def wrong_realm_msg2 (response : String) : AuthenticationMessage :=
  { _method := "REGISTER", _algorithm := "MD5",
    _key := "12345678123456781234567812345678",
    _nonce := (auth_params digest_step1.outcome).1,
    _opq := (auth_params digest_step1.outcome).2,
    _nc := "00000001", _cnonce := "8765432187654321", _qop := "auth",
    _auth_realm := "otherdomain", _response := response }

/-- The second message of `DigestAuthSuccess` sent once more, with the same
nonce and nonce-count, after the filter has answered the one of
`DigestAuthFailBadResponse`. -/
def digest_step3 : FilterResult :=
  auth_filter (test_env hss_digest) (digest_step2 "00000000000000000000000000000000").store
    ((digest_msg2 "").get sample_md5 5058) "n3" "o3"

/-- The message of `NoAuthorizationEmergencyReg`, and with the extra Contact of
`AuthorizationEmergencyReg`. -/
def emergency_msg (extra_contact : String) : AuthenticationMessage :=
  { _method := "REGISTER", _auth_hdr := false, _sos := true,
    _extra_contact := extra_contact }

/-- The private identity the filter takes from a message of the tests: the
username of its Authorization header, or the default for its public identity
when the username is empty. -/
def AuthenticationMessage.impi (env : Env) (m : AuthenticationMessage) : String :=
  if m._auth_user = "" then env.default_impi ("sip:" ++ m._user ++ "@" ++ m._domain)
  else m._auth_user

/-- The Authorization header of a message of the tests that carries the response
`calculate_digest_response` computes and no `auts`. -/
def AuthenticationMessage.answer (md5 : String → List Nat) (m : AuthenticationMessage) :
    Authorization :=
  { username := m._auth_user, realm := m._auth_realm, nonce := m._nonce, uri := m._uri,
    response := some (digest_response md5 m), opq := m._opq, nc := m._nc,
    cnonce := m._cnonce, qop := m._qop, auts := none,
    integrity_protected := opt_param m._integ_prot, algorithm := m._algorithm }

/-- The second Contact of `AuthorizationEmergencyReg`, which has no `sos`. -/
def extra_contact : String :=
  "Contact: <sip:6505550001@uac.example.com:5060;rinstance=a0b20987985b61df;transport=TCP>"

/-- The Authorization header of the second message of `AKAAuthResyncSuccess`, with
the given `auts`. -/
def aka_header2 (auts : String) : Authorization :=
  { username := "6505550001@homedomain", realm := "homedomain",
    nonce := "87654321876543218765432187654321", uri := "sip:homedomain",
    response := some (digest_response sample_md5 (aka_msg2 auts)), opq := "o1",
    nc := "00000001", cnonce := "8765432187654321", qop := "auth", auts := some auts,
    integrity_protected := some "yes", algorithm := "AKAv1-MD5" }

/-- The challenge stored by the filter after the first message of the AKA
tests. -/
def aka_challenge1 : AuthChallenge :=
  { impi := "6505550001@homedomain", nonce := "87654321876543218765432187654321",
    scheme := Scheme.AKA, ha1_or_xres := "12345678123456781234567812345678",
    realm := "homedomain", qop := "auth", opq := "o1", ck := some "0123456789abcdef",
    ik := some "fedcba9876543210", nc_used := [] }

/-- The challenge stored by the filter after the first message of the Digest
tests. -/
def digest_challenge1 : AuthChallenge :=
  { impi := "6505550001@homedomain", nonce := "n1", scheme := Scheme.Digest,
    ha1_or_xres := "12345678123456781234567812345678", realm := "homedomain",
    qop := "auth", opq := "o1", ck := none, ik := none, nc_used := [] }

end Authentication

namespace BasicProxy


/-! ## Samples for targets and cancellation with a cause -/

/-- A request that still has a Route header. -/
def routed_request : TxRequest :=
  { method := pjsip_method_e.INVITE, uri := sample_uri, routes := [loose_hop_uri] }

/-- A target with a URI, two paths and a transport. -/
def path_target : Target :=
  { uri := some strict_hop_uri, paths := [proxy_uri, strict_hop_uri], transport := some 3 }

/-- A fresh child at heap address 0 after `UACTsx::init` on `routed_request`. -/
def child_ready : UASTsx :=
  match UACTsx.init { initial_state pjsip_method_e.INVITE false with heap := [UACTsx.new 0] }
      0 routed_request PJ_SUCCESS with
  | Except.ok r => r.2
  | Except.error _ => initial_state pjsip_method_e.INVITE false

/-- The request a target leaves: its URI when it has one, and its paths as Route
headers after those the request has. -/
def targeted (req : TxRequest) (target : Target) : TxRequest :=
  { req with uri := target.uri.getD req.uri, routes := req.routes ++ target.paths }


/-! ## Descriptions of fork dispatch -/

/-- The child `init_uac_transactions` has built for a target at the given index
once `set_target` has run: the constructor's fields, the stack transaction of
`UACTsx::init`, the cloned request with the target applied, and the transport
of the target. -/
def dispatched_child (req : TxRequest) (index : Nat) (target : Target) : UACTsx :=
  { UACTsx.new index with
    _tsx := true, _tdata := some (apply_target req target), tp_sel := target.transport }

/-- The children `init_uac_transactions` has built for the listed targets, the
first at the given index. -/
def dispatched_children (req : TxRequest) : Nat → List Target → List UACTsx
  | _, [] => []
  | index, target :: rest =>
    dispatched_child req index target :: dispatched_children req (index + 1) rest

/-- A child after `send_request`: the request buffer has been handed to the
stack. -/
def sent_child (u : UACTsx) : UACTsx :=
  { u with _tdata := none }

/-- What the sending loop of `init_uac_transactions` hands to the stack for the
listed targets, the first child being at heap address `p`. -/
def send_effects (req : TxRequest) : Nat → List Target → List Effect
  | _, [] => []
  | p, target :: rest =>
    Effect.uac_send_msg p (apply_target req target) :: send_effects req (p + 1) rest


/-- The state after `UASTsx::init` for an INVITE, with `path_target` and an empty
target queued by `add_target`. -/
def queued_state : UASTsx :=
  ((initial_state pjsip_method_e.INVITE false).add_target path_target).add_target empty_target


/-- Results of `pjsip_tsx_send_msg` that fail for the child at heap address 0
only. -/
def fail_first_send (p : Nat) : Int :=
  if p = 0 then PJ_EUNKNOWN else PJ_SUCCESS

/-- A child after a failed `send_request`: its stack transaction is destroyed,
and so is the child, dissociated by its destructor. -/
def unsent_child (u : UACTsx) : UACTsx :=
  { u with _uas_tsx := false, _tdata := none, _tsx := false, _pending_destroy := true,
           deleted := true }

/-- Allocations that succeed for the first target only: the clone of the request
for the second target fails. -/
def fail_second (index : Nat) : Alloc :=
  if index = 0 then Alloc.created PJ_SUCCESS else Alloc.clone_null


/-! ## Calls on a `UASTsx` after fork dispatch, and its invariants -/

/-- A call of one of the four methods of `UASTsx` that touch the child slots. -/
inductive Call where
  | on_new_client_response (uac : Nat) (rdata : RxData)
  | on_client_not_responding (uac : Nat)
  | cancel_pending_uac_tsx (st_code : Int) (dissociate_uac : Bool)
  | dissociate (uac : Nat)
  deriving DecidableEq, Repr

/-- One call on the `UASTsx`. -/
def UASTsx.call (status_text : Int → String) (s : UASTsx) : Call → Except Fault UASTsx
  | Call.on_new_client_response uac rdata => s.on_new_client_response uac rdata
  | Call.on_client_not_responding uac => s.on_client_not_responding uac
  | Call.cancel_pending_uac_tsx st_code dissociate_uac =>
    s.cancel_pending_uac_tsx status_text st_code dissociate_uac
  | Call.dissociate uac => s.dissociate uac

/-- Calls made one after the other. -/
def UASTsx.calls (status_text : Int → String) : UASTsx → List Call → Except Fault UASTsx
  | s, [] => Except.ok s
  | s, c :: rest => (s.call status_text c).bind fun s' => UASTsx.calls status_text s' rest

/-- The link invariant at the child object at heap address `p`: its index is
within the slots, and the slot of its index holds `p` when the parent link is
set, and then the child does not await destruction, and is null when it is
not. -/
def UASTsx.child_ok (s : UASTsx) (p : Nat) : Bool :=
  match s.heap[p]? with
  | some u =>
    decide (u._index < s._uac_tsx.length) && (!u._uas_tsx || !u._pending_destroy) &&
      (s._uac_tsx[u._index]? == some (if u._uas_tsx then some p else none))
  | none => true

/-- The link invariant at slot `i`: a non-null slot holds a child object whose
index is `i` and whose parent link is set. -/
def UASTsx.slot_linked (s : UASTsx) (i : Nat) : Bool :=
  match s._uac_tsx[i]? with
  | some (some p) =>
    match s.heap[p]? with
    | some u => u._index == i && u._uas_tsx
    | none => false
  | _ => true

/-- The link invariant of a `UASTsx`: `child_ok` at every child object and
`slot_linked` at every slot. -/
def UASTsx.links_ok (s : UASTsx) : Bool :=
  (List.range s.heap.length).all s.child_ok &&
    (List.range s._uac_tsx.length).all s.slot_linked

/-- The two calls `UACTsx::on_tsx_state` makes on the parent for an event of the
child, each under its test `_uas_tsx != NULL`: a child without parent link
reports nothing. -/
def UACTsx.report (s : UASTsx) (e : ChildEvent) : Except Fault UASTsx :=
  match s.heap[e.child]? with
  | none => Except.error Fault.null_deref
  | some u => if u._uas_tsx then s.handle e else Except.ok s

/-- A step on the `UASTsx` after fork dispatch: a child reports an event, or
`cancel_pending_uac_tsx` is called without dissociation. -/
inductive Step where
  | event (e : ChildEvent)
  | cancel (st_code : Int)
  deriving DecidableEq, Repr

/-- One step on the `UASTsx`. -/
def UASTsx.step (status_text : Int → String) (s : UASTsx) : Step → Except Fault UASTsx
  | Step.event e => UACTsx.report s e
  | Step.cancel st_code => s.cancel_pending_uac_tsx status_text st_code false

/-- Steps made one after the other. -/
def UASTsx.steps (status_text : Int → String) : UASTsx → List Step → Except Fault UASTsx
  | s, [] => Except.ok s
  | s, c :: rest => (s.step status_text c).bind fun s' => UASTsx.steps status_text s' rest


/-! # Theorems -/

/-! ## Request verification -/

/-- C10: `verify_request` succeeds exactly when the scheme is sip and
Max-Forwards is absent or greater than 1, and then sends nothing; otherwise it
sends exactly one stateless response and returns the matching non-zero error:
416 whenever the scheme is not sip (whatever Max-Forwards is), 483 when the
scheme is sip and Max-Forwards is present with a value of at most 1. -/
theorem verify_request_spec (rdata : RxRequest) :
    ((verify_request rdata).1 = PJ_SUCCESS ↔
      (PJSIP_URI_SCHEME_IS_SIP rdata.uri = true ∧
        (rdata.max_fwd = none ∨ ∃ v, rdata.max_fwd = some v ∧ 1 < v))) ∧
    ((verify_request rdata).1 = PJ_SUCCESS → (verify_request rdata).2 = []) ∧
    (PJSIP_URI_SCHEME_IS_SIP rdata.uri = false →
      verify_request rdata =
        (PJSIP_ERRNO_FROM_SIP_STATUS 416, [Effect.respond_stateless 416])) ∧
    (PJSIP_URI_SCHEME_IS_SIP rdata.uri = true →
      ∀ v, rdata.max_fwd = some v → v ≤ 1 →
        verify_request rdata =
          (PJSIP_ERRNO_FROM_SIP_STATUS 483, [Effect.respond_stateless 483])) ∧
    PJSIP_ERRNO_FROM_SIP_STATUS 416 ≠ PJ_SUCCESS ∧
    PJSIP_ERRNO_FROM_SIP_STATUS 483 ≠ PJ_SUCCESS := by
  have h416 : PJSIP_ERRNO_FROM_SIP_STATUS 416 ≠ PJ_SUCCESS := by decide
  have h483 : PJSIP_ERRNO_FROM_SIP_STATUS 483 ≠ PJ_SUCCESS := by decide
  refine ⟨?_, ?_, ?_, ?_, h416, h483⟩
  · cases hs : PJSIP_URI_SCHEME_IS_SIP rdata.uri
    · simp [verify_request, hs, PJSIP_SC_UNSUPPORTED_URI_SCHEME, h416]
    · cases hm : rdata.max_fwd with
      | none => simp [verify_request, hs, hm]
      | some v =>
        by_cases hv : v ≤ 1
        · simp [verify_request, hs, hm, hv, PJSIP_SC_TOO_MANY_HOPS, h483]
        · simp [verify_request, hs, hm, hv]
          omega
  · cases hs : PJSIP_URI_SCHEME_IS_SIP rdata.uri
    · simp [verify_request, hs, PJSIP_SC_UNSUPPORTED_URI_SCHEME, h416]
    · cases hm : rdata.max_fwd with
      | none => simp [verify_request, hs, hm]
      | some v =>
        by_cases hv : v ≤ 1
        · simp [verify_request, hs, hm, hv, PJSIP_SC_TOO_MANY_HOPS, h483]
        · simp [verify_request, hs, hm, hv]
  · intro hs
    simp [verify_request, hs, PJSIP_SC_UNSUPPORTED_URI_SCHEME]
  · intro hs v hm hv
    simp [verify_request, hs, hm, hv, PJSIP_SC_TOO_MANY_HOPS]

/-! ## The best-response ordering -/

theorem tier46_cases (s : Int) :
    (s = 487 ∧ tier46 s = 0) ∨ (s = 408 ∧ tier46 s = 2) ∨
      (s ≠ 487 ∧ s ≠ 408 ∧ tier46 s = 1) := by
  unfold tier46
  split_ifs <;> omega

theorem compare_sip_sc_cases (a b : Int) :
    (a = b ∧ compare_sip_sc a b = 0) ∨
    (a ≠ b ∧ a = 408 ∧ compare_sip_sc a b = -1) ∨
    (a ≠ b ∧ a ≠ 408 ∧ b = 408 ∧ compare_sip_sc a b = 1) ∨
    (a ≠ b ∧ a ≠ 408 ∧ b ≠ 408 ∧ b = 487 ∧ compare_sip_sc a b = -1) ∨
    (a ≠ b ∧ a ≠ 408 ∧ b ≠ 408 ∧ b ≠ 487 ∧ a = 487 ∧ compare_sip_sc a b = 1) ∨
    (a ≠ b ∧ a ≠ 408 ∧ b ≠ 408 ∧ b ≠ 487 ∧ a ≠ 487 ∧ a < b ∧ compare_sip_sc a b = 1) ∨
    (a ≠ b ∧ a ≠ 408 ∧ b ≠ 408 ∧ b ≠ 487 ∧ a ≠ 487 ∧ ¬ a < b ∧
      compare_sip_sc a b = -1) := by
  unfold compare_sip_sc PJSIP_SC_REQUEST_TIMEOUT PJSIP_SC_REQUEST_TERMINATED
  split_ifs <;> simp_all

theorem compare_sip_sc_eq_one_iff (a b : Int) :
    compare_sip_sc a b = 1 ↔ better46 a b := by
  unfold better46
  rcases tier46_cases a with h | h | h <;> rcases tier46_cases b with h' | h' | h' <;>
    rcases compare_sip_sc_cases a b with g | g | g | g | g | g | g <;> omega

theorem compare_sip_sc_eq_neg_one_iff (a b : Int) :
    compare_sip_sc a b = -1 ↔ better46 b a := by
  unfold better46
  rcases tier46_cases a with h | h | h <;> rcases tier46_cases b with h' | h' | h' <;>
    rcases compare_sip_sc_cases a b with g | g | g | g | g | g | g <;> omega

theorem compare_sip_sc_eq_zero_iff (a b : Int) :
    compare_sip_sc a b = 0 ↔ a = b := by
  rcases compare_sip_sc_cases a b with g | g | g | g | g | g | g <;> omega

theorem compare_sip_sc_pos_iff (a b : Int) :
    compare_sip_sc a b > 0 ↔ better46 a b := by
  rw [← compare_sip_sc_eq_one_iff]
  rcases compare_sip_sc_cases a b with g | g | g | g | g | g | g <;> omega

theorem better46_irrefl (a : Int) : ¬ better46 a a := by
  unfold better46; omega

theorem better46_trans {a b c : Int} (h1 : better46 a b) (h2 : better46 b c) :
    better46 a c := by
  unfold better46 at *; omega

theorem better46_total (a b : Int) : better46 a b ∨ a = b ∨ better46 b a := by
  unfold better46
  rcases tier46_cases a with h | h | h <;> rcases tier46_cases b with h' | h' | h' <;> omega

theorem better46_asymm {a b : Int} (h1 : better46 a b) : ¬ better46 b a := by
  unfold better46 at *; omega

theorem better46_487 (c : Int) (hc : c ≠ 487) : better46 487 c := by
  unfold better46
  rcases tier46_cases 487 with h | h | h <;> rcases tier46_cases c with h' | h' | h' <;> omega

theorem better46_408 (c : Int) (hc : c ≠ 408) : better46 c 408 := by
  unfold better46
  rcases tier46_cases 408 with h | h | h <;> rcases tier46_cases c with h' | h' | h' <;> omega

/-- C3: `compare_sip_sc` implements the ordering of the specification: it is
+1 when the first code ranks strictly before the second, -1 when it ranks
strictly after, and 0 when the codes are equal (the only case in which neither
ranks before the other); 487 beats every other code and 408 loses to every
other code. -/
theorem compare_sip_sc_implements_ordering (a b : Int) :
    compare_sip_sc a b =
      (if better46 a b then 1 else if better46 b a then -1 else 0) ∧
    (a = b ↔ ¬ better46 a b ∧ ¬ better46 b a) ∧
    (compare_sip_sc a b = 0 ↔ a = b) ∧
    (∀ c : Int, c ≠ 487 → better46 487 c ∧ compare_sip_sc 487 c = 1) ∧
    (∀ c : Int, c ≠ 408 → better46 c 408 ∧ compare_sip_sc 408 c = -1) := by
  refine ⟨?_, ?_, compare_sip_sc_eq_zero_iff a b, ?_, ?_⟩
  · by_cases h1 : better46 a b
    · simp [h1, (compare_sip_sc_eq_one_iff a b).2 h1]
    · by_cases h2 : better46 b a
      · simp [h1, h2, (compare_sip_sc_eq_neg_one_iff a b).2 h2]
      · simp only [h1, h2, if_false]
        rcases better46_total a b with h | h | h
        · exact absurd h h1
        · exact (compare_sip_sc_eq_zero_iff a b).2 h
        · exact absurd h h2
  · constructor
    · rintro rfl
      exact ⟨better46_irrefl a, better46_irrefl a⟩
    · rintro ⟨h1, h2⟩
      rcases better46_total a b with h | h | h
      · exact absurd h h1
      · exact h
      · exact absurd h h2
  · intro c hc
    have hb : better46 487 c := better46_487 c hc
    exact ⟨hb, (compare_sip_sc_eq_one_iff 487 c).2 hb⟩
  · intro c hc
    have hb : better46 c 408 := better46_408 c hc
    exact ⟨hb, (compare_sip_sc_eq_neg_one_iff 408 c).2 hb⟩

/-! ## Single steps of the reconciliation -/

theorem dissociate_ok (s : UASTsx) (uac : Nat) (u : UACTsx)
    (hu : s.heap[uac]? = some u) (hidx : u._index < s._uac_tsx.length) :
    s.dissociate uac =
      Except.ok { s with heap := s.heap.set uac { u with _uas_tsx := false },
                         _uac_tsx := s._uac_tsx.set u._index none } := by
  simp [UASTsx.dissociate, hu, hidx]

theorem on_final_response_ok (s : UASTsx) (tsx : pjsip_transaction) (best_rsp : TxData)
    (htsx : s._tsx = some tsx) (hbest : s._best_rsp = some best_rsp) :
    s.on_final_response =
      Except.ok { s with _best_rsp := none,
                         out := s.out ++ final_effects tsx.method best_rsp } := by
  unfold UASTsx.on_final_response final_effects
  rw [htsx, hbest]
  by_cases h : tsx.method = pjsip_method_e.INVITE ∧ best_rsp.code = 200
  · simp [h]
  · simp only [h, if_false]

theorem exit_enter_fields (s : UASTsx) :
    (UASTsx.exit_context s)._pending_targets = s._pending_targets ∧
    (UASTsx.exit_context s)._best_rsp = s._best_rsp ∧
    (UASTsx.exit_context s)._uac_tsx = s._uac_tsx ∧
    (UASTsx.exit_context s).heap = s.heap ∧
    (UASTsx.exit_context s).out = s.out ∧
    (UASTsx.exit_context s)._tsx = s._tsx ∧
    (UASTsx.exit_context s).delay_trying = s.delay_trying := by
  unfold UASTsx.exit_context
  simp only
  split_ifs <;> simp

theorem uas_sent_append (l1 l2 : List Effect) :
    uas_sent (l1 ++ l2) = uas_sent l1 ++ uas_sent l2 := by
  induction l1 with
  | nil => simp [uas_sent]
  | cons e rest ih =>
    cases e <;> simp [uas_sent, ih]

theorem uas_sent_final_effects (method : pjsip_method_e) (best_rsp : TxData) :
    uas_sent (final_effects method best_rsp) = [best_rsp] := by
  unfold final_effects
  split_ifs <;> simp [uas_sent]

theorem create_response_fwd_ok (rdata : RxData) (hfwd : rdata.fwd_ok = true) :
    create_response_fwd rdata = some (fwd_of rdata) := by
  simp [create_response_fwd, hfwd, fwd_of]

theorem on_new_client_response_else (s : UASTsx) (tsx : pjsip_transaction)
    (uac : Nat) (u : UACTsx) (rdata : RxData)
    (htsx : s._tsx = some tsx) (hfwd : rdata.fwd_ok = true)
    (h1 : ¬ (tsx.method = pjsip_method_e.INVITE ∧ rdata.code = 100 ∧ s.delay_trying = false))
    (h2 : ¬ (100 < rdata.code ∧ rdata.code < 199))
    (h3 : ¬ rdata.code = 200)
    (hu : s.heap[uac]? = some u) (hidx : u._index < s._uac_tsx.length) :
    s.on_new_client_response uac rdata =
      Except.ok (non_ok_result s tsx.method uac u rdata) := by
  unfold UASTsx.on_new_client_response non_ok_result
  rw [htsx]
  simp only [UASTsx.enter_context, create_response_fwd_ok rdata hfwd, h1, h2, h3, if_false]
  cases hb : s._best_rsp with
  | none =>
    simp only [kept_best, UASTsx.dissociate, hu, hidx, if_true, Except.bind]
    by_cases hp : s._pending_targets - 1 = 0
    · simp [hp, UASTsx.on_final_response, htsx, final_effects, fwd_of, h3]
    · simp [hp]
  | some b =>
    by_cases hc : compare_sip_sc rdata.code b.code > 0
    · simp only [kept_best, fwd_of, hc, if_true, UASTsx.dissociate, hu, hidx, Except.bind]
      by_cases hp : s._pending_targets - 1 = 0
      · simp [hp, UASTsx.on_final_response, htsx, final_effects, h3]
      · simp [hp]
    · simp only [kept_best, fwd_of, hc, if_false, UASTsx.dissociate, hu, hidx, if_true, Except.bind]
      by_cases hp : s._pending_targets - 1 = 0
      · simp only [hp, if_true, UASTsx.on_final_response, htsx, hb, final_effects]
        by_cases hm : tsx.method = pjsip_method_e.INVITE ∧ b.code = 200
        · simp [hm]
        · simp only [hm, if_false]
      · simp [hp, hb]

@[simp] theorem exit_context_pending (s : UASTsx) :
    (UASTsx.exit_context s)._pending_targets = s._pending_targets := (exit_enter_fields s).1

@[simp] theorem exit_context_best (s : UASTsx) :
    (UASTsx.exit_context s)._best_rsp = s._best_rsp := (exit_enter_fields s).2.1

@[simp] theorem exit_context_slots (s : UASTsx) :
    (UASTsx.exit_context s)._uac_tsx = s._uac_tsx := (exit_enter_fields s).2.2.1

@[simp] theorem exit_context_heap (s : UASTsx) :
    (UASTsx.exit_context s).heap = s.heap := (exit_enter_fields s).2.2.2.1

@[simp] theorem exit_context_out (s : UASTsx) :
    (UASTsx.exit_context s).out = s.out := (exit_enter_fields s).2.2.2.2.1

@[simp] theorem exit_context_tsx (s : UASTsx) :
    (UASTsx.exit_context s)._tsx = s._tsx := (exit_enter_fields s).2.2.2.2.2.1

@[simp] theorem exit_context_delay (s : UASTsx) :
    (UASTsx.exit_context s).delay_trying = s.delay_trying := (exit_enter_fields s).2.2.2.2.2.2

/-- C6: for a response with a status in 300-699 from a child of a live UAS
transaction, `on_new_client_response` keeps the new response as `_best_rsp`
exactly when nothing is stored or `compare_sip_sc` says the new status is
strictly better than the stored one (with an equal status the earlier response
stays), dissociates the child (slot and parent link nulled), decrements
`_pending_targets` by exactly one, and sends the kept response as the final
response exactly when `_pending_targets` has reached zero. -/
theorem on_new_client_response_final_non_ok (s : UASTsx) (tsx : pjsip_transaction)
    (uac : Nat) (u : UACTsx) (rdata : RxData)
    (htsx : s._tsx = some tsx) (hfwd : rdata.fwd_ok = true)
    (hcode : 300 ≤ rdata.code ∧ rdata.code ≤ 699)
    (hu : s.heap[uac]? = some u) (hidx : u._index < s._uac_tsx.length) :
    ∃ s' held, s.on_new_client_response uac rdata = Except.ok s' ∧
      s'._pending_targets = s._pending_targets - 1 ∧
      s'._uac_tsx = s._uac_tsx.set u._index none ∧
      s'.heap = s.heap.set uac { u with _uas_tsx := false } ∧
      (s._best_rsp = none → held = fwd_of rdata) ∧
      (∀ best_rsp, s._best_rsp = some best_rsp →
        held = if compare_sip_sc rdata.code best_rsp.code > 0 then fwd_of rdata
               else best_rsp) ∧
      (∀ best_rsp, s._best_rsp = some best_rsp → best_rsp.code = rdata.code →
        held = best_rsp) ∧
      (s._pending_targets - 1 = 0 →
        s'._best_rsp = none ∧ uas_sent s'.out = uas_sent s.out ++ [held]) ∧
      (s._pending_targets - 1 ≠ 0 →
        s'._best_rsp = some held ∧ s'.out = s.out) := by
  have h1 : ¬ (tsx.method = pjsip_method_e.INVITE ∧ rdata.code = 100 ∧
      s.delay_trying = false) := by omega
  have h2 : ¬ (100 < rdata.code ∧ rdata.code < 199) := by omega
  have h3 : ¬ rdata.code = 200 := by omega
  have hstep := on_new_client_response_else s tsx uac u rdata htsx hfwd h1 h2 h3 hu hidx
  refine ⟨_, kept_best s._best_rsp (fwd_of rdata), hstep, ?_, ?_, ?_, ?_, ?_, ?_, ?_, ?_⟩
  · simp [non_ok_result]
  · simp [non_ok_result]
  · simp [non_ok_result]
  · intro hb
    simp [hb, kept_best]
  · intro best_rsp hb
    simp [hb, kept_best, fwd_of]
  · intro best_rsp hb hsame
    have hc : ¬ compare_sip_sc rdata.code best_rsp.code > 0 := by
      rw [hsame, (compare_sip_sc_eq_zero_iff rdata.code rdata.code).2 rfl]
      omega
    simp [hb, kept_best, fwd_of, hc]
  · intro hp
    simp [non_ok_result, hp, uas_sent_append, uas_sent_final_effects]
  · intro hp
    simp [non_ok_result, hp]

theorem on_new_client_response_final_non_ok_witness :
    ∃ s' held, (fork_state pjsip_method_e.INVITE false 1).on_new_client_response 0 (rx 408 7)
        = Except.ok s' ∧
      s'._pending_targets = (fork_state pjsip_method_e.INVITE false 1)._pending_targets - 1 ∧
      s'._uac_tsx = (fork_state pjsip_method_e.INVITE false 1)._uac_tsx.set 0 none ∧
      s'.heap = (fork_state pjsip_method_e.INVITE false 1).heap.set 0
        { _uas_tsx := false, _index := 0, _tsx := true, _tdata := none, tp_sel := none,
          _pending_destroy := false, _context_count := 0, deleted := false } ∧
      ((fork_state pjsip_method_e.INVITE false 1)._best_rsp = none →
        held = fwd_of (rx 408 7)) ∧
      (∀ best_rsp, (fork_state pjsip_method_e.INVITE false 1)._best_rsp = some best_rsp →
        held = if compare_sip_sc (rx 408 7).code best_rsp.code > 0 then fwd_of (rx 408 7)
               else best_rsp) ∧
      (∀ best_rsp, (fork_state pjsip_method_e.INVITE false 1)._best_rsp = some best_rsp →
        best_rsp.code = (rx 408 7).code → held = best_rsp) ∧
      ((fork_state pjsip_method_e.INVITE false 1)._pending_targets - 1 = 0 →
        s'._best_rsp = none ∧
        uas_sent s'.out = uas_sent (fork_state pjsip_method_e.INVITE false 1).out ++ [held]) ∧
      ((fork_state pjsip_method_e.INVITE false 1)._pending_targets - 1 ≠ 0 →
        s'._best_rsp = some held ∧
        s'.out = (fork_state pjsip_method_e.INVITE false 1).out) :=
  on_new_client_response_final_non_ok (fork_state pjsip_method_e.INVITE false 1)
    { method := pjsip_method_e.INVITE } 0
    { _uas_tsx := true, _index := 0, _tsx := true, _tdata := none, tp_sel := none,
      _pending_destroy := false, _context_count := 0, deleted := false }
    (rx 408 7) (by decide) (by decide) (by decide) (by decide) (by decide)

/-! ## Evaluations on sample forks -/

/-- C2: evaluation at the failing input. A non-INVITE request is forked to two
children; the first answers 200 and the second, still associated, answers 404.
The `UASTsx` sends both on the UAS transaction: two final responses. The same
happens when the two responses come in through `UACTsx::on_tsx_state`. When the
second child times out instead, `on_final_response` reads the status of a null
`_best_rsp`. -/
theorem two_final_responses_after_200 :
    (fork_state pjsip_method_e.OTHER false 2).children = [0, 1] ∧
    (∃ s', (fork_state pjsip_method_e.OTHER false 2).run
        [ChildEvent.response 0 (rx 200 7), ChildEvent.response 1 (rx 404 8)] = Except.ok s' ∧
      uas_finals s'.out = [fwd_of (rx 200 7), fwd_of (rx 404 8)]) ∧
    (∃ s', (UACTsx.on_tsx_state (fork_state pjsip_method_e.OTHER false 2) 0
        pjsip_tsx_state_e.COMPLETED (TsxEvent.RX_MSG (rx 200 7))).bind
          (fun s1 => UACTsx.on_tsx_state s1 1 pjsip_tsx_state_e.COMPLETED
            (TsxEvent.RX_MSG (rx 404 8))) = Except.ok s' ∧
      uas_finals s'.out = [fwd_of (rx 200 7), fwd_of (rx 404 8)]) ∧
    (fork_state pjsip_method_e.OTHER false 2).run
        [ChildEvent.response 0 (rx 200 7), ChildEvent.not_responding 1]
      = Except.error Fault.null_deref :=
  ⟨by decide, ⟨_, rfl, by decide⟩, ⟨_, rfl, by decide⟩, rfl⟩

/-- C5: evaluation at the failing input. A non-INVITE request is forked to two
children and the first answers 202. Nothing is sent on the UAS transaction; the
202 is held as `_best_rsp` and ranked like a failure, so that a 487 from the
second child displaces it and is the only response sent. -/
theorem non_200_success_is_held_back :
    (∃ s', (fork_state pjsip_method_e.OTHER false 2).on_new_client_response 0 (rx 202 7)
        = Except.ok s' ∧
      uas_sent s'.out = [] ∧ s'._best_rsp = some (fwd_of (rx 202 7)) ∧
      s'._pending_targets = 1) ∧
    (∃ s', (fork_state pjsip_method_e.OTHER false 2).run
        [ChildEvent.response 0 (rx 202 7), ChildEvent.response 1 (rx 487 8)] = Except.ok s' ∧
      uas_sent s'.out = [fwd_of (rx 487 8)]) :=
  ⟨⟨_, rfl, by decide, by decide, by decide⟩, ⟨_, rfl, by decide⟩⟩

/-- C7: evaluation at the failing inputs. With `delay_trying` enabled a 100 from
one of two children of an INVITE is not forwarded; it is stored as
`_best_rsp`, the child is dissociated and `_pending_targets` drops from 2 to 1.
The same happens to a 199, whatever the configuration. -/
theorem provisional_100_and_199_handled_as_final :
    (fork_state pjsip_method_e.INVITE true 2)._pending_targets = 2 ∧
    (fork_state pjsip_method_e.INVITE true 2)._best_rsp = some template_408 ∧
    (fork_state pjsip_method_e.INVITE true 2).children = [0, 1] ∧
    (∃ s', (fork_state pjsip_method_e.INVITE true 2).on_new_client_response 0 (rx 100 7)
        = Except.ok s' ∧
      uas_sent s'.out = [] ∧ s'._best_rsp = some (fwd_of (rx 100 7)) ∧
      s'._pending_targets = 1 ∧ s'.children = [1]) ∧
    (fork_state pjsip_method_e.INVITE false 2)._pending_targets = 2 ∧
    (∃ s', (fork_state pjsip_method_e.INVITE false 2).on_new_client_response 0 (rx 199 7)
        = Except.ok s' ∧
      uas_sent s'.out = [] ∧ s'._best_rsp = some (fwd_of (rx 199 7)) ∧
      s'._pending_targets = 1 ∧ s'.children = [1]) :=
  ⟨by decide, by decide, by decide, ⟨_, rfl, by decide, by decide, by decide, by decide⟩,
    by decide, ⟨_, rfl, by decide, by decide, by decide, by decide⟩⟩

/-! ## Discarded 100 Trying -/

/-- C8: on an INVITE transaction with `delay_trying` false, `UASTsx::init` has
sent a local 100 Trying, and `on_new_client_response` on a child response with
status 100 sends nothing and leaves `_pending_targets`, `_best_rsp`, every
child slot and every child object unchanged. -/
theorem on_new_client_response_discards_100 (s : UASTsx) (tsx : pjsip_transaction)
    (uac : Nat) (rdata : RxData)
    (htsx : s._tsx = some tsx) (hm : tsx.method = pjsip_method_e.INVITE)
    (hd : s.delay_trying = false) (hc : rdata.code = 100) :
    (∃ s', s.on_new_client_response uac rdata = Except.ok s' ∧
      s'.out = s.out ∧ s'._pending_targets = s._pending_targets ∧
      s'._best_rsp = s._best_rsp ∧ s'._uac_tsx = s._uac_tsx ∧ s'.heap = s.heap) ∧
    (∀ (s0 : UASTsx) (rdata0 : RxRequest) (tdata0 : TxRequest) (rsp_ok : Bool),
      rdata0.method = pjsip_method_e.INVITE → s0.delay_trying = false →
      (s0.init rdata0 tdata0 PJ_SUCCESS PJ_SUCCESS rsp_ok).1 = PJ_SUCCESS ∧
      (s0.init rdata0 tdata0 PJ_SUCCESS PJ_SUCCESS rsp_ok).2.out =
        s0.out ++ [Effect.respond_stateful 100]) := by
  constructor
  · refine ⟨UASTsx.exit_context (UASTsx.enter_context s), ?_, ?_⟩
    · unfold UASTsx.on_new_client_response
      rw [htsx]
      simp [hm, hc, hd, UASTsx.enter_context]
    · simp [UASTsx.enter_context]
  · intro s0 rdata0 tdata0 rsp_ok hm0 hd0
    cases rsp_ok <;> simp [UASTsx.init, hm0, hd0, UASTsx.enter_context, PJ_SUCCESS]

theorem on_new_client_response_discards_100_witness :
    ∃ s', (fork_state pjsip_method_e.INVITE false 2).on_new_client_response 0 (rx 100 7)
        = Except.ok s' ∧
      s'.out = (fork_state pjsip_method_e.INVITE false 2).out ∧
      s'._pending_targets = (fork_state pjsip_method_e.INVITE false 2)._pending_targets ∧
      s'._best_rsp = (fork_state pjsip_method_e.INVITE false 2)._best_rsp ∧
      s'._uac_tsx = (fork_state pjsip_method_e.INVITE false 2)._uac_tsx ∧
      s'.heap = (fork_state pjsip_method_e.INVITE false 2).heap :=
  (on_new_client_response_discards_100 (fork_state pjsip_method_e.INVITE false 2)
    { method := pjsip_method_e.INVITE } 0 (rx 100 7) (by decide) (by decide) (by decide)
    (by decide)).1

/-! ## Children that do not respond -/

theorem on_client_not_responding_eq (s : UASTsx) (tsx : pjsip_transaction)
    (uac : Nat) (u : UACTsx) (best_rsp : TxData)
    (htsx : s._tsx = some tsx) (hbest : s._best_rsp = some best_rsp)
    (hu : s.heap[uac]? = some u) (hidx : u._index < s._uac_tsx.length) :
    s.on_client_not_responding uac =
      Except.ok (not_responding_result s tsx.method uac u best_rsp) := by
  unfold UASTsx.on_client_not_responding not_responding_result
  rw [htsx]
  by_cases hp : s._pending_targets - 1 = 0
  · simp only [UASTsx.enter_context, hp, if_true, UASTsx.on_final_response, htsx, hbest,
      final_effects]
    by_cases hm : tsx.method = pjsip_method_e.INVITE ∧ best_rsp.code = 200
    · simp [hm, Except.bind, UASTsx.dissociate, hu, hidx]
    · simp [hm, Except.bind, UASTsx.dissociate, hu, hidx]
  · simp [UASTsx.enter_context, hp, Except.bind, UASTsx.dissociate, hu, hidx, hbest]

theorem well_indexed_set (heap : List UACTsx) (slots : List (Option Nat)) (uac i : Nat)
    (u : UACTsx) (hwf : ∀ v ∈ heap, v._index < slots.length) (hu : u ∈ heap) :
    ∀ v ∈ heap.set uac { u with _uas_tsx := false }, v._index < (slots.set i none).length := by
  intro v hv
  rw [List.length_set]
  rcases List.mem_or_eq_of_mem_set hv with h | h
  · exact hwf v h
  · rw [h]
    exact hwf u hu

theorem run_not_responding (tsx : pjsip_transaction) (best_rsp : TxData) :
    ∀ (ps : List Nat) (s : UASTsx), s._tsx = some tsx → s._best_rsp = some best_rsp →
      (∀ u ∈ s.heap, u._index < s._uac_tsx.length) → (∀ p ∈ ps, p < s.heap.length) →
      ps ≠ [] → s._pending_targets = ps.length →
      ∃ s', s.run (ps.map ChildEvent.not_responding) = Except.ok s' ∧
        s'.out = s.out ++ final_effects tsx.method best_rsp ∧
        s'._best_rsp = none ∧ s'._pending_targets = 0 := by
  intro ps
  induction ps with
  | nil => intro s _ _ _ _ hne; exact absurd rfl hne
  | cons p rest ih =>
    intro s htsx hbest hwf hvalid _ hpend
    have hp : p < s.heap.length := hvalid p (List.mem_cons_self p rest)
    have hu : s.heap[p]? = some s.heap[p] := List.getElem?_eq_getElem hp
    have hmem : s.heap[p] ∈ s.heap := List.getElem_mem hp
    have hidx : s.heap[p]._index < s._uac_tsx.length := hwf _ hmem
    have hstep := on_client_not_responding_eq s tsx p s.heap[p] best_rsp htsx hbest hu hidx
    simp only [List.map_cons, UASTsx.run, UASTsx.handle, hstep, Except.bind]
    cases rest with
    | nil =>
      have h0 : s._pending_targets - 1 = 0 := by simp [hpend]
      refine ⟨_, rfl, ?_, ?_, ?_⟩ <;> simp [not_responding_result, h0, UASTsx.enter_context]
    | cons q rest' =>
      have h0 : ¬ s._pending_targets - 1 = 0 := by
        rw [hpend]; simp only [List.length_cons]; push_cast; omega
      have hih := ih (not_responding_result s tsx.method p s.heap[p] best_rsp)
        (by simp [not_responding_result, UASTsx.enter_context, htsx])
        (by simp [not_responding_result, h0])
        (by
          simp only [not_responding_result, exit_context_heap, exit_context_slots]
          exact well_indexed_set s.heap s._uac_tsx p _ _ hwf hmem)
        (by
          intro r hr
          simp only [not_responding_result, exit_context_heap, List.length_set]
          exact hvalid r (List.mem_cons_of_mem p hr))
        (by simp)
        (by
          simp only [not_responding_result, exit_context_pending, hpend, List.length_cons]
          push_cast; omega)
      obtain ⟨s', hrun, hout, hb, hpt⟩ := hih
      refine ⟨s', hrun, ?_, hb, hpt⟩
      rw [hout]
      simp [not_responding_result, h0, UASTsx.enter_context]

/-- C9: on a live transaction holding a best response, `on_client_not_responding`
decrements `_pending_targets` by exactly one, dissociates the reporting child,
puts no other response in place of the one held, and sends the held response as
the final response exactly when `_pending_targets` has reached zero. Hence,
when every child of a fork reports a timeout or transport error, in any order,
and the held response is still the locally built 408, exactly that 408 is sent
as the final response. -/
theorem on_client_not_responding_spec (s : UASTsx) (tsx : pjsip_transaction)
    (best_rsp : TxData) (htsx : s._tsx = some tsx) (hbest : s._best_rsp = some best_rsp)
    (hwf : ∀ u ∈ s.heap, u._index < s._uac_tsx.length) :
    (∀ uac u, s.heap[uac]? = some u →
      ∃ s', s.on_client_not_responding uac = Except.ok s' ∧
        s'._pending_targets = s._pending_targets - 1 ∧
        s'._uac_tsx = s._uac_tsx.set u._index none ∧
        s'.heap = s.heap.set uac { u with _uas_tsx := false } ∧
        (s._pending_targets - 1 = 0 →
          s'._best_rsp = none ∧ uas_sent s'.out = uas_sent s.out ++ [best_rsp]) ∧
        (s._pending_targets - 1 ≠ 0 →
          s'._best_rsp = some best_rsp ∧ s'.out = s.out)) ∧
    (∀ ps : List Nat, ps.Perm s.children → ps ≠ [] →
      (∀ p ∈ s.children, p < s.heap.length) →
      s._pending_targets = s.children.length → best_rsp = template_408 →
      ∃ s', s.run (ps.map ChildEvent.not_responding) = Except.ok s' ∧
        uas_sent s'.out = uas_sent s.out ++ [template_408] ∧
        uas_finals s'.out = uas_finals s.out ++ [template_408] ∧
        template_408.code = 408) := by
  constructor
  · intro uac u hu
    have hidx : u._index < s._uac_tsx.length := hwf u (List.getElem?_mem hu)
    refine ⟨_, on_client_not_responding_eq s tsx uac u best_rsp htsx hbest hu hidx,
      ?_, ?_, ?_, ?_, ?_⟩
    · simp [not_responding_result]
    · simp [not_responding_result]
    · simp [not_responding_result]
    · intro hp
      simp [not_responding_result, hp, uas_sent_append, uas_sent_final_effects]
    · intro hp
      simp [not_responding_result, hp]
  · intro ps hperm hne hvalid hpend htmpl
    obtain ⟨s', hrun, hout, _, _⟩ := run_not_responding tsx best_rsp ps s htsx hbest hwf
      (fun p hp => hvalid p (hperm.subset hp)) hne (by rw [hpend, hperm.length_eq])
    have hsent : uas_sent s'.out = uas_sent s.out ++ [template_408] := by
      rw [hout, uas_sent_append, uas_sent_final_effects, htmpl]
    refine ⟨s', hrun, hsent, ?_, rfl⟩
    unfold uas_finals
    rw [hsent, List.filter_append]
    rfl

theorem on_client_not_responding_spec_witness :
    ∃ s', (fork_state pjsip_method_e.INVITE false 3).run
        ([2, 0, 1].map ChildEvent.not_responding) = Except.ok s' ∧
      uas_sent s'.out = uas_sent (fork_state pjsip_method_e.INVITE false 3).out ++
        [template_408] ∧
      uas_finals s'.out = uas_finals (fork_state pjsip_method_e.INVITE false 3).out ++
        [template_408] ∧
      template_408.code = 408 :=
  (on_client_not_responding_spec (fork_state pjsip_method_e.INVITE false 3)
    { method := pjsip_method_e.INVITE } template_408 (by decide) (by decide)
    (by decide)).2 [2, 0, 1] (by decide) (by decide) (by decide) (by decide) rfl

/-! ## The locally built 408 against received responses -/

/-- C4, counterexample: a 408 received from a child does not displace the
locally built 408. `compare_sip_sc 408 408` is 0, not +1, and the stored
response after the step is still the template. -/
theorem received_408_does_not_replace_template :
    (fork_state pjsip_method_e.INVITE false 2)._best_rsp = some template_408 ∧
    compare_sip_sc 408 408 = 0 ∧
    ¬ (compare_sip_sc 408 408 = 1 ∧
      ∃ s', (fork_state pjsip_method_e.INVITE false 2).on_new_client_response 0 (rx 408 7)
          = Except.ok s' ∧ s'._best_rsp = some (fwd_of (rx 408 7))) ∧
    (∃ s', (fork_state pjsip_method_e.INVITE false 2).on_new_client_response 0 (rx 408 7)
        = Except.ok s' ∧ s'._best_rsp = some template_408) := by
  refine ⟨by decide, by decide, ?_, ⟨_, rfl, by decide⟩⟩
  intro h
  exact absurd h.1 (by decide)

/-- C4, amended: while `_best_rsp` is still the locally built 408, every
response received from a child with a status in 300-699 other than 408 compares
as strictly better (`compare_sip_sc` gives +1) and `on_new_client_response`
takes it in place of the template: it is stored as `_best_rsp`, or sent at once
as the final response when it was the last one pending. -/
theorem template_408_replaced_by_non_408 (s : UASTsx) (tsx : pjsip_transaction)
    (uac : Nat) (u : UACTsx) (rdata : RxData)
    (htsx : s._tsx = some tsx) (hfwd : rdata.fwd_ok = true)
    (hcode : 300 ≤ rdata.code ∧ rdata.code ≤ 699) (hne : rdata.code ≠ 408)
    (hbest : s._best_rsp = some template_408)
    (hu : s.heap[uac]? = some u) (hidx : u._index < s._uac_tsx.length) :
    compare_sip_sc rdata.code template_408.code = 1 ∧
    ∃ s', s.on_new_client_response uac rdata = Except.ok s' ∧
      (s._pending_targets - 1 ≠ 0 → s'._best_rsp = some (fwd_of rdata)) ∧
      (s._pending_targets - 1 = 0 →
        s'._best_rsp = none ∧ uas_sent s'.out = uas_sent s.out ++ [fwd_of rdata]) := by
  have hcmp : compare_sip_sc rdata.code template_408.code = 1 :=
    (compare_sip_sc_eq_one_iff _ _).2 (better46_408 rdata.code hne)
  have hpos : compare_sip_sc (fwd_of rdata).code template_408.code > 0 := by
    show compare_sip_sc rdata.code template_408.code > 0
    rw [hcmp]; decide
  have hkept : kept_best s._best_rsp (fwd_of rdata) = fwd_of rdata := by
    rw [hbest]
    simp only [kept_best, hpos, if_true]
  have h1 : ¬ (tsx.method = pjsip_method_e.INVITE ∧ rdata.code = 100 ∧
      s.delay_trying = false) := by omega
  have h2 : ¬ (100 < rdata.code ∧ rdata.code < 199) := by omega
  have h3 : ¬ rdata.code = 200 := by omega
  refine ⟨hcmp, _, on_new_client_response_else s tsx uac u rdata htsx hfwd h1 h2 h3 hu hidx,
    ?_, ?_⟩
  · intro hp
    simp [non_ok_result, hp, hkept]
  · intro hp
    simp [non_ok_result, hp, hkept, uas_sent_append, uas_sent_final_effects]

theorem template_408_replaced_by_non_408_witness :
    compare_sip_sc (rx 486 7).code template_408.code = 1 ∧
    ∃ s', (fork_state pjsip_method_e.INVITE false 2).on_new_client_response 1 (rx 486 7)
        = Except.ok s' ∧
      ((fork_state pjsip_method_e.INVITE false 2)._pending_targets - 1 ≠ 0 →
        s'._best_rsp = some (fwd_of (rx 486 7))) ∧
      ((fork_state pjsip_method_e.INVITE false 2)._pending_targets - 1 = 0 →
        s'._best_rsp = none ∧
        uas_sent s'.out = uas_sent (fork_state pjsip_method_e.INVITE false 2).out ++
          [fwd_of (rx 486 7)]) :=
  template_408_replaced_by_non_408 (fork_state pjsip_method_e.INVITE false 2)
    { method := pjsip_method_e.INVITE } 1
    { _uas_tsx := true, _index := 1, _tsx := true, _tdata := none, tp_sel := none,
      _pending_destroy := false, _context_count := 0, deleted := false }
    (rx 486 7) (by decide) (by decide) (by decide) (by decide) (by decide) (by decide)
    (by decide)

/-! ## Order independence of the final status -/

theorem kept_best_cases (b t : TxData) :
    (better46 t.code b.code ∧ kept_best (some b) t = t) ∨
    (¬ better46 t.code b.code ∧ kept_best (some b) t = b) := by
  by_cases h : compare_sip_sc t.code b.code > 0
  · left
    exact ⟨(compare_sip_sc_pos_iff _ _).1 h, by simp [kept_best, h]⟩
  · right
    exact ⟨fun hb => h ((compare_sip_sc_pos_iff _ _).2 hb), by simp [kept_best, h]⟩

theorem not_better46_trans {a b c : Int} (h1 : ¬ better46 a b) (h2 : ¬ better46 b c) :
    ¬ better46 a c := by
  unfold better46 at *; omega

theorem best_after_cases (evs : List (Nat × RxData)) :
    ∀ b : TxData, best_after b evs = b ∨ ∃ e ∈ evs, best_after b evs = fwd_of e.2 := by
  induction evs with
  | nil => intro b; left; rfl
  | cons e rest ih =>
    intro b
    simp only [best_after]
    rcases ih (kept_best (some b) (fwd_of e.2)) with h | ⟨e', he', h⟩
    · rcases kept_best_cases b (fwd_of e.2) with ⟨_, hk⟩ | ⟨_, hk⟩
      · right
        exact ⟨e, List.mem_cons_self e rest, by rw [h, hk]⟩
      · left
        rw [h, hk]
    · right
      exact ⟨e', List.mem_cons_of_mem e he', h⟩

theorem best_after_min (evs : List (Nat × RxData)) :
    ∀ b : TxData, ¬ better46 b.code (best_after b evs).code ∧
      ∀ e ∈ evs, ¬ better46 e.2.code (best_after b evs).code := by
  induction evs with
  | nil =>
    intro b
    exact ⟨better46_irrefl _, fun e he => absurd he (List.not_mem_nil e)⟩
  | cons e rest ih =>
    intro b
    simp only [best_after]
    obtain ⟨hk, hrest⟩ := ih (kept_best (some b) (fwd_of e.2))
    have hb : ¬ better46 b.code (kept_best (some b) (fwd_of e.2)).code := by
      rcases kept_best_cases b (fwd_of e.2) with ⟨h, hk'⟩ | ⟨_, hk'⟩
      · rw [hk']; exact better46_asymm h
      · rw [hk']; exact better46_irrefl _
    have he : ¬ better46 e.2.code (kept_best (some b) (fwd_of e.2)).code := by
      rcases kept_best_cases b (fwd_of e.2) with ⟨_, hk'⟩ | ⟨h, hk'⟩
      · rw [hk']; exact better46_irrefl _
      · rw [hk']; exact h
    refine ⟨not_better46_trans hb hk, ?_⟩
    intro e' he'
    rcases List.mem_cons.1 he' with h | h
    · rw [h]; exact not_better46_trans he hk
    · exact hrest e' h

theorem run_responses (tsx : pjsip_transaction) :
    ∀ (evs : List (Nat × RxData)) (s : UASTsx) (b : TxData), s._tsx = some tsx →
      s._best_rsp = some b →
      (∀ u ∈ s.heap, u._index < s._uac_tsx.length) →
      (∀ e ∈ evs, e.1 < s.heap.length ∧ 300 ≤ e.2.code ∧ e.2.code ≤ 699 ∧
        e.2.fwd_ok = true) →
      evs ≠ [] → s._pending_targets = evs.length →
      ∃ s', s.run (responses evs) = Except.ok s' ∧
        s'.out = s.out ++ final_effects tsx.method (best_after b evs) ∧
        s'._best_rsp = none ∧ s'._pending_targets = 0 := by
  intro evs
  induction evs with
  | nil => intro s b _ _ _ _ hne; exact absurd rfl hne
  | cons e rest ih =>
    intro s b htsx hbest hwf hvalid _ hpend
    obtain ⟨hp, hlo, hhi, hfwd⟩ := hvalid e (List.mem_cons_self e rest)
    have hu : s.heap[e.1]? = some s.heap[e.1] := List.getElem?_eq_getElem hp
    have hmem : s.heap[e.1] ∈ s.heap := List.getElem_mem hp
    have hidx : s.heap[e.1]._index < s._uac_tsx.length := hwf _ hmem
    have h1 : ¬ (tsx.method = pjsip_method_e.INVITE ∧ e.2.code = 100 ∧
        s.delay_trying = false) := by omega
    have h2 : ¬ (100 < e.2.code ∧ e.2.code < 199) := by omega
    have h3 : ¬ e.2.code = 200 := by omega
    have hstep := on_new_client_response_else s tsx e.1 s.heap[e.1] e.2 htsx hfwd h1 h2 h3
      hu hidx
    simp only [responses, List.map_cons, UASTsx.run, UASTsx.handle, hstep, Except.bind]
    cases rest with
    | nil =>
      have h0 : s._pending_targets - 1 = 0 := by simp [hpend]
      refine ⟨_, rfl, ?_, ?_, ?_⟩ <;>
        simp [non_ok_result, h0, UASTsx.enter_context, best_after, hbest]
    | cons q rest' =>
      have h0 : ¬ s._pending_targets - 1 = 0 := by
        rw [hpend]; simp only [List.length_cons]; push_cast; omega
      have hih := ih (non_ok_result s tsx.method e.1 s.heap[e.1] e.2)
        (kept_best (some b) (fwd_of e.2))
        (by simp [non_ok_result, UASTsx.enter_context, htsx])
        (by simp [non_ok_result, h0, hbest])
        (by
          simp only [non_ok_result, exit_context_heap, exit_context_slots]
          exact well_indexed_set s.heap s._uac_tsx e.1 _ _ hwf hmem)
        (by
          intro r hr
          simp only [non_ok_result, exit_context_heap, List.length_set]
          exact hvalid r (List.mem_cons_of_mem e hr))
        (by simp)
        (by
          simp only [non_ok_result, exit_context_pending, hpend, List.length_cons]
          push_cast; omega)
      obtain ⟨s', hrun, hout, hb, hpt⟩ := hih
      refine ⟨s', hrun, ?_, hb, hpt⟩
      rw [hout]
      simp [non_ok_result, h0, UASTsx.enter_context, best_after]

theorem best_after_template_mem (evs : List (Nat × RxData)) (hne : evs ≠ []) :
    (best_after template_408 evs).code ∈ statuses evs := by
  rcases best_after_cases evs template_408 with h | ⟨e, he, h⟩
  · obtain ⟨e, rest, rfl⟩ := List.exists_cons_of_ne_nil hne
    have hmin := (best_after_min (e :: rest) template_408).2 e (List.mem_cons_self e rest)
    rw [h] at hmin
    have hcode : e.2.code = 408 := by
      by_contra hc
      exact hmin (better46_408 e.2.code hc)
    rw [h]
    exact List.mem_map.2 ⟨e, List.mem_cons_self e rest, hcode⟩
  · rw [h]
    exact List.mem_map.2 ⟨e, he, rfl⟩

/-- C1: in a fork whose children each deliver exactly one final response with a
status in 300-699 through `on_new_client_response`, starting from the locally
built 408 and with `_pending_targets` counting the children, every arrival
order makes the `UASTsx` send exactly one response on the UAS transaction; its
status is the same for every order, is one of the observed statuses, and no
observed status ranks strictly before it in the best-response ordering. -/
theorem final_status_independent_of_arrival_order (s : UASTsx) (tsx : pjsip_transaction)
    (evs evs' : List (Nat × RxData))
    (htsx : s._tsx = some tsx) (hbest : s._best_rsp = some template_408)
    (hwf : ∀ u ∈ s.heap, u._index < s._uac_tsx.length)
    (hptr : ∀ p ∈ s.children, p < s.heap.length)
    (hn : 1 ≤ s.children.length)
    (hpend : s._pending_targets = s.children.length)
    (hone : (evs.map Prod.fst).Perm s.children)
    (hcode : ∀ e ∈ evs, 300 ≤ e.2.code ∧ e.2.code ≤ 699 ∧ e.2.fwd_ok = true)
    (hperm : evs'.Perm evs) :
    ∃ s1 s2 r1 r2, s.run (responses evs) = Except.ok s1 ∧
      s.run (responses evs') = Except.ok s2 ∧
      uas_sent s1.out = uas_sent s.out ++ [r1] ∧
      uas_sent s2.out = uas_sent s.out ++ [r2] ∧
      r1.code = r2.code ∧
      r1.code ∈ statuses evs ∧
      ∀ c ∈ statuses evs, ¬ better46 c r1.code := by
  have hlen : evs.length = s.children.length := by
    rw [← hone.length_eq, List.length_map]
  have hne : evs ≠ [] := by
    intro h
    rw [h] at hlen
    simp only [List.length_nil] at hlen
    omega
  have hne' : evs' ≠ [] := by
    intro h
    rw [h] at hperm
    exact hne (List.Perm.nil_eq hperm).symm
  have hvalid : ∀ e ∈ evs, e.1 < s.heap.length ∧ 300 ≤ e.2.code ∧ e.2.code ≤ 699 ∧
      e.2.fwd_ok = true := by
    intro e he
    have hmem : e.1 ∈ evs.map Prod.fst := List.mem_map.2 ⟨e, he, rfl⟩
    exact ⟨hptr e.1 (hone.subset hmem), hcode e he⟩
  have hvalid' : ∀ e ∈ evs', e.1 < s.heap.length ∧ 300 ≤ e.2.code ∧ e.2.code ≤ 699 ∧
      e.2.fwd_ok = true := fun e he => hvalid e (hperm.subset he)
  obtain ⟨s1, hrun1, hout1, _, _⟩ := run_responses tsx evs s template_408 htsx hbest hwf
    hvalid hne (by rw [hpend, hlen])
  obtain ⟨s2, hrun2, hout2, _, _⟩ := run_responses tsx evs' s template_408 htsx hbest hwf
    hvalid' hne' (by rw [hpend, ← hlen, hperm.length_eq])
  have hmem1 := best_after_template_mem evs hne
  have hmem2 := best_after_template_mem evs' hne'
  have hmin1 : ∀ c ∈ statuses evs, ¬ better46 c (best_after template_408 evs).code := by
    intro c hc
    obtain ⟨e, he, rfl⟩ := List.mem_map.1 hc
    exact (best_after_min evs template_408).2 e he
  have hmin2 : ∀ c ∈ statuses evs', ¬ better46 c (best_after template_408 evs').code := by
    intro c hc
    obtain ⟨e, he, rfl⟩ := List.mem_map.1 hc
    exact (best_after_min evs' template_408).2 e he
  have hst : (statuses evs').Perm (statuses evs) := hperm.map _
  refine ⟨s1, s2, best_after template_408 evs, best_after template_408 evs', hrun1, hrun2,
    ?_, ?_, ?_, hmem1, hmin1⟩
  · rw [hout1, uas_sent_append, uas_sent_final_effects]
  · rw [hout2, uas_sent_append, uas_sent_final_effects]
  · rcases better46_total (best_after template_408 evs).code
        (best_after template_408 evs').code with h | h | h
    · exact absurd h (hmin2 _ (hst.symm.subset hmem1))
    · exact h
    · exact absurd h (hmin1 _ (hst.subset hmem2))

theorem final_status_independent_of_arrival_order_witness :
    ∃ s1 s2 r1 r2,
      (fork_state pjsip_method_e.INVITE false 3).run
        (responses [(0, rx 486 10), (1, rx 487 11), (2, rx 404 12)]) = Except.ok s1 ∧
      (fork_state pjsip_method_e.INVITE false 3).run
        (responses [(2, rx 404 12), (0, rx 486 10), (1, rx 487 11)]) = Except.ok s2 ∧
      uas_sent s1.out = uas_sent (fork_state pjsip_method_e.INVITE false 3).out ++ [r1] ∧
      uas_sent s2.out = uas_sent (fork_state pjsip_method_e.INVITE false 3).out ++ [r2] ∧
      r1.code = r2.code ∧
      r1.code ∈ statuses [(0, rx 486 10), (1, rx 487 11), (2, rx 404 12)] ∧
      ∀ c ∈ statuses [(0, rx 486 10), (1, rx 487 11), (2, rx 404 12)],
        ¬ better46 c r1.code :=
  final_status_independent_of_arrival_order (fork_state pjsip_method_e.INVITE false 3)
    { method := pjsip_method_e.INVITE }
    [(0, rx 486 10), (1, rx 487 11), (2, rx 404 12)]
    [(2, rx 404 12), (0, rx 486 10), (1, rx 487 11)]
    (by decide) (by decide) (by decide) (by decide) (by decide) (by decide) (by decide)
    (by decide) (by decide)

/-! ## The other branches of `on_new_client_response` -/

/-- A 200 from a child of a live transaction is taken as `_best_rsp`, the child
is dissociated, `_pending_targets` drops by one and the 200 is sent at once. -/
theorem on_new_client_response_200 (s : UASTsx) (tsx : pjsip_transaction)
    (uac : Nat) (u : UACTsx) (rdata : RxData)
    (htsx : s._tsx = some tsx) (hfwd : rdata.fwd_ok = true) (hcode : rdata.code = 200)
    (hu : s.heap[uac]? = some u) (hidx : u._index < s._uac_tsx.length) :
    ∃ s', s.on_new_client_response uac rdata = Except.ok s' ∧
      s'._pending_targets = s._pending_targets - 1 ∧
      s'._uac_tsx = s._uac_tsx.set u._index none ∧
      s'.heap = s.heap.set uac { u with _uas_tsx := false } ∧
      s'._best_rsp = none ∧
      s'.out = s.out ++ final_effects tsx.method (fwd_of rdata) := by
  have h1 : ¬ (tsx.method = pjsip_method_e.INVITE ∧ rdata.code = 100 ∧
      s.delay_trying = false) := by omega
  have h2 : ¬ (100 < rdata.code ∧ rdata.code < 199) := by omega
  refine ⟨UASTsx.exit_context
    { UASTsx.enter_context s with
      _best_rsp := none
      _pending_targets := s._pending_targets - 1
      heap := s.heap.set uac { u with _uas_tsx := false }
      _uac_tsx := s._uac_tsx.set u._index none
      out := s.out ++ final_effects tsx.method (fwd_of rdata) }, ?_, ?_⟩
  · unfold UASTsx.on_new_client_response
    rw [htsx]
    simp only [UASTsx.enter_context, create_response_fwd_ok rdata hfwd, h1, h2, hcode,
      if_false, if_true, UASTsx.dissociate, hu, hidx, Except.bind,
      UASTsx.on_final_response, htsx, final_effects, fwd_of]
    by_cases hm : tsx.method = pjsip_method_e.INVITE
    · simp [hm]
    · simp [hm]
  · simp [UASTsx.enter_context]

/-- A response with a status in 101-198 from a child of a live transaction is
forwarded on the UAS transaction and nothing else changes. -/
theorem on_new_client_response_provisional (s : UASTsx) (tsx : pjsip_transaction)
    (uac : Nat) (rdata : RxData)
    (htsx : s._tsx = some tsx) (hfwd : rdata.fwd_ok = true)
    (hcode : 100 < rdata.code ∧ rdata.code < 199) :
    ∃ s', s.on_new_client_response uac rdata = Except.ok s' ∧
      s'.out = s.out ++ [Effect.tsx_send_msg (fwd_of rdata)] ∧
      s'._pending_targets = s._pending_targets ∧ s'._best_rsp = s._best_rsp ∧
      s'._uac_tsx = s._uac_tsx ∧ s'.heap = s.heap := by
  have h1 : ¬ (tsx.method = pjsip_method_e.INVITE ∧ rdata.code = 100 ∧
      s.delay_trying = false) := by omega
  refine ⟨UASTsx.exit_context
    { UASTsx.enter_context s with out := s.out ++ [Effect.tsx_send_msg (fwd_of rdata)] },
    ?_, ?_⟩
  · unfold UASTsx.on_new_client_response
    rw [htsx]
    simp only [UASTsx.enter_context, create_response_fwd_ok rdata hfwd, h1, hcode,
      if_false, if_true, and_self]
  · simp [UASTsx.enter_context]

/-! ## Forks in which no child succeeds -/

/-- One failure event on a live transaction holding a best response: the state
it leaves, in both shapes at once. -/
theorem handle_failure (s : UASTsx) (tsx : pjsip_transaction) (b : TxData) (e : ChildEvent)
    (htsx : s._tsx = some tsx) (hbest : s._best_rsp = some b)
    (hwf : ∀ u ∈ s.heap, u._index < s._uac_tsx.length)
    (hp : e.child < s.heap.length) (hf : e.is_failure) :
    ∃ s', s.handle e = Except.ok s' ∧ s'._tsx = some tsx ∧
      s'._pending_targets = s._pending_targets - 1 ∧
      (∀ u ∈ s'.heap, u._index < s'._uac_tsx.length) ∧
      s'.heap.length = s.heap.length ∧
      (s._pending_targets - 1 = 0 →
        s'._best_rsp = none ∧
        s'.out = s.out ++ final_effects tsx.method (best_after_events b [e])) ∧
      (s._pending_targets - 1 ≠ 0 →
        s'._best_rsp = some (best_after_events b [e]) ∧ s'.out = s.out) := by
  have hu : s.heap[e.child]? = some s.heap[e.child] := List.getElem?_eq_getElem hp
  have hmem : s.heap[e.child] ∈ s.heap := List.getElem_mem hp
  have hidx : s.heap[e.child]._index < s._uac_tsx.length := hwf _ hmem
  cases e with
  | response uac rdata =>
    obtain ⟨hlo, hhi, hfwd⟩ := hf
    have h1 : ¬ (tsx.method = pjsip_method_e.INVITE ∧ rdata.code = 100 ∧
        s.delay_trying = false) := by omega
    have h2 : ¬ (100 < rdata.code ∧ rdata.code < 199) := by omega
    have h3 : ¬ rdata.code = 200 := by omega
    refine ⟨_, on_new_client_response_else s tsx uac _ rdata htsx hfwd h1 h2 h3 hu hidx,
      ?_, ?_, ?_, ?_, ?_, ?_⟩
    · simp [non_ok_result, UASTsx.enter_context, htsx]
    · simp [non_ok_result]
    · simp only [non_ok_result, exit_context_heap, exit_context_slots]
      exact well_indexed_set s.heap s._uac_tsx uac _ _ hwf hmem
    · simp [non_ok_result]
    · intro h0
      simp [non_ok_result, h0, best_after_events, hbest]
    · intro h0
      simp [non_ok_result, h0, best_after_events, hbest]
  | not_responding uac =>
    refine ⟨_, on_client_not_responding_eq s tsx uac _ b htsx hbest hu hidx,
      ?_, ?_, ?_, ?_, ?_, ?_⟩
    · simp [not_responding_result, UASTsx.enter_context, htsx]
    · simp [not_responding_result]
    · simp only [not_responding_result, exit_context_heap, exit_context_slots]
      exact well_indexed_set s.heap s._uac_tsx uac _ _ hwf hmem
    · simp [not_responding_result]
    · intro h0
      simp [not_responding_result, h0, best_after_events]
    · intro h0
      simp [not_responding_result, h0, best_after_events]

theorem best_after_events_cons (b : TxData) (e : ChildEvent) (rest : List ChildEvent) :
    best_after_events b (e :: rest) = best_after_events (best_after_events b [e]) rest := by
  cases e <;> rfl

/-- While fewer failure events have been handled than children are pending,
nothing is sent on the UAS transaction. -/
theorem run_failures_pending (tsx : pjsip_transaction) :
    ∀ (evs : List ChildEvent) (s : UASTsx) (b : TxData), s._tsx = some tsx →
      s._best_rsp = some b →
      (∀ u ∈ s.heap, u._index < s._uac_tsx.length) →
      (∀ e ∈ evs, e.child < s.heap.length ∧ e.is_failure) →
      (evs.length : Int) < s._pending_targets →
      ∃ s', s.run evs = Except.ok s' ∧ s'.out = s.out ∧
        s'._best_rsp = some (best_after_events b evs) ∧
        s'._pending_targets = s._pending_targets - evs.length := by
  intro evs
  induction evs with
  | nil =>
    intro s b _ hbest _ _ _
    exact ⟨s, rfl, rfl, hbest, by simp⟩
  | cons e rest ih =>
    intro s b htsx hbest hwf hvalid hlt
    obtain ⟨hp, hf⟩ := hvalid e (List.mem_cons_self e rest)
    obtain ⟨s1, hstep, htsx1, hpend1, hwf1, hlen1, _, hmore⟩ :=
      handle_failure s tsx b e htsx hbest hwf hp hf
    have h0 : s._pending_targets - 1 ≠ 0 := by
      simp only [List.length_cons] at hlt; push_cast at hlt; omega
    obtain ⟨hb1, hout1⟩ := hmore h0
    obtain ⟨s', hrun, hout, hb, hpt⟩ := ih s1 (best_after_events b [e]) htsx1 hb1 hwf1
      (fun r hr => by rw [hlen1]; exact hvalid r (List.mem_cons_of_mem e hr))
      (by rw [hpend1]; simp only [List.length_cons] at hlt; push_cast at hlt; omega)
    refine ⟨s', ?_, by rw [hout, hout1], ?_, ?_⟩
    · simp only [UASTsx.run, hstep, Except.bind]
      exact hrun
    · rw [hb, best_after_events_cons b e rest]
    · rw [hpt, hpend1]; simp only [List.length_cons]; push_cast; omega

/-- When every pending child reports a failure (a 300-699 response, a timeout or
a transport error, in any interleaving), exactly one response is sent on the UAS
transaction, with the last event. -/
theorem run_failures_complete (tsx : pjsip_transaction) :
    ∀ (evs : List ChildEvent) (s : UASTsx) (b : TxData), s._tsx = some tsx →
      s._best_rsp = some b →
      (∀ u ∈ s.heap, u._index < s._uac_tsx.length) →
      (∀ e ∈ evs, e.child < s.heap.length ∧ e.is_failure) →
      evs ≠ [] → s._pending_targets = evs.length →
      ∃ s', s.run evs = Except.ok s' ∧
        uas_sent s'.out = uas_sent s.out ++ [best_after_events b evs] ∧
        s'._best_rsp = none ∧ s'._pending_targets = 0 := by
  intro evs
  induction evs with
  | nil => intro s b _ _ _ _ hne; exact absurd rfl hne
  | cons e rest ih =>
    intro s b htsx hbest hwf hvalid _ hpend
    obtain ⟨hp, hf⟩ := hvalid e (List.mem_cons_self e rest)
    obtain ⟨s1, hstep, htsx1, hpend1, hwf1, hlen1, hlast, hmore⟩ :=
      handle_failure s tsx b e htsx hbest hwf hp hf
    simp only [UASTsx.run, hstep, Except.bind]
    cases rest with
    | nil =>
      have h0 : s._pending_targets - 1 = 0 := by simp [hpend]
      obtain ⟨hb1, hout1⟩ := hlast h0
      refine ⟨s1, rfl, ?_, hb1, by rw [hpend1, h0]⟩
      rw [hout1, uas_sent_append, uas_sent_final_effects]
    | cons q rest' =>
      have h0 : s._pending_targets - 1 ≠ 0 := by
        rw [hpend]; simp only [List.length_cons]; push_cast; omega
      obtain ⟨hb1, hout1⟩ := hmore h0
      obtain ⟨s', hrun, hout, hb, hpt⟩ := ih s1 (best_after_events b [e]) htsx1 hb1 hwf1
        (fun r hr => by rw [hlen1]; exact hvalid r (List.mem_cons_of_mem e hr))
        (by simp)
        (by rw [hpend1, hpend]; simp only [List.length_cons]; push_cast; omega)
      refine ⟨s', hrun, ?_, hb, hpt⟩
      rw [hout, hout1, best_after_events_cons b e (q :: rest')]

/-! ## Routing preprocessing -/

/-- C11: strict-route recovery in `process_routing`. When the Request-URI is
locally owned, a Route header is present and the last one has no `lr` parameter,
the Request-URI becomes the URI of that last Route header and exactly that
header is removed, the others keeping their order. When the Request-URI is not
locally owned, or the last Route header has `lr`, the step changes neither the
Request-URI nor the Route headers. With a locally owned Request-URI and no Route
header the function returns at once, the request unchanged. -/
theorem strict_route_recovery_spec (is_uri_local is_home_domain : Uri → Bool)
    (tdata : TxRequest) :
    (is_uri_local tdata.uri = true → ∀ init last, tdata.routes = init ++ [last] →
      last.lr_param = false →
      strict_route_recovery is_uri_local tdata =
        some { tdata with uri := last, routes := init }) ∧
    (is_uri_local tdata.uri = false →
      strict_route_recovery is_uri_local tdata = some tdata) ∧
    (∀ init last, tdata.routes = init ++ [last] → last.lr_param = true →
      strict_route_recovery is_uri_local tdata = some tdata) ∧
    (is_uri_local tdata.uri = true → tdata.routes = [] →
      strict_route_recovery is_uri_local tdata = none ∧
      process_routing is_uri_local is_home_domain tdata = (PJSIP_SC_OK, tdata, none)) ∧
    (∀ tdata1, strict_route_recovery is_uri_local tdata = some tdata1 →
      process_routing is_uri_local is_home_domain tdata =
        (PJSIP_SC_OK, loose_route_consumption is_uri_local is_home_domain tdata1)) := by
  refine ⟨?_, ?_, ?_, ?_, ?_⟩
  · intro hl init last hr hlr
    simp [strict_route_recovery, hl, hr, hlr]
  · intro hl
    simp [strict_route_recovery, hl]
  · intro init last hr hlr
    cases hl : is_uri_local tdata.uri <;> simp [strict_route_recovery, hl, hr, hlr]
  · intro hl hr
    simp [strict_route_recovery, process_routing, hl, hr]
  · intro tdata1 h
    simp [process_routing, h]

/-- C12: routing on the top Route header in `process_routing`, on the request
left by strict-route recovery. If the top Route header's URI is locally owned or
in the home domain, exactly that header is removed and no Target is produced. If
it is neither, no Route header is removed and one Target is produced, whose uri
is the current Request-URI and which has no paths and no transport. Without a
Route header no Target is produced and the request is unchanged. -/
theorem loose_route_consumption_spec (is_uri_local is_home_domain : Uri → Bool)
    (tdata : TxRequest) :
    (∀ hroute rest, tdata.routes = hroute :: rest →
      (is_uri_local hroute = true ∨ is_home_domain hroute = true) →
      loose_route_consumption is_uri_local is_home_domain tdata =
        ({ tdata with routes := rest }, none)) ∧
    (∀ hroute rest, tdata.routes = hroute :: rest →
      is_uri_local hroute = false → is_home_domain hroute = false →
      loose_route_consumption is_uri_local is_home_domain tdata =
        (tdata, some { uri := some tdata.uri, paths := [], transport := none })) ∧
    (tdata.routes = [] →
      loose_route_consumption is_uri_local is_home_domain tdata = (tdata, none)) ∧
    (∀ tdata0, strict_route_recovery is_uri_local tdata0 = some tdata →
      process_routing is_uri_local is_home_domain tdata0 =
        (PJSIP_SC_OK, loose_route_consumption is_uri_local is_home_domain tdata)) := by
  refine ⟨?_, ?_, ?_, ?_⟩
  · intro hroute rest hr h
    rcases h with h | h
    · simp [loose_route_consumption, hr, h]
    · simp [loose_route_consumption, hr, h]
  · intro hroute rest hr h1 h2
    simp [loose_route_consumption, hr, h1, h2, Target.new]
  · intro hr
    simp [loose_route_consumption, hr]
  · intro tdata0 h
    simp [process_routing, h]

/-- Strict-route recovery followed by routing on the top Route header, on a
sample request: the last Route header, which has no `lr`, becomes the
Request-URI, and the remaining top Route header, which is not this proxy's,
yields a Target with the rewritten Request-URI. -/
theorem process_routing_sample :
    process_routing sample_is_uri_local sample_is_home_domain
        { method := pjsip_method_e.INVITE, uri := proxy_uri,
          routes := [loose_hop_uri, strict_hop_uri] } =
      (PJSIP_SC_OK,
        { method := pjsip_method_e.INVITE, uri := strict_hop_uri, routes := [loose_hop_uri] },
        some { uri := some strict_hop_uri, paths := [], transport := none }) := by
  decide

/-! ## Stateless forwarding of late responses -/

/-- C16: `on_rx_response` strips the top Via header and, when a Via header
remains and the forwardable copy can be built, sends the response exactly once:
to the new top Via's `received` parameter when that is non-empty and to its
sent-by host otherwise, and to its `rport` when that is neither 0 nor -1 and to
its sent-by port otherwise. When no Via header remains nothing is sent. -/
theorem on_rx_response_spec (rdata : RxData) :
    (∀ top hvia rest, rdata.vias = top :: hvia :: rest → rdata.fwd_ok = true →
      on_rx_response rdata =
        [Effect.endpt_send_response hvia.transport
          (if hvia.recvd_param ≠ "" then hvia.recvd_param else hvia.sent_by_host)
          (if hvia.rport_param ≠ 0 ∧ hvia.rport_param ≠ -1 then hvia.rport_param
            else hvia.sent_by_port)
          { code := rdata.code, origin := Origin.forwarded rdata.body,
            vias := hvia :: rest }]) ∧
    ((rdata.vias = [] ∨ ∃ top, rdata.vias = [top]) → on_rx_response rdata = []) := by
  constructor
  · intro top hvia rest hv hfwd
    have hlen : hvia.recvd_param.length = 0 ↔ hvia.recvd_param = "" := by
      constructor
      · intro h
        exact String.ext (List.eq_nil_of_length_eq_zero h)
      · intro h
        rw [h]; rfl
    by_cases h1 : hvia.recvd_param = ""
    · by_cases h2 : hvia.rport_param ≠ 0 ∧ hvia.rport_param ≠ -1
      · simp [on_rx_response, create_response_fwd, hfwd, hv, h1, h2]
      · simp [on_rx_response, create_response_fwd, hfwd, hv, h1, h2]
    · have h1' : ¬ hvia.recvd_param.length = 0 := fun h => h1 (hlen.1 h)
      by_cases h2 : hvia.rport_param ≠ 0 ∧ hvia.rport_param ≠ -1
      · simp [on_rx_response, create_response_fwd, hfwd, hv, h1, h1', h2]
      · simp [on_rx_response, create_response_fwd, hfwd, hv, h1, h1', h2]
  · intro h
    cases hf : rdata.fwd_ok
    · simp [on_rx_response, create_response_fwd, hf]
    · rcases h with h | ⟨top, h⟩
      · simp [on_rx_response, create_response_fwd, hf, h]
      · simp [on_rx_response, create_response_fwd, hf, h]

/-- A late response with the proxy's Via on top goes to the `received` address
and `rport` of the next Via. -/
theorem on_rx_response_sample :
    on_rx_response { code := 200, body := 3, fwd_ok := true, vias := sample_vias } =
      [Effect.endpt_send_response "UDP" "192.0.2.7" 40001
        { code := 200, origin := Origin.forwarded 3, vias := sample_vias.tail }] := by
  decide

/-! ## Target calculation -/

/-- C13: the base `calculate_targets`. If the Request-URI is neither in the home
domain nor locally owned it appends exactly one Target, which is empty, and
returns 200. Otherwise it appends nothing and returns 404, and
`process_tsx_request`, called without targets on a transaction holding its
response buffer, then sends that buffer with status 404 as the final response
and creates no child: slots, heap and `_pending_targets` stay as they were. -/
theorem calculate_targets_spec (is_home_domain is_uri_local : Uri → Bool) (s : UASTsx)
    (tdata : TxRequest) (hreq : s._req = some tdata) :
    (is_home_domain tdata.uri = false → is_uri_local tdata.uri = false →
      s.calculate_targets is_home_domain is_uri_local =
        Except.ok (200, { s with _targets := s._targets ++
          [{ uri := none, paths := [], transport := none }] })) ∧
    ((is_home_domain tdata.uri = true ∨ is_uri_local tdata.uri = true) →
      s.calculate_targets is_home_domain is_uri_local = Except.ok (404, s) ∧
      ∀ (oracle : Nat → Alloc) (send_status : Nat → Int) (best_rsp : TxData)
        (tsx : pjsip_transaction),
        s._targets = [] → s._best_rsp = some best_rsp → s._tsx = some tsx →
        s.process_tsx_request is_home_domain is_uri_local oracle send_status =
          Except.ok { s with _best_rsp := none,
                             out := s.out ++
                               [Effect.tsx_send_msg { best_rsp with code := 404 }] }) := by
  constructor
  · intro h1 h2
    simp [UASTsx.calculate_targets, hreq, h1, h2, UASTsx.add_target, Target.new, PJSIP_SC_OK]
  · intro h
    have hc : s.calculate_targets is_home_domain is_uri_local = Except.ok (404, s) := by
      rcases h with h | h
      · simp [UASTsx.calculate_targets, hreq, h, PJSIP_SC_NOT_FOUND]
      · simp [UASTsx.calculate_targets, hreq, h, PJSIP_SC_NOT_FOUND]
    refine ⟨hc, ?_⟩
    intro oracle send_status best_rsp tsx ht hb htsx
    simp [UASTsx.process_tsx_request, ht, hc, Except.bind, PJSIP_SC_OK,
      UASTsx.send_response, hb, htsx]

theorem calculate_targets_spec_witness :
    (initial_state pjsip_method_e.INVITE false).calculate_targets sample_is_home_domain
        sample_is_uri_local = Except.ok (404, initial_state pjsip_method_e.INVITE false) ∧
    ∀ (oracle : Nat → Alloc) (send_status : Nat → Int) (best_rsp : TxData)
      (tsx : pjsip_transaction),
      (initial_state pjsip_method_e.INVITE false)._targets = [] →
      (initial_state pjsip_method_e.INVITE false)._best_rsp = some best_rsp →
      (initial_state pjsip_method_e.INVITE false)._tsx = some tsx →
      (initial_state pjsip_method_e.INVITE false).process_tsx_request sample_is_home_domain
          sample_is_uri_local oracle send_status =
        Except.ok { initial_state pjsip_method_e.INVITE false with
          _best_rsp := none,
          out := (initial_state pjsip_method_e.INVITE false).out ++
            [Effect.tsx_send_msg { best_rsp with code := 404 }] } :=
  (calculate_targets_spec sample_is_home_domain sample_is_uri_local
    (initial_state pjsip_method_e.INVITE false) (sample_request pjsip_method_e.INVITE)
    (by decide)).2 (Or.inl (by decide))

/-- A request to the home domain without targets: `process_tsx_request` sends
one final response, the locally built buffer with status 404, and no request to
any child. -/
theorem process_tsx_request_not_found_sample :
    ∃ s', (initial_state pjsip_method_e.INVITE false).process_tsx_request
        sample_is_home_domain sample_is_uri_local (fun _ => Alloc.created PJ_SUCCESS)
        (fun _ => PJ_SUCCESS) = Except.ok s' ∧
      uas_finals s'.out = [{ template_408 with code := 404 }] ∧
      s'._uac_tsx = [] ∧ s'.heap = [] ∧ s'._pending_targets = 0 :=
  ⟨_, rfl, by decide, by decide, by decide, by decide⟩

/-! ## Cancellation -/

theorem set_same {α : Type} (l : List α) (p : Nat) (u : α) (h : l[p]? = some u) :
    l.set p u = l := by
  apply List.ext_getElem?
  intro j
  rw [List.getElem?_set]
  by_cases hj : p = j
  · subst hj
    have hlt : p < l.length := by
      rcases List.getElem?_eq_some.1 h with ⟨hlt, _⟩
      exact hlt
    simp [hlt, h]
  · simp [hj]

theorem cancel_pending_tsx_eq (status_text : Int → String) (s : UASTsx) (p : Nat)
    (u : UACTsx) (st_code : Int) (hu : s.heap[p]? = some u)
    (hnd : u._pending_destroy = false) :
    UACTsx.cancel_pending_tsx status_text s p st_code =
      Except.ok { s with out := s.out ++ cancel_effects status_text st_code u p } := by
  have hlt : p < s.heap.length := by
    rcases List.getElem?_eq_some.1 hu with ⟨hlt, _⟩
    exact hlt
  obtain ⟨f1, f2, f3, f4, f5, f6, f7, f8, f9⟩ := u
  simp only at hnd
  subst hnd
  have hsame := set_same s.heap p _ hu
  unfold UACTsx.cancel_pending_tsx cancel_effects
  rw [hu]
  cases f3
  · simp
  · by_cases hs : f9 < 200
    · simp [hs, UACTsx.enter_context, hu, Except.bind, UASTsx.store, UACTsx.exit_context,
        hlt, List.set_set, hsame]
    · simp [hs, UACTsx.enter_context, hu, Except.bind, UASTsx.store, UACTsx.exit_context,
        hlt, List.set_set, hsame]

theorem slot_ok_cases (s : UASTsx) (ii : Nat) (h : s.slot_ok ii = true) :
    (s._uac_tsx[ii]? = none) ∨ (s._uac_tsx[ii]? = some none) ∨
    (∃ p u, s._uac_tsx[ii]? = some (some p) ∧ s.heap[p]? = some u ∧ u._index = ii ∧
      u._pending_destroy = false) := by
  unfold UASTsx.slot_ok at h
  cases hs : s._uac_tsx[ii]? with
  | none => left; rfl
  | some o =>
    cases o with
    | none => right; left; rfl
    | some p =>
      right; right
      rw [hs] at h
      simp only at h
      cases hh : s.heap[p]? with
      | none => rw [hh] at h; simp at h
      | some u =>
        rw [hh] at h
        simp only [Bool.and_eq_true, beq_iff_eq, Bool.not_eq_true'] at h
        exact ⟨p, u, rfl, hh, h.1, h.2⟩

theorem cancel_loop_keep (status_text : Int → String) (st_code : Int) :
    ∀ (idx : List Nat) (s : UASTsx), (∀ ii ∈ idx, s.slot_ok ii = true) →
      UASTsx.cancel_loop status_text st_code false idx s =
        Except.ok
          { s with out := (s.out ++ cancel_list status_text st_code s.heap s._uac_tsx idx) } := by
  intro idx
  induction idx with
  | nil => intro s _; simp [UASTsx.cancel_loop, cancel_list]
  | cons ii rest ih =>
    intro s hok
    have hrest : ∀ jj ∈ rest, s.slot_ok jj = true := fun jj hj =>
      hok jj (List.mem_cons_of_mem ii hj)
    rcases slot_ok_cases s ii (hok ii (List.mem_cons_self ii rest)) with
      h | h | ⟨p, u, h, hu, _, hnd⟩
    · simp only [UASTsx.cancel_loop, cancel_list, h, ih s hrest, List.nil_append]
    · simp only [UASTsx.cancel_loop, cancel_list, h, ih s hrest, List.nil_append]
    · have hstep := cancel_pending_tsx_eq status_text s p u st_code hu hnd
      have hih := ih
        ({ s with out := s.out ++ cancel_effects status_text st_code u p } : UASTsx) hrest
      simp only [UASTsx.cancel_loop, cancel_list, h, hu, hstep, Except.bind, if_false,
        Bool.false_eq_true]
      rw [hih]
      simp only [List.append_assoc]

theorem cancel_list_no_reason (status_text : Int → String) (heap : List UACTsx)
    (slots : List (Option Nat)) :
    ∀ (idx : List Nat), ∀ e ∈ cancel_list status_text 0 heap slots idx,
      ∃ p tp, e = Effect.send_cancel p none tp := by
  intro idx
  induction idx with
  | nil => intro e he; simp [cancel_list] at he
  | cons ii rest ih =>
    intro e he
    simp only [cancel_list, List.mem_append] at he
    rcases he with he | he
    · cases hs : slots[ii]? with
      | none => rw [hs] at he; simp at he
      | some o =>
        cases o with
        | none => rw [hs] at he; simp at he
        | some p =>
          rw [hs] at he
          simp only at he
          cases hh : heap[p]? with
          | none => rw [hh] at he; simp at he
          | some u =>
            rw [hh] at he
            simp only [cancel_effects, ne_eq, not_true_eq_false, if_false] at he
            by_cases hc : u._tsx = true ∧ u.status_code < 200
            · simp only [hc, and_self, if_true, List.mem_singleton] at he
              exact ⟨p, u.tp_sel, he⟩
            · simp [hc] at he
    · exact ih e he

/-- C14: `on_cancel_request`. When no UAS INVITE transaction matches the CANCEL
the only effect is one stateless 481. When one matches and the transaction for
the CANCEL can be created, a 200 is sent statefully on it and
`cancel_pending_uac_tsx(0, false)` runs on the matched `UASTsx`: every slot,
every child object with its parent link, `_pending_targets` and `_best_rsp` are
left as they were, and every CANCEL sent is without a Reason header. -/
theorem on_cancel_request_spec (status_text : Int → String) (s : UASTsx) :
    (∀ create_status, on_cancel_request status_text s false create_status =
      Except.ok { s with out := s.out ++ [Effect.respond_stateless 481] }) ∧
    (∀ tsx, s._tsx = some tsx → (∀ ii < s._uac_tsx.length, s.slot_ok ii = true) →
      ∃ s', on_cancel_request status_text s true PJ_SUCCESS = Except.ok s' ∧
        s'.out = s.out ++ [Effect.respond_stateful 200] ++
          cancel_list status_text 0 s.heap s._uac_tsx (List.range s._uac_tsx.length) ∧
        (∀ e ∈ cancel_list status_text 0 s.heap s._uac_tsx (List.range s._uac_tsx.length),
          ∃ p tp, e = Effect.send_cancel p none tp) ∧
        s'._uac_tsx = s._uac_tsx ∧ s'.heap = s.heap ∧
        s'._pending_targets = s._pending_targets ∧ s'._best_rsp = s._best_rsp ∧
        s'._tsx = s._tsx) := by
  constructor
  · intro create_status
    simp [on_cancel_request]
  · intro tsx htsx hok
    have hloop := cancel_loop_keep status_text 0 (List.range s._uac_tsx.length)
      (UASTsx.enter_context { s with out := s.out ++ [Effect.respond_stateful 200] })
      (by
        intro ii hii
        have := hok ii (List.mem_range.1 hii)
        simpa [UASTsx.slot_ok, UASTsx.enter_context] using this)
    refine ⟨UASTsx.exit_context
      { UASTsx.enter_context { s with out := s.out ++ [Effect.respond_stateful 200] } with
        out := (s.out ++ [Effect.respond_stateful 200] ++
          cancel_list status_text 0 s.heap s._uac_tsx (List.range s._uac_tsx.length)) },
      ?_, ?_, cancel_list_no_reason status_text s.heap s._uac_tsx _, ?_, ?_, ?_, ?_, ?_⟩
    · simp only [UASTsx.enter_context, htsx] at hloop
      simp [on_cancel_request, PJ_SUCCESS, htsx, UASTsx.cancel_pending_uac_tsx,
        UASTsx.enter_context, hloop, Except.bind]
    · simp [UASTsx.enter_context]
    · simp [UASTsx.enter_context]
    · simp [UASTsx.enter_context]
    · simp [UASTsx.enter_context]
    · simp [UASTsx.enter_context]
    · simp [UASTsx.enter_context, htsx]

theorem slot_ok_congr (s s1 : UASTsx) (jj : Nat) (hs : s1._uac_tsx[jj]? = s._uac_tsx[jj]?)
    (hh : ∀ q, s._uac_tsx[jj]? = some (some q) → s1.heap[q]? = s.heap[q]?) :
    s1.slot_ok jj = s.slot_ok jj := by
  unfold UASTsx.slot_ok
  rw [hs]
  cases h : s._uac_tsx[jj]? with
  | none => rfl
  | some o =>
    cases o with
    | none => rfl
    | some q => simp only [hh q h]

theorem cancel_list_congr (status_text : Int → String) (st_code : Int)
    (heap heap1 : List UACTsx) (slots slots1 : List (Option Nat)) :
    ∀ (idx : List Nat),
      (∀ jj ∈ idx, slots1[jj]? = slots[jj]? ∧
        ∀ q, slots[jj]? = some (some q) → heap1[q]? = heap[q]?) →
      cancel_list status_text st_code heap1 slots1 idx =
        cancel_list status_text st_code heap slots idx := by
  intro idx
  induction idx with
  | nil => intro _; rfl
  | cons ii rest ih =>
    intro h
    obtain ⟨hs, hh⟩ := h ii (List.mem_cons_self ii rest)
    have hrest := ih fun jj hj => h jj (List.mem_cons_of_mem ii hj)
    simp only [cancel_list, hs, hrest]
    cases hq : slots[ii]? with
    | none => rfl
    | some o =>
      cases o with
      | none => rfl
      | some q => simp only [hh q hq]

theorem cancel_loop_dissociate (status_text : Int → String) (st_code : Int) :
    ∀ (idx : List Nat) (s : UASTsx), idx.Nodup → (∀ ii ∈ idx, s.slot_ok ii = true) →
      ∃ s', UASTsx.cancel_loop status_text st_code true idx s = Except.ok s' ∧
        (∀ jj ∈ idx, s'._uac_tsx[jj]? = (s._uac_tsx[jj]?).map fun _ => none) ∧
        (∀ jj, jj ∉ idx → s'._uac_tsx[jj]? = s._uac_tsx[jj]?) ∧
        (∀ ii ∈ idx, ∀ q, s._uac_tsx[ii]? = some (some q) →
          ∃ u, s.heap[q]? = some u ∧ s'.heap[q]? = some { u with _uas_tsx := false }) ∧
        (∀ q, (∀ ii ∈ idx, s._uac_tsx[ii]? ≠ some (some q)) → s'.heap[q]? = s.heap[q]?) ∧
        s'.out = s.out ++ cancel_list status_text st_code s.heap s._uac_tsx idx ∧
        s'.core = s.core := by
  intro idx
  induction idx with
  | nil =>
    intro s _ _
    refine ⟨s, rfl, ?_, ?_, ?_, ?_, ?_, rfl⟩
    · intro jj hj; exact absurd hj (List.not_mem_nil jj)
    · intro jj _; rfl
    · intro ii hi; exact absurd hi (List.not_mem_nil ii)
    · intro q _; rfl
    · simp [cancel_list]
  | cons ii rest ih =>
    intro s hnd hok
    have hii : ii ∉ rest := (List.nodup_cons.1 hnd).1
    have hndr : rest.Nodup := (List.nodup_cons.1 hnd).2
    have hrest : ∀ jj ∈ rest, s.slot_ok jj = true := fun jj hj =>
      hok jj (List.mem_cons_of_mem ii hj)
    rcases slot_ok_cases s ii (hok ii (List.mem_cons_self ii rest)) with
      h | h | ⟨p, u, h, hu, hidx, hpd⟩
    · obtain ⟨s', hrun, hA1, hA2, hB1, hB2, hC, hD⟩ := ih s hndr hrest
      refine ⟨s', ?_, ?_, ?_, ?_, ?_, ?_, hD⟩
      · simp only [UASTsx.cancel_loop, h, hrun]
      · intro jj hj
        rcases List.mem_cons.1 hj with hj | hj
        · rw [hj, hA2 ii hii, h]; rfl
        · exact hA1 jj hj
      · intro jj hj
        exact hA2 jj fun hm => hj (List.mem_cons_of_mem ii hm)
      · intro ii' hi q hq
        rcases List.mem_cons.1 hi with hi | hi
        · rw [hi, h] at hq; exact absurd hq (by simp)
        · exact hB1 ii' hi q hq
      · intro q hq
        exact hB2 q fun ii' hi => hq ii' (List.mem_cons_of_mem ii hi)
      · simp only [cancel_list, h, hC, List.nil_append]
    · obtain ⟨s', hrun, hA1, hA2, hB1, hB2, hC, hD⟩ := ih s hndr hrest
      refine ⟨s', ?_, ?_, ?_, ?_, ?_, ?_, hD⟩
      · simp only [UASTsx.cancel_loop, h, hrun]
      · intro jj hj
        rcases List.mem_cons.1 hj with hj | hj
        · rw [hj, hA2 ii hii, h]; rfl
        · exact hA1 jj hj
      · intro jj hj
        exact hA2 jj fun hm => hj (List.mem_cons_of_mem ii hm)
      · intro ii' hi q hq
        rcases List.mem_cons.1 hi with hi | hi
        · rw [hi, h] at hq; exact absurd hq (by simp)
        · exact hB1 ii' hi q hq
      · intro q hq
        exact hB2 q fun ii' hi => hq ii' (List.mem_cons_of_mem ii hi)
      · simp only [cancel_list, h, hC, List.nil_append]
    · have hlt : ii < s._uac_tsx.length := by
        rcases List.getElem?_eq_some.1 h with ⟨hlt, _⟩
        exact hlt
      have hplt : p < s.heap.length := by
        rcases List.getElem?_eq_some.1 hu with ⟨hplt, _⟩
        exact hplt
      let s1 : UASTsx :=
        { s with out := s.out ++ cancel_effects status_text st_code u p,
                 heap := s.heap.set p { u with _uas_tsx := false },
                 _uac_tsx := s._uac_tsx.set ii none }
      have hstep : UASTsx.cancel_loop status_text st_code true (ii :: rest) s =
          UASTsx.cancel_loop status_text st_code true rest s1 := by
        have hc := cancel_pending_tsx_eq status_text s p u st_code hu hpd
        have hd := dissociate_ok
          ({ s with out := s.out ++ cancel_effects status_text st_code u p } : UASTsx) p u
          hu (by rw [hidx]; exact hlt)
        simp only [UASTsx.cancel_loop, h, hc, Except.bind, if_true, hd, hidx, s1]
      -- slots and heap of `s1` away from `ii` and `p`
      have hslots : ∀ jj, jj ≠ ii → s1._uac_tsx[jj]? = s._uac_tsx[jj]? := by
        intro jj hj
        exact List.getElem?_set_ne (fun e => hj e.symm)
      have hheap : ∀ q, q ≠ p → s1.heap[q]? = s.heap[q]? := by
        intro q hq
        exact List.getElem?_set_ne (fun e => hq e.symm)
      have hother : ∀ jj ∈ rest, ∀ q, s._uac_tsx[jj]? = some (some q) → q ≠ p := by
        intro jj hj q hq hqp
        rcases slot_ok_cases s jj (hrest jj hj) with h' | h' | ⟨q', v, h', hv, hvi, _⟩
        · rw [h'] at hq; exact absurd hq (by simp)
        · rw [h'] at hq; exact absurd hq (by simp)
        · rw [h'] at hq
          have hq' : q' = q := by simpa using hq
          rw [hq', hqp, hu] at hv
          have huv : u = v := by simpa using hv
          rw [← huv, hidx] at hvi
          exact hii (hvi ▸ hj)
      have hne : ∀ jj ∈ rest, jj ≠ ii := fun jj hj e => hii (e ▸ hj)
      have hok1 : ∀ jj ∈ rest, s1.slot_ok jj = true := by
        intro jj hj
        rw [slot_ok_congr s s1 jj (hslots jj (hne jj hj))
          (fun q hq => hheap q (hother jj hj q hq))]
        exact hrest jj hj
      obtain ⟨s', hrun, hA1, hA2, hB1, hB2, hC, hD⟩ := ih s1 hndr hok1
      refine ⟨s', hstep.trans hrun, ?_, ?_, ?_, ?_, ?_, hD.trans rfl⟩
      · intro jj hj
        rcases List.mem_cons.1 hj with hj | hj
        · rw [hj, hA2 ii hii, h]
          show (s._uac_tsx.set ii none)[ii]? = _
          rw [List.getElem?_set_self hlt]; rfl
        · rw [hA1 jj hj, hslots jj (hne jj hj)]
      · intro jj hj
        have hj1 : jj ∉ rest := fun hm => hj (List.mem_cons_of_mem ii hm)
        have hj2 : jj ≠ ii := fun e => hj (e ▸ List.mem_cons_self ii rest)
        rw [hA2 jj hj1, hslots jj hj2]
      · intro ii' hi q hq
        rcases List.mem_cons.1 hi with hi | hi
        · rw [hi, h] at hq
          have hqp : p = q := by simpa using hq
          subst hqp
          refine ⟨u, hu, ?_⟩
          rw [hB2 p (fun jj hj e => by
            rw [hslots jj (hne jj hj)] at e
            exact hother jj hj p e rfl)]
          show (s.heap.set p { u with _uas_tsx := false })[p]? = _
          rw [List.getElem?_set_self hplt]
        · have hqp : q ≠ p := hother ii' hi q hq
          obtain ⟨v, hv, hv'⟩ := hB1 ii' hi q (by rw [hslots ii' (hne ii' hi)]; exact hq)
          rw [hheap q hqp] at hv
          exact ⟨v, hv, hv'⟩
      · intro q hq
        have hqp : q ≠ p := fun e => hq ii (List.mem_cons_self ii rest) (e ▸ h)
        rw [hB2 q (fun jj hj e => by
          rw [hslots jj (hne jj hj)] at e
          exact hq jj (List.mem_cons_of_mem ii hj) e)]
        exact hheap q hqp
      · rw [hC]
        have hcl := cancel_list_congr status_text st_code s.heap s1.heap s._uac_tsx
          s1._uac_tsx rest (fun jj hj =>
            ⟨hslots jj (hne jj hj), fun q hq => hheap q (hother jj hj q hq)⟩)
        rw [hcl]
        simp only [cancel_list, h, hu, s1, List.append_assoc]

/-! ## The DESTROYED event of the UAS transaction -/

theorem children_map_none (slots : List (Option Nat)) :
    (slots.map fun _ => (none : Option Nat)).filterMap id = [] := by
  induction slots with
  | nil => rfl
  | cons a rest ih =>
    rw [List.map_cons, List.filterMap_cons_none rfl]
    exact ih

theorem mem_children_iff (s : UASTsx) (p : Nat) :
    p ∈ s.children ↔ ∃ ii, ii < s._uac_tsx.length ∧ s._uac_tsx[ii]? = some (some p) := by
  unfold UASTsx.children
  constructor
  · intro h
    obtain ⟨a, ha, hap⟩ := List.mem_filterMap.1 h
    simp only [id] at hap
    subst hap
    obtain ⟨ii, hi⟩ := List.getElem?_of_mem ha
    rcases List.getElem?_eq_some.1 hi with ⟨hlt, _⟩
    exact ⟨ii, hlt, hi⟩
  · rintro ⟨ii, _, hi⟩
    exact List.mem_filterMap.2 ⟨some p, List.getElem?_mem hi, rfl⟩

/-- The loop of the destructor changes nothing when no listed slot holds a
child. -/
theorem disconnect_loop_none :
    ∀ (idx : List Nat) (s : UASTsx), (∀ ii ∈ idx, ∀ p, s._uac_tsx[ii]? ≠ some (some p)) →
      UASTsx.disconnect_loop idx s = Except.ok s := by
  intro idx
  induction idx with
  | nil => intro s _; rfl
  | cons ii rest ih =>
    intro s h
    have hrest := ih s fun jj hj => h jj (List.mem_cons_of_mem ii hj)
    have hii := h ii (List.mem_cons_self ii rest)
    cases hs : s._uac_tsx[ii]? with
    | none => simp only [UASTsx.disconnect_loop, hs, hrest]
    | some o =>
      cases o with
      | none => simp only [UASTsx.disconnect_loop, hs, hrest]
      | some p => exact absurd hs (hii p)

/-- The loop of the destructor returns on slots that satisfy the slot invariant,
and leaves the output trace and the fields other than slots and child objects as
they were. -/
theorem disconnect_loop_ok :
    ∀ (idx : List Nat) (s : UASTsx), idx.Nodup → (∀ ii ∈ idx, s.slot_ok ii = true) →
      ∃ s', UASTsx.disconnect_loop idx s = Except.ok s' ∧ s'.out = s.out ∧
        s'.core = s.core := by
  intro idx
  induction idx with
  | nil => intro s _ _; exact ⟨s, rfl, rfl, rfl⟩
  | cons ii rest ih =>
    intro s hnd hok
    have hii : ii ∉ rest := (List.nodup_cons.1 hnd).1
    have hndr : rest.Nodup := (List.nodup_cons.1 hnd).2
    have hrest : ∀ jj ∈ rest, s.slot_ok jj = true := fun jj hj =>
      hok jj (List.mem_cons_of_mem ii hj)
    rcases slot_ok_cases s ii (hok ii (List.mem_cons_self ii rest)) with
      h | h | ⟨p, u, h, hu, hidx, _⟩
    · obtain ⟨s', hrun, h1, h2⟩ := ih s hndr hrest
      exact ⟨s', by simp only [UASTsx.disconnect_loop, h, hrun], h1, h2⟩
    · obtain ⟨s', hrun, h1, h2⟩ := ih s hndr hrest
      exact ⟨s', by simp only [UASTsx.disconnect_loop, h, hrun], h1, h2⟩
    · have hlt : ii < s._uac_tsx.length := by
        rcases List.getElem?_eq_some.1 h with ⟨hlt, _⟩
        exact hlt
      let s1 : UASTsx :=
        { s with heap := s.heap.set p { u with _uas_tsx := false },
                 _uac_tsx := s._uac_tsx.set ii none }
      have hstep : UASTsx.disconnect_loop (ii :: rest) s = UASTsx.disconnect_loop rest s1 := by
        have hd := dissociate_ok s p u hu (by rw [hidx]; exact hlt)
        simp only [UASTsx.disconnect_loop, h, Except.bind, hd, hidx, s1]
      have hslots : ∀ jj, jj ≠ ii → s1._uac_tsx[jj]? = s._uac_tsx[jj]? := by
        intro jj hj
        exact List.getElem?_set_ne (fun e => hj e.symm)
      have hheap : ∀ q, q ≠ p → s1.heap[q]? = s.heap[q]? := by
        intro q hq
        exact List.getElem?_set_ne (fun e => hq e.symm)
      have hother : ∀ jj ∈ rest, ∀ q, s._uac_tsx[jj]? = some (some q) → q ≠ p := by
        intro jj hj q hq hqp
        rcases slot_ok_cases s jj (hrest jj hj) with h' | h' | ⟨q', v, h', hv, hvi, _⟩
        · rw [h'] at hq; exact absurd hq (by simp)
        · rw [h'] at hq; exact absurd hq (by simp)
        · rw [h'] at hq
          have hq' : q' = q := by simpa using hq
          rw [hq', hqp, hu] at hv
          have huv : u = v := by simpa using hv
          rw [← huv, hidx] at hvi
          exact hii (hvi ▸ hj)
      have hne : ∀ jj ∈ rest, jj ≠ ii := fun jj hj e => hii (e ▸ hj)
      have hok1 : ∀ jj ∈ rest, s1.slot_ok jj = true := by
        intro jj hj
        rw [slot_ok_congr s s1 jj (hslots jj (hne jj hj))
          (fun q hq => hheap q (hother jj hj q hq))]
        exact hrest jj hj
      obtain ⟨s', hrun, h1, h2⟩ := ih s1 hndr hok1
      exact ⟨s', hstep.trans hrun, h1, h2⟩

/-- On slots that satisfy the slot invariant, `exit_context` with the destructor
returns: the output trace, `_tsx` and `_pending_destroy` are as they were, the
count is one less, and the object is deleted exactly when it was so before or
the count is zero with a destroy pending. When no slot holds a child, the slots
and the child objects are as they were. -/
theorem exit_context_delete_ok (t : UASTsx)
    (hok : ∀ ii < t._uac_tsx.length, t.slot_ok ii = true) :
    ∃ s', UASTsx.exit_context_delete t = Except.ok s' ∧ s'.out = t.out ∧
      s'._tsx = t._tsx ∧ s'._pending_destroy = t._pending_destroy ∧
      s'._context_count = t._context_count - 1 ∧
      (s'.deleted = true ↔
        t.deleted = true ∨ (t._context_count - 1 = 0 ∧ t._pending_destroy = true)) ∧
      ((∀ (ii p : Nat), t._uac_tsx[ii]? ≠ some (some p)) →
        s'._uac_tsx = t._uac_tsx ∧ s'.heap = t.heap) := by
  have hcount : (UASTsx.exit_context t)._context_count = t._context_count - 1 := by
    unfold UASTsx.exit_context
    simp only
    split_ifs <;> rfl
  have hpd : (UASTsx.exit_context t)._pending_destroy = t._pending_destroy := by
    unfold UASTsx.exit_context
    simp only
    split_ifs <;> rfl
  have hdel : (UASTsx.exit_context t).deleted = true ↔
      t.deleted = true ∨ (t._context_count - 1 = 0 ∧ t._pending_destroy = true) := by
    unfold UASTsx.exit_context
    simp only
    by_cases h : t._context_count - 1 = 0 ∧ t._pending_destroy = true
    · simp [h]
    · simp only [h, if_false, or_false]
  unfold UASTsx.exit_context_delete
  by_cases hc : t._context_count - 1 = 0 ∧ t._pending_destroy = true
  · rw [if_pos hc]
    obtain ⟨sl, hrun, hout, hcore⟩ := disconnect_loop_ok
      (List.range (UASTsx.exit_context t)._uac_tsx.length) (UASTsx.exit_context t)
      (List.nodup_range _)
      (fun ii hii => by
        have h := hok ii (by simpa using List.mem_range.1 hii)
        rw [slot_ok_congr t (UASTsx.exit_context t) ii (by simp) (fun q _ => by simp)]
        exact h)
    simp only [UASTsx.core, Prod.mk.injEq] at hcore
    obtain ⟨_, _, c3, _, _, _, c7, c8, c9⟩ := hcore
    refine ⟨{ sl with _req := none, _best_rsp := none, _targets := [] }, ?_, ?_, ?_, ?_, ?_,
      ?_, ?_⟩
    · simp only [UASTsx.destroy, hrun, Except.bind]
    · simp only [hout, exit_context_out]
    · simp only [c3, exit_context_tsx]
    · simp only [c7, hpd]
    · simp only [c8, hcount]
    · simp only [c9]
      exact hdel
    · intro hnone
      have hl := disconnect_loop_none
        (List.range (UASTsx.exit_context t)._uac_tsx.length) (UASTsx.exit_context t)
        (fun ii _ p => by simpa using hnone ii p)
      rw [hl] at hrun
      cases hrun
      exact ⟨exit_context_slots t, exit_context_heap t⟩
  · rw [if_neg hc]
    exact ⟨UASTsx.exit_context t, rfl, exit_context_out t, exit_context_tsx t, hpd, hcount,
      hdel, fun _ => ⟨exit_context_slots t, exit_context_heap t⟩⟩

/-- While no destroy is pending, `exit_context` with the destructor is
`exit_context`: the destructor is not run. -/
theorem exit_context_delete_live (s : UASTsx) (h : s._pending_destroy = false) :
    UASTsx.exit_context_delete s = Except.ok (UASTsx.exit_context s) := by
  unfold UASTsx.exit_context_delete
  rw [if_neg (by rw [h]; simp)]

/-- C15, counterexample: on the DESTROYED event of an INVITE transaction with
two associated children, `on_tsx_state` cancels them with dissociation: no child
is associated afterwards and both parent links are null. -/
theorem destroyed_invite_dissociates_children :
    (fork_state pjsip_method_e.INVITE false 2).children = [0, 1] ∧
    ∃ s', UASTsx.on_tsx_state sample_status_text (fork_state pjsip_method_e.INVITE false 2)
        pjsip_tsx_state_e.DESTROYED = Except.ok s' ∧
      s'.children = [] ∧ s'.heap.map (fun u => u._uas_tsx) = [false, false] ∧
      ¬ (∀ p ∈ (fork_state pjsip_method_e.INVITE false 2).children, p ∈ s'.children) :=
  ⟨by decide, _, rfl, by decide, by decide, by decide⟩

/-- The state in which `on_tsx_state` reaches its `exit_context` on the DESTROYED
event of an INVITE transaction: the children are cancelled and dissociated,
`_tsx` is nulled and the destroy is pending. -/
theorem on_tsx_state_destroyed_invite (status_text : Int → String) (s : UASTsx)
    (tsx : pjsip_transaction) (htsx : s._tsx = some tsx)
    (hok : ∀ ii < s._uac_tsx.length, s.slot_ok ii = true)
    (hm : tsx.method = pjsip_method_e.INVITE) :
    ∃ t : UASTsx, s.on_tsx_state status_text pjsip_tsx_state_e.DESTROYED =
        UASTsx.exit_context_delete t ∧
      t.out = s.out ++
        cancel_list status_text 0 s.heap s._uac_tsx (List.range s._uac_tsx.length) ∧
      t._uac_tsx = s._uac_tsx.map (fun _ => none) ∧
      (∀ p ∈ s.children, ∃ u, s.heap[p]? = some u ∧
        t.heap[p]? = some { u with _uas_tsx := false }) ∧
      t._tsx = none ∧ t._pending_destroy = true ∧
      (0 ≤ s._context_count →
        t._context_count = s._context_count + 1 ∧ t.deleted = s.deleted) := by
  obtain ⟨sl, hrun, hA1, hA2, hB1, _, hC, hD⟩ :=
    cancel_loop_dissociate status_text 0 (List.range s._uac_tsx.length)
      (UASTsx.enter_context (UASTsx.enter_context s)) (List.nodup_range _)
      (fun ii hii => hok ii (List.mem_range.1 hii))
  have hslots : sl._uac_tsx = s._uac_tsx.map (fun _ => none) := by
    apply List.ext_getElem?
    intro jj
    rw [List.getElem?_map]
    by_cases hj : jj < s._uac_tsx.length
    · exact hA1 jj (List.mem_range.2 hj)
    · rw [hA2 jj (fun hm' => hj (List.mem_range.1 hm'))]
      show s._uac_tsx[jj]? = _
      rw [List.getElem?_eq_none (Nat.le_of_not_lt hj)]
      rfl
  have hrun' : UASTsx.cancel_loop status_text 0 true
      (List.range (UASTsx.enter_context (UASTsx.enter_context s))._uac_tsx.length)
      (UASTsx.enter_context (UASTsx.enter_context s)) = Except.ok sl := hrun
  have htsx' : (UASTsx.enter_context s)._tsx = some tsx := htsx
  simp only [UASTsx.core, UASTsx.enter_context, Prod.mk.injEq] at hD
  obtain ⟨_, _, _, _, _, _, _, hcc, hdel⟩ := hD
  refine ⟨{ UASTsx.exit_context sl with _tsx := none, _pending_destroy := true }, ?_, ?_, ?_,
    ?_, rfl, rfl, ?_⟩
  · simp only [UASTsx.on_tsx_state, htsx', hm, if_true, UASTsx.cancel_pending_uac_tsx,
      hrun', Except.bind]
  · simp only [exit_context_out]
    exact hC
  · simp only [exit_context_slots]
    exact hslots
  · intro p hp
    obtain ⟨ii, hlt, hi⟩ := (mem_children_iff s p).1 hp
    obtain ⟨u, hu, hu'⟩ := hB1 ii (List.mem_range.2 hlt) p hi
    exact ⟨u, hu, by simpa only [exit_context_heap] using hu'⟩
  · intro hc
    have h1 : ¬ (s._context_count + 1 + 1 - 1 = 0 ∧ sl._pending_destroy = true) := by
      omega
    constructor
    · unfold UASTsx.exit_context
      simp only [hcc, h1, if_false]
      omega
    · unfold UASTsx.exit_context
      simp only [hcc, hdel, h1, if_false]

/-- A state whose slots are all null satisfies the slot invariant and has no
child in a slot. -/
theorem slots_none (t : UASTsx) (slots : List (Option Nat))
    (h : t._uac_tsx = slots.map (fun _ => none)) :
    (∀ ii < t._uac_tsx.length, t.slot_ok ii = true) ∧
    (∀ (ii p : Nat), t._uac_tsx[ii]? ≠ some (some p)) := by
  have hn : ∀ (ii p : Nat), t._uac_tsx[ii]? ≠ some (some p) := by
    intro ii p hc
    rw [h, List.getElem?_map] at hc
    cases hs : slots[ii]? with
    | none => rw [hs] at hc; cases hc
    | some o => rw [hs] at hc; cases hc
  refine ⟨fun ii _ => ?_, hn⟩
  unfold UASTsx.slot_ok
  cases hs : t._uac_tsx[ii]? with
  | none => rfl
  | some o =>
    cases o with
    | none => rfl
    | some p => exact absurd hs (hn ii p)

/-- C15, amended: when the UAS stack transaction reaches DESTROYED,
`on_tsx_state`, if the method is INVITE, sends a CANCEL without Reason header to
every associated child whose stack transaction is still pre-final and
dissociates every associated child (every slot nulled, every parent link
nulled); it then sets `_tsx` to null and sets `_pending_destroy`. For another
method no CANCEL is sent. -/
theorem on_tsx_state_destroyed_spec (status_text : Int → String) (s : UASTsx)
    (tsx : pjsip_transaction) (htsx : s._tsx = some tsx)
    (hok : ∀ ii < s._uac_tsx.length, s.slot_ok ii = true) :
    (tsx.method = pjsip_method_e.INVITE →
      ∃ s', s.on_tsx_state status_text pjsip_tsx_state_e.DESTROYED = Except.ok s' ∧
        s'.out = s.out ++
          cancel_list status_text 0 s.heap s._uac_tsx (List.range s._uac_tsx.length) ∧
        (∀ e ∈ cancel_list status_text 0 s.heap s._uac_tsx (List.range s._uac_tsx.length),
          ∃ p tp, e = Effect.send_cancel p none tp) ∧
        s'._uac_tsx = s._uac_tsx.map (fun _ => none) ∧ s'.children = [] ∧
        (∀ p ∈ s.children, ∃ u, s.heap[p]? = some u ∧
          s'.heap[p]? = some { u with _uas_tsx := false }) ∧
        s'._tsx = none ∧ s'._pending_destroy = true) ∧
    (tsx.method ≠ pjsip_method_e.INVITE →
      ∃ s', s.on_tsx_state status_text pjsip_tsx_state_e.DESTROYED = Except.ok s' ∧
        s'.out = s.out ∧ s'._tsx = none ∧ s'._pending_destroy = true) := by
  constructor
  · intro hm
    obtain ⟨t, hon, hout, hslots, hheap, ht, hpd, _⟩ :=
      on_tsx_state_destroyed_invite status_text s tsx htsx hok hm
    obtain ⟨hokt, hnone⟩ := slots_none t s._uac_tsx hslots
    obtain ⟨s', hrun, g1, g2, g3, _, _, g6⟩ := exit_context_delete_ok t hokt
    obtain ⟨g7, g8⟩ := g6 hnone
    refine ⟨s', hon.trans hrun, g1.trans hout,
      cancel_list_no_reason status_text s.heap s._uac_tsx _, g7.trans hslots, ?_, ?_,
      g2.trans ht, g3.trans hpd⟩
    · unfold UASTsx.children
      rw [g7, hslots]
      exact children_map_none s._uac_tsx
    · intro p hp
      obtain ⟨u, hu, hu'⟩ := hheap p hp
      exact ⟨u, hu, by rw [g8]; exact hu'⟩
  · intro hm
    have htsx' : (UASTsx.enter_context s)._tsx = some tsx := htsx
    have hon : s.on_tsx_state status_text pjsip_tsx_state_e.DESTROYED =
        UASTsx.exit_context_delete
          { UASTsx.enter_context s with _tsx := none, _pending_destroy := true } := by
      simp only [UASTsx.on_tsx_state, htsx', hm, if_true, if_false, Except.bind]
    obtain ⟨s', hrun, g1, g2, g3, _, _, _⟩ := exit_context_delete_ok
      { UASTsx.enter_context s with _tsx := none, _pending_destroy := true }
      (fun ii hii => (slot_ok_congr s _ ii rfl (fun q _ => rfl)).trans (hok ii hii))
    exact ⟨s', hon.trans hrun, g1, g2, g3⟩

/-- The DESTROYED event on an INVITE forked to two children, and on a request of
another method forked to two children: the children of the INVITE are cancelled,
those of the other request are sent nothing. -/
theorem on_tsx_state_destroyed_spec_witness :
    (∃ s', UASTsx.on_tsx_state sample_status_text (fork_state pjsip_method_e.INVITE false 2)
        pjsip_tsx_state_e.DESTROYED = Except.ok s' ∧
      s'.out = (fork_state pjsip_method_e.INVITE false 2).out ++
        cancel_list sample_status_text 0 (fork_state pjsip_method_e.INVITE false 2).heap
          (fork_state pjsip_method_e.INVITE false 2)._uac_tsx
          (List.range (fork_state pjsip_method_e.INVITE false 2)._uac_tsx.length) ∧
      (∀ e ∈ cancel_list sample_status_text 0 (fork_state pjsip_method_e.INVITE false 2).heap
          (fork_state pjsip_method_e.INVITE false 2)._uac_tsx
          (List.range (fork_state pjsip_method_e.INVITE false 2)._uac_tsx.length),
        ∃ p tp, e = Effect.send_cancel p none tp) ∧
      s'._uac_tsx = (fork_state pjsip_method_e.INVITE false 2)._uac_tsx.map (fun _ => none) ∧
      s'.children = [] ∧
      (∀ p ∈ (fork_state pjsip_method_e.INVITE false 2).children,
        ∃ u, (fork_state pjsip_method_e.INVITE false 2).heap[p]? = some u ∧
          s'.heap[p]? = some { u with _uas_tsx := false }) ∧
      s'._tsx = none ∧ s'._pending_destroy = true) ∧
    (∃ s', UASTsx.on_tsx_state sample_status_text (fork_state pjsip_method_e.OTHER false 2)
        pjsip_tsx_state_e.DESTROYED = Except.ok s' ∧
      s'.out = (fork_state pjsip_method_e.OTHER false 2).out ∧ s'._tsx = none ∧
      s'._pending_destroy = true) :=
  ⟨(on_tsx_state_destroyed_spec sample_status_text (fork_state pjsip_method_e.INVITE false 2)
      { method := pjsip_method_e.INVITE } (by decide) (by decide)).1 (by decide),
   (on_tsx_state_destroyed_spec sample_status_text (fork_state pjsip_method_e.OTHER false 2)
      { method := pjsip_method_e.OTHER } (by decide) (by decide)).2 (by decide)⟩

/-- A CANCEL for an INVITE forked to two children: a 200 on the transaction of
the CANCEL, one CANCEL without Reason header to each child, and both children
still associated. -/
theorem on_cancel_request_sample :
    ∃ s', on_cancel_request sample_status_text (fork_state pjsip_method_e.INVITE false 2)
        true PJ_SUCCESS = Except.ok s' ∧
      s'.out = (fork_state pjsip_method_e.INVITE false 2).out ++
        [Effect.respond_stateful 200, Effect.send_cancel 0 none none,
          Effect.send_cancel 1 none none] ∧
      s'.children = [0, 1] ∧ s'.heap.map (fun u => u._uas_tsx) = [true, true] :=
  ⟨_, rfl, by decide, by decide, by decide⟩

/-! ## `compare_sip_sc` as an order -/

/-- C27: `compare_sip_sc` is a strict total order on status codes. For all
integers `a`, `b`, `c`: swapping the arguments negates the result; the result is
0 exactly when the codes are equal; and +1 for `a`, `b` together with +1 for
`b`, `c` gives +1 for `a`, `c`. -/
theorem compare_sip_sc_strict_total_order (a b c : Int) :
    compare_sip_sc a b = - compare_sip_sc b a ∧
    (compare_sip_sc a b = 0 ↔ a = b) ∧
    (compare_sip_sc a b = 1 → compare_sip_sc b c = 1 → compare_sip_sc a c = 1) := by
  refine ⟨?_, compare_sip_sc_eq_zero_iff a b, ?_⟩
  · rcases compare_sip_sc_cases a b with g | g | g | g | g | g | g <;>
      rcases compare_sip_sc_cases b a with g' | g' | g' | g' | g' | g' | g' <;> omega
  · intro h1 h2
    exact (compare_sip_sc_eq_one_iff a c).2
      (better46_trans ((compare_sip_sc_eq_one_iff a b).1 h1)
        ((compare_sip_sc_eq_one_iff b c).1 h2))

/-! ## Context counts -/

/-- The child destructor on a child without parent link: the child is marked
deleted and nothing else changes but its request buffer and transaction. -/
theorem destroy_unlinked (s : UASTsx) (p : Nat) (u : UACTsx) (hu : s.heap[p]? = some u)
    (hl : u._uas_tsx = false) :
    UACTsx.destroy s p =
      Except.ok (s.store p { u with _tdata := none, _tsx := false, deleted := true }) := by
  unfold UACTsx.destroy
  rw [hu]
  simp only [hl, Bool.false_eq_true, if_false, Except.bind, hu]

/-- The child destructor on a child with parent link and an index within the
slots: the child is dissociated and marked deleted. -/
theorem destroy_linked (s : UASTsx) (p : Nat) (u : UACTsx) (hu : s.heap[p]? = some u)
    (hl : u._uas_tsx = true) (hidx : u._index < s._uac_tsx.length) :
    UACTsx.destroy s p =
      Except.ok
        { s with
          heap := s.heap.set p
            { u with _uas_tsx := false, _tdata := none, _tsx := false, deleted := true },
          _uac_tsx := s._uac_tsx.set u._index none } := by
  have hlt : p < s.heap.length := by
    rcases List.getElem?_eq_some.1 hu with ⟨hlt, _⟩
    exact hlt
  unfold UACTsx.destroy
  rw [hu]
  simp only [hl, if_true, dissociate_ok s p u hu hidx, Except.bind,
    List.getElem?_set_self hlt, UASTsx.store, List.set_set]

/-- The state `UASTsx::on_tsx_state` leaves on the DESTROYED event is marked
deleted exactly when it was so before or no other context is open. -/
theorem on_tsx_state_destroyed_deleted (status_text : Int → String) (s : UASTsx)
    (tsx : pjsip_transaction) (htsx : s._tsx = some tsx)
    (hok : ∀ ii < s._uac_tsx.length, s.slot_ok ii = true) (hc : 0 ≤ s._context_count) :
    ∃ s', s.on_tsx_state status_text pjsip_tsx_state_e.DESTROYED = Except.ok s' ∧
      s'._pending_destroy = true ∧ s'._context_count = s._context_count ∧
      (s'.deleted = true ↔ s.deleted = true ∨ s._context_count = 0) := by
  have htsx' : (UASTsx.enter_context s)._tsx = some tsx := htsx
  by_cases hm : tsx.method = pjsip_method_e.INVITE
  · obtain ⟨t, hon, _, hslots, _, _, hpd, hcd⟩ :=
      on_tsx_state_destroyed_invite status_text s tsx htsx hok hm
    obtain ⟨hcount, hdel⟩ := hcd hc
    obtain ⟨hokt, _⟩ := slots_none t s._uac_tsx hslots
    obtain ⟨s', hrun, _, _, g3, g4, g5, _⟩ := exit_context_delete_ok t hokt
    refine ⟨s', hon.trans hrun, g3.trans hpd, by rw [g4, hcount]; omega, ?_⟩
    rw [g5, hdel, hcount, hpd]
    constructor
    · rintro (h | ⟨h, _⟩)
      · exact Or.inl h
      · exact Or.inr (by omega)
    · rintro (h | h)
      · exact Or.inl h
      · exact Or.inr ⟨by omega, rfl⟩
  · have hon : s.on_tsx_state status_text pjsip_tsx_state_e.DESTROYED =
        UASTsx.exit_context_delete
          { UASTsx.enter_context s with _tsx := none, _pending_destroy := true } := by
      simp only [UASTsx.on_tsx_state, htsx', hm, if_true, if_false, Except.bind]
    obtain ⟨s', hrun, _, _, g3, g4, g5, _⟩ := exit_context_delete_ok
      { UASTsx.enter_context s with _tsx := none, _pending_destroy := true }
      (fun ii hii => (slot_ok_congr s _ ii rfl (fun q _ => rfl)).trans (hok ii hii))
    refine ⟨s', hon.trans hrun, g3, ?_, ?_⟩
    · rw [g4]
      show s._context_count + 1 - 1 = s._context_count
      omega
    · rw [g5]
      simp only [UASTsx.enter_context, and_true]
      constructor
      · rintro (h | h)
        · exact Or.inl h
        · exact Or.inr (by omega)
      · rintro (h | h)
        · exact Or.inl h
        · exact Or.inr (by omega)

/-- C25: the context-count discipline of `UASTsx` and `UACTsx`. `enter_context`
adds one to `_context_count`; `exit_context` takes one off and destroys the
object exactly when the new count is zero and `_pending_destroy` is set, else
the object stays as it is. So an object with another context open survives
`exit_context` even when a destroy is pending, and a `UASTsx` whose stack
transaction reports DESTROYED is deleted by that event only when no other
context is open. -/
theorem context_count_discipline (status_text : Int → String) (s : UASTsx) (p : Nat)
    (u : UACTsx) (hu : s.heap[p]? = some u) :
    ((UASTsx.enter_context s)._context_count = s._context_count + 1 ∧
      (UASTsx.enter_context s).deleted = s.deleted) ∧
    ((UASTsx.exit_context s)._context_count = s._context_count - 1 ∧
      ((UASTsx.exit_context s).deleted = true ↔
        s.deleted = true ∨ (s._context_count - 1 = 0 ∧ s._pending_destroy = true))) ∧
    (∀ tsx, s._tsx = some tsx → (∀ ii < s._uac_tsx.length, s.slot_ok ii = true) →
      0 ≤ s._context_count →
      ∃ s', s.on_tsx_state status_text pjsip_tsx_state_e.DESTROYED = Except.ok s' ∧
        s'._pending_destroy = true ∧
        (s'.deleted = true ↔ s.deleted = true ∨ s._context_count = 0)) ∧
    UACTsx.enter_context s p =
      Except.ok (s.store p { u with _context_count := u._context_count + 1 }) ∧
    (¬ (u._context_count - 1 = 0 ∧ u._pending_destroy = true) →
      UACTsx.exit_context s p =
        Except.ok (s.store p { u with _context_count := u._context_count - 1 })) ∧
    (u._context_count - 1 = 0 → u._pending_destroy = true →
      (u._uas_tsx = false ∨ u._index < s._uac_tsx.length) →
      ∃ s' u', UACTsx.exit_context s p = Except.ok s' ∧ s'.heap[p]? = some u' ∧
        u'.deleted = true ∧ u'._context_count = 0) := by
  have hlt : p < s.heap.length := by
    rcases List.getElem?_eq_some.1 hu with ⟨hlt, _⟩
    exact hlt
  refine ⟨⟨rfl, rfl⟩, ⟨?_, ?_⟩, ?_, ?_, ?_, ?_⟩
  · unfold UASTsx.exit_context
    simp only
    split_ifs <;> rfl
  · unfold UASTsx.exit_context
    simp only
    by_cases h : s._context_count - 1 = 0 ∧ s._pending_destroy = true
    · simp [h]
    · simp only [h, if_false, or_false]
  · intro tsx htsx hok hc
    obtain ⟨s', h1, h2, _, h4⟩ := on_tsx_state_destroyed_deleted status_text s tsx htsx hok hc
    exact ⟨s', h1, h2, h4⟩
  · simp only [UACTsx.enter_context, hu]
  · intro h
    simp only [UACTsx.exit_context, hu, h, if_false]
  · intro hz hpd hl
    have hcond : (u._context_count - 1 = 0 ∧ u._pending_destroy = true) := ⟨hz, hpd⟩
    have hget : (s.store p { u with _context_count := u._context_count - 1 }).heap[p]? =
        some { u with _context_count := u._context_count - 1 } := by
      simp only [UASTsx.store]
      exact List.getElem?_set_self hlt
    have hex : UACTsx.exit_context s p =
        UACTsx.destroy (s.store p { u with _context_count := u._context_count - 1 }) p := by
      simp only [UACTsx.exit_context, hu, hcond, and_self, if_true]
    by_cases hlink : u._uas_tsx = true
    · have hidx : u._index < s._uac_tsx.length := by
        rcases hl with hl | hl
        · rw [hl] at hlink; cases hlink
        · exact hl
      have hd := destroy_linked _ p _ hget hlink hidx
      refine ⟨_, { u with _uas_tsx := false, _tdata := none, _tsx := false, deleted := true,
                          _context_count := u._context_count - 1 }, hex.trans hd, ?_, rfl, hz⟩
      simp only [UASTsx.store, List.set_set]
      exact List.getElem?_set_self hlt
    · have hlink' : u._uas_tsx = false := by simpa using hlink
      have hd := destroy_unlinked _ p _ hget hlink'
      refine ⟨_, { u with _tdata := none, _tsx := false, deleted := true,
                          _context_count := u._context_count - 1 }, hex.trans hd, ?_, rfl, hz⟩
      simp only [UASTsx.store, List.set_set]
      exact List.getElem?_set_self hlt

theorem context_count_discipline_witness :
    UACTsx.enter_context (fork_state pjsip_method_e.INVITE false 2) 0 =
      Except.ok ((fork_state pjsip_method_e.INVITE false 2).store 0
        { _uas_tsx := true, _index := 0, _tsx := true, _tdata := none, tp_sel := none,
          _pending_destroy := false, _context_count := 0 + 1, deleted := false }) ∧
    ∃ s', (fork_state pjsip_method_e.INVITE false 2).on_tsx_state sample_status_text
        pjsip_tsx_state_e.DESTROYED = Except.ok s' ∧
      s'._pending_destroy = true ∧
      (s'.deleted = true ↔ (fork_state pjsip_method_e.INVITE false 2).deleted = true ∨
        (fork_state pjsip_method_e.INVITE false 2)._context_count = 0) :=
  ⟨(context_count_discipline sample_status_text (fork_state pjsip_method_e.INVITE false 2) 0
      { _uas_tsx := true, _index := 0, _tsx := true, _tdata := none, tp_sel := none,
        _pending_destroy := false, _context_count := 0, deleted := false }
      (by decide)).2.2.2.1,
   (context_count_discipline sample_status_text (fork_state pjsip_method_e.INVITE false 2) 0
      { _uas_tsx := true, _index := 0, _tsx := true, _tdata := none, tp_sel := none,
        _pending_destroy := false, _context_count := 0, deleted := false }
      (by decide)).2.2.1 { method := pjsip_method_e.INVITE } (by decide) (by decide)
      (by decide)⟩

/-! ## Targets -/

theorem foldl_routes (paths : List Uri) :
    ∀ (req : TxRequest),
      paths.foldl (fun r pit => ({ r with routes := r.routes ++ [pit] } : TxRequest)) req =
        { req with routes := req.routes ++ paths } := by
  induction paths with
  | nil => intro req; simp
  | cons a rest ih =>
    intro req
    rw [List.foldl_cons, ih]
    simp

theorem apply_target_eq (req : TxRequest) (target : Target) :
    apply_target req target = targeted req target := by
  unfold apply_target targeted
  rw [foldl_routes]
  cases target.uri <;> rfl

/-- C23, counterexample: `set_target` on a child whose request has the Route
header of `loose_hop_uri`, with a target of two paths: the two new Route headers
come after the one the request had, not ahead of it. -/
theorem set_target_appends_routes :
    (∃ u, child_ready.heap[0]? = some u ∧ u._tdata = some routed_request) ∧
    routed_request.routes = [loose_hop_uri] ∧
    path_target.paths = [proxy_uri, strict_hop_uri] ∧
    ∃ s' u', UACTsx.set_target child_ready 0 path_target = Except.ok s' ∧
      s'.heap[0]? = some u' ∧
      u'._tdata = some { method := pjsip_method_e.INVITE, uri := strict_hop_uri,
                         routes := [loose_hop_uri, proxy_uri, strict_hop_uri] } ∧
      u'._tdata ≠ some { method := pjsip_method_e.INVITE, uri := strict_hop_uri,
                         routes := [proxy_uri, strict_hop_uri, loose_hop_uri] } :=
  ⟨⟨_, rfl, rfl⟩, rfl, rfl, _, _, rfl, rfl, rfl, by decide⟩

/-- What `set_target` leaves on a child that holds a request and does not await
destruction. -/
theorem set_target_ok (s : UASTsx) (p : Nat) (u : UACTsx) (req : TxRequest)
    (target : Target) (hu : s.heap[p]? = some u) (hreq : u._tdata = some req)
    (hnd : u._pending_destroy = false) :
    UACTsx.set_target s p target =
      Except.ok (s.store p
        { u with
          _tdata := some { req with uri := target.uri.getD req.uri,
                                    routes := req.routes ++ target.paths },
          tp_sel := match target.transport with
            | some tp => some tp
            | none => u.tp_sel }) := by
  have hlt : p < s.heap.length := by
    rcases List.getElem?_eq_some.1 hu with ⟨hlt, _⟩
    exact hlt
  obtain ⟨f1, f2, f3, f4, f5, f6, f7, f8, f9⟩ := u
  simp only at hnd hreq
  subst hnd hreq
  unfold UACTsx.set_target
  simp only [UACTsx.enter_context, hu, Except.bind, UASTsx.store,
    List.getElem?_set_self hlt, apply_target_eq, targeted]
  cases target.transport <;>
    simp [UACTsx.exit_context, UASTsx.store, List.getElem?_set_self hlt, List.set_set]

/-- C23, amended: `set_target` on a child that holds a request and does not await
destruction. The Request-URI becomes the URI of the target when it has one and
is unchanged otherwise; the paths of the target become Route headers in their
order, placed after the Route headers the request already has; the transport of
the target, when it has one, is pinned on the child; nothing else changes, and
an empty target leaves the state as it is. -/
theorem set_target_spec (s : UASTsx) (p : Nat) (u : UACTsx) (req : TxRequest)
    (target : Target) (hu : s.heap[p]? = some u) (hreq : u._tdata = some req)
    (hnd : u._pending_destroy = false) :
    UACTsx.set_target s p target =
      Except.ok (s.store p
        { u with
          _tdata := some { req with uri := target.uri.getD req.uri,
                                    routes := req.routes ++ target.paths },
          tp_sel := match target.transport with
            | some tp => some tp
            | none => u.tp_sel }) ∧
    (target = Target.new → UACTsx.set_target s p target = Except.ok s) := by
  have hmain := set_target_ok s p u req target hu hreq hnd
  refine ⟨hmain, ?_⟩
  intro ht
  rw [hmain, ht]
  obtain ⟨f1, f2, f3, f4, f5, f6, f7, f8, f9⟩ := u
  simp only at hreq
  subst hreq
  simp only [Target.new, Option.getD_none, List.append_nil, UASTsx.store]
  rw [set_same s.heap p _ hu]

theorem set_target_spec_witness :
    UACTsx.set_target child_ready 0 path_target =
      Except.ok (child_ready.store 0
        { _uas_tsx := true, _index := 0, _tsx := true,
          _tdata := some { method := pjsip_method_e.INVITE, uri := strict_hop_uri,
                           routes := [loose_hop_uri, proxy_uri, strict_hop_uri] },
          tp_sel := some 3, _pending_destroy := false, _context_count := 0,
          deleted := false }) :=
  (set_target_spec child_ready 0
    { _uas_tsx := true, _index := 0, _tsx := true, _tdata := some routed_request,
      tp_sel := none, _pending_destroy := false, _context_count := 0, deleted := false }
    routed_request path_target (by decide) rfl rfl).1

/-! ## The Reason header of a CANCEL -/

/-- C26, counterexample: `cancel_pending_tsx` with code 486 on a pre-final child.
The value of the Reason header has a space between the cause and `;text`; it is
not the value without that space. -/
theorem reason_value_has_space_before_text :
    (∃ s', UACTsx.cancel_pending_tsx sample_status_text
        (fork_state pjsip_method_e.INVITE false 1) 0 486 = Except.ok s' ∧
      s'.out = (fork_state pjsip_method_e.INVITE false 1).out ++
        [Effect.send_cancel 0 (some "SIP ;cause=486 ;text=\"Busy Here\"") none]) ∧
    "SIP ;cause=486 ;text=\"Busy Here\"" ≠ "SIP ;cause=486;text=\"Busy Here\"" :=
  ⟨⟨_, rfl, by decide⟩, by decide⟩

/-- C26, amended: `cancel_pending_tsx` on a child with a stack transaction whose
status code is below 200 sends one CANCEL. With a code other than 0 it carries a
Reason header whose value is `SIP ;cause=`, the code in decimal, ` ;text="`, the
reason phrase of the code, and `"`; with the code 0 it carries no Reason
header. -/
theorem cancel_pending_tsx_reason (status_text : Int → String) (s : UASTsx) (p : Nat)
    (u : UACTsx) (st_code : Int) (hu : s.heap[p]? = some u)
    (hnd : u._pending_destroy = false) (htsx : u._tsx = true)
    (hpre : u.status_code < 200) :
    (st_code ≠ 0 →
      UACTsx.cancel_pending_tsx status_text s p st_code =
        Except.ok { s with out := s.out ++
          [Effect.send_cancel p
            (some ("SIP ;cause=" ++ toString st_code ++ " ;text=\"" ++ status_text st_code ++
              "\"")) u.tp_sel] }) ∧
    (st_code = 0 →
      UACTsx.cancel_pending_tsx status_text s p st_code =
        Except.ok { s with out := s.out ++ [Effect.send_cancel p none u.tp_sel] }) := by
  have h := cancel_pending_tsx_eq status_text s p u st_code hu hnd
  constructor
  · intro hc
    rw [h]
    simp [cancel_effects, htsx, hpre, hc, reason_val]
  · intro hc
    rw [h]
    simp [cancel_effects, htsx, hpre, hc]

theorem cancel_pending_tsx_reason_witness :
    UACTsx.cancel_pending_tsx sample_status_text (fork_state pjsip_method_e.INVITE false 1)
        0 200 =
      Except.ok { fork_state pjsip_method_e.INVITE false 1 with
        out := (fork_state pjsip_method_e.INVITE false 1).out ++
          [Effect.send_cancel 0
            (some ("SIP ;cause=" ++ toString (200 : Int) ++ " ;text=\"" ++
              sample_status_text 200 ++ "\"")) none] } :=
  (cancel_pending_tsx_reason sample_status_text (fork_state pjsip_method_e.INVITE false 1) 0
    { _uas_tsx := true, _index := 0, _tsx := true, _tdata := none, tp_sel := none,
      _pending_destroy := false, _context_count := 0, deleted := false }
    200 (by decide) rfl rfl (by decide)).1 (by decide)

/-! ## Fork dispatch -/

theorem set_concat {α : Type} (H : List α) (a b : α) (t : List α) :
    (H ++ a :: t).set H.length b = H ++ b :: t := by
  simp [List.set_append]

theorem getElem?_concat {α : Type} (H : List α) (a : α) (t : List α) :
    (H ++ a :: t)[H.length]? = some a := by
  rw [List.getElem?_append_right (Nat.le_refl _)]
  simp

theorem send_request_ok (s : UASTsx) (p : Nat) (u : UACTsx) (req : TxRequest)
    (hu : s.heap[p]? = some u) (hreq : u._tdata = some req)
    (hnd : u._pending_destroy = false) :
    UACTsx.send_request s p PJ_SUCCESS =
      Except.ok { s with out := s.out ++ [Effect.uac_send_msg p req],
                         heap := s.heap.set p (sent_child u) } := by
  have hlt : p < s.heap.length := by
    rcases List.getElem?_eq_some.1 hu with ⟨hlt, _⟩
    exact hlt
  obtain ⟨f1, f2, f3, f4, f5, f6, f7, f8, f9⟩ := u
  simp only at hnd hreq
  subst hnd hreq
  unfold UACTsx.send_request
  simp [UACTsx.enter_context, hu, Except.bind, UASTsx.store, List.getElem?_set_self hlt,
    UACTsx.exit_context, List.set_set, sent_child]

/-- A failed `send_request` on a child with a stack transaction and a parent link,
in no other context, whose index is within the slots: nothing is sent, the child
is destroyed and its slot is nulled. -/
theorem send_request_failed (s : UASTsx) (p : Nat) (u : UACTsx) (req : TxRequest)
    (status : Int) (hst : status ≠ PJ_SUCCESS)
    (hu : s.heap[p]? = some u) (hreq : u._tdata = some req) (htsx : u._tsx = true)
    (hlink : u._uas_tsx = true) (hcount : u._context_count = 0)
    (hidx : u._index < s._uac_tsx.length) :
    UACTsx.send_request s p status =
      Except.ok { s with heap := s.heap.set p (unsent_child u),
                         _uac_tsx := s._uac_tsx.set u._index none } := by
  have hlt : p < s.heap.length := by
    rcases List.getElem?_eq_some.1 hu with ⟨hlt, _⟩
    exact hlt
  obtain ⟨f1, f2, f3, f4, f5, f6, f7, f8, f9⟩ := u
  simp only at hreq htsx hlink hcount hidx
  subst hreq htsx hlink hcount
  unfold UACTsx.send_request
  simp [UACTsx.enter_context, hu, Except.bind, UASTsx.store, List.getElem?_set_self hlt,
    UACTsx.exit_context, List.set_set, unsent_child, hst, UACTsx.on_tsx_state,
    UACTsx.destroy, UASTsx.dissociate, hidx]

theorem init_new (s : UASTsx) (req : TxRequest) (index : Nat) :
    UACTsx.init { s with heap := s.heap ++ [UACTsx.new index] } s.heap.length req PJ_SUCCESS =
      Except.ok (PJ_SUCCESS,
        { s with heap := s.heap ++ [{ UACTsx.new index with _tsx := true,
                                                            _tdata := some req }] }) := by
  unfold UACTsx.init
  simp only [getElem?_concat s.heap (UACTsx.new index) [], ne_eq, not_true_eq_false,
    if_false, UASTsx.store, set_concat]

theorem set_target_new (s : UASTsx) (req : TxRequest) (index : Nat) (target : Target)
    (rest : List Target) :
    UACTsx.set_target
        { s with heap := s.heap ++ [{ UACTsx.new index with _tsx := true,
                                                            _tdata := some req }],
                 _targets := rest } s.heap.length target =
      Except.ok { s with _targets := rest,
                         heap := s.heap ++ [dispatched_child req index target] } := by
  have h2 := set_target_ok
    ({ s with heap := s.heap ++ [{ UACTsx.new index with _tsx := true, _tdata := some req }],
              _targets := rest } : UASTsx) s.heap.length
    { UACTsx.new index with _tsx := true, _tdata := some req } req target
    (getElem?_concat s.heap _ []) rfl rfl
  rw [h2]
  simp only [UASTsx.store, set_concat, dispatched_child, apply_target_eq, targeted, UACTsx.new]
  cases target.transport <;> rfl

theorem alloc_loop_ok (oracle : Nat → Alloc) (hor : ∀ i, oracle i = Alloc.created PJ_SUCCESS)
    (req : TxRequest) :
    ∀ (targets : List Target) (index : Nat) (s : UASTsx) (new_tsx : List Nat) (status : Int),
      s._req = some req →
      UASTsx.alloc_loop oracle targets index s new_tsx status =
        Except.ok (if targets = [] then status else PJ_SUCCESS,
          { s with _targets := if targets = [] then s._targets else [],
                   heap := s.heap ++ dispatched_children req index targets },
          new_tsx ++ List.range' s.heap.length targets.length) := by
  intro targets
  induction targets with
  | nil =>
    intro index s new_tsx status _
    simp [UASTsx.alloc_loop, dispatched_children]
  | cons target rest ih =>
    intro index s new_tsx status hreq
    have hstep : UASTsx.alloc_loop oracle (target :: rest) index s new_tsx status =
        UASTsx.alloc_loop oracle rest (index + 1)
          { s with _targets := rest, heap := s.heap ++ [dispatched_child req index target] }
          (new_tsx ++ [s.heap.length]) PJ_SUCCESS := by
      have h1 := init_new s req index
      have h2 := set_target_new s req index target rest
      rw [hreq] at h1 h2
      simp only [UASTsx.alloc_loop, hreq, hor, h1, Except.bind, ne_eq,
        not_true_eq_false, if_false, h2]
    have hih := ih (index + 1)
      ({ s with _targets := rest,
                heap := s.heap ++ [dispatched_child req index target] } : UASTsx)
      (new_tsx ++ [s.heap.length]) PJ_SUCCESS hreq
    rw [hstep, hih]
    simp only [List.length_append, List.length_singleton, List.length_cons,
      List.append_assoc, List.singleton_append, dispatched_children, List.range'_succ,
      reduceCtorEq, if_false]
    by_cases hr : rest = []
    · simp [hr]
    · simp [hr]

theorem send_loop_ok (req : TxRequest) (send_status : Nat → Int)
    (hst : ∀ p, send_status p = PJ_SUCCESS) :
    ∀ (targets : List Target) (index : Nat) (s : UASTsx) (H : List UACTsx),
      s.heap = H ++ dispatched_children req index targets →
      UASTsx.send_loop send_status (List.range' H.length targets.length) s =
        Except.ok
          { s with _uac_tsx := s._uac_tsx ++ (List.range' H.length targets.length).map some,
                   heap := H ++ (dispatched_children req index targets).map sent_child,
                   _pending_targets := s._pending_targets + targets.length,
                   out := s.out ++ send_effects req H.length targets } := by
  intro targets
  induction targets with
  | nil =>
    intro index s H hheap
    simp only [dispatched_children, List.append_nil] at hheap
    simp [UASTsx.send_loop, dispatched_children, send_effects, ← hheap]
  | cons target rest ih =>
    intro index s H hheap
    simp only [dispatched_children] at hheap
    have hu : ({ s with _uac_tsx := s._uac_tsx ++ [some H.length] } : UASTsx).heap[H.length]? =
        some (dispatched_child req index target) := by
      show s.heap[H.length]? = _
      rw [hheap]
      exact getElem?_concat H _ _
    have hsend := send_request_ok
      ({ s with _uac_tsx := s._uac_tsx ++ [some H.length] } : UASTsx) H.length
      (dispatched_child req index target) (apply_target req target) hu rfl rfl
    have hstep : UASTsx.send_loop send_status
          (List.range' H.length (target :: rest).length) s =
        UASTsx.send_loop send_status
          (List.range' (H ++ [sent_child (dispatched_child req index target)]).length
            rest.length)
          { s with _uac_tsx := s._uac_tsx ++ [some H.length],
                   out := s.out ++ [Effect.uac_send_msg H.length (apply_target req target)],
                   heap := (H ++ [sent_child (dispatched_child req index target)]) ++
                     dispatched_children req (index + 1) rest,
                   _pending_targets := s._pending_targets + 1 } := by
      dsimp only at hsend
      simp only [List.length_cons, List.range'_succ, UASTsx.send_loop, hst, hsend,
        Except.bind]
      simp only [hheap, set_concat, List.length_append, List.length_singleton,
        List.append_assoc, List.singleton_append]
    rw [hstep, ih (index + 1) _ _ rfl]
    simp only [List.length_append, List.length_singleton, List.length_cons,
      List.append_assoc, List.singleton_append, dispatched_children, List.range'_succ,
      List.map_cons, send_effects, Nat.cast_add, Nat.cast_one]
    congr 2
    omega

theorem init_uac_transactions_ok (s : UASTsx) (oracle : Nat → Alloc)
    (send_status : Nat → Int) (tsx : pjsip_transaction)
    (req : TxRequest) (htsx : s._tsx = some tsx) (hreq : s._req = some req)
    (hne : s._targets ≠ []) (hor : ∀ i, oracle i = Alloc.created PJ_SUCCESS)
    (hst : ∀ p, send_status p = PJ_SUCCESS) :
    s.init_uac_transactions oracle send_status =
      Except.ok (PJ_SUCCESS,
        { s with
          _targets := [],
          _uac_tsx := s._uac_tsx ++ (List.range' s.heap.length s._targets.length).map some,
          heap := s.heap ++ (dispatched_children req s._uac_tsx.length s._targets).map sent_child,
          _pending_targets := s._pending_targets + s._targets.length,
          out := s.out ++ send_effects req s.heap.length s._targets }) := by
  have ha := alloc_loop_ok oracle hor req s._targets s._uac_tsx.length s [] PJ_EUNKNOWN hreq
  have hs := send_loop_ok req send_status hst s._targets s._uac_tsx.length
    ({ s with _targets := [],
              heap := s.heap ++ dispatched_children req s._uac_tsx.length s._targets } : UASTsx)
    s.heap rfl
  simp only [hne, if_false, List.nil_append] at ha
  dsimp only at hs
  unfold UASTsx.init_uac_transactions
  rw [htsx] at ha hs ⊢
  simp only [ha, Except.bind, if_true, hs]

theorem dispatched_children_getElem? (req : TxRequest) :
    ∀ (targets : List Target) (index j : Nat),
      (dispatched_children req index targets)[j]? =
        (targets[j]?).map (dispatched_child req (index + j)) := by
  intro targets
  induction targets with
  | nil => intro index j; simp [dispatched_children]
  | cons t rest ih =>
    intro index j
    cases j with
    | zero => simp [dispatched_children]
    | succ j =>
      simp only [dispatched_children, List.getElem?_cons_succ, ih]
      rw [show index + 1 + j = index + (j + 1) by omega]

theorem send_effects_getElem? (req : TxRequest) :
    ∀ (targets : List Target) (p j : Nat),
      (send_effects req p targets)[j]? =
        (targets[j]?).map fun t => Effect.uac_send_msg (p + j) (apply_target req t) := by
  intro targets
  induction targets with
  | nil => intro p j; simp [send_effects]
  | cons t rest ih =>
    intro p j
    cases j with
    | zero => simp [send_effects]
    | succ j =>
      simp only [send_effects, List.getElem?_cons_succ, ih]
      rw [show p + 1 + j = p + (j + 1) by omega]

theorem dispatched_children_length (req : TxRequest) :
    ∀ (targets : List Target) (index : Nat),
      (dispatched_children req index targets).length = targets.length := by
  intro targets
  induction targets with
  | nil => intro index; rfl
  | cons t rest ih => intro index; simp [dispatched_children, ih]

theorem send_effects_length (req : TxRequest) :
    ∀ (targets : List Target) (p : Nat),
      (send_effects req p targets).length = targets.length := by
  intro targets
  induction targets with
  | nil => intro p; rfl
  | cons t rest ih => intro p; simp [send_effects, ih]

theorem getElem?_append_add {α : Type} (A B : List α) (j : Nat) :
    (A ++ B)[A.length + j]? = B[j]? := by
  rw [List.getElem?_append_right (Nat.le_add_right _ _), Nat.add_sub_cancel_left]

theorem getElem?_map_range' (h n j : Nat) (hj : j < n) :
    ((List.range' h n).map some)[j]? = some (some (h + j)) := by
  rw [List.getElem?_map, List.getElem?_range' _ _ hj]
  simp

/-- C21 (counterexample): every clone and every `UACTsx::init` succeeds for the
two queued targets, and `pjsip_tsx_send_msg` fails for the first child.
`init_uac_transactions` returns success and adds 2 to `_pending_targets`, but the
first child is destroyed during its `send_request`: slot 0 is null, its request
is not sent, and one child is in a slot where two are counted. -/
theorem failed_send_leaves_slot_empty :
    queued_state._uac_tsx = [] ∧ queued_state._targets.length = 2 ∧
    ∃ s', queued_state.init_uac_transactions (fun _ => Alloc.created PJ_SUCCESS)
        fail_first_send = Except.ok (PJ_SUCCESS, s') ∧
      s'._uac_tsx = [none, some 1] ∧
      s'.heap.map (fun u => (u._index, u._uas_tsx, u.deleted)) =
        [(0, false, true), (1, true, false)] ∧
      s'.out = queued_state.out ++
        [Effect.uac_send_msg 1 (sample_request pjsip_method_e.INVITE)] ∧
      s'._pending_targets = 2 :=
  ⟨rfl, rfl, _, rfl, by decide, by decide, by decide, by decide⟩

/-- C21 (amended): successful fork dispatch. For a `UASTsx` with a stack
transaction, a request, `k` child slots and `n >= 1` queued targets, when every
clone and every `UACTsx::init` succeeds and `pjsip_tsx_send_msg` succeeds for
every child, `init_uac_transactions` returns success and empties the target
queue; it appends `n` slots and `n` child objects and leaves the existing ones as
they are; the child for the `j`-th target (from 0) has index `k+j`, occupies slot
`k+j`, is linked to its parent and has a stack transaction; for each child, in
target order, its request with the target applied is sent once; and
`_pending_targets` grows by `n`. -/
theorem init_uac_transactions_success (s : UASTsx) (oracle : Nat → Alloc)
    (send_status : Nat → Int) (tsx : pjsip_transaction) (req : TxRequest)
    (htsx : s._tsx = some tsx) (hreq : s._req = some req)
    (hn : 1 ≤ s._targets.length) (hor : ∀ i, oracle i = Alloc.created PJ_SUCCESS)
    (hst : ∀ p, send_status p = PJ_SUCCESS) :
    ∃ s' sends, s.init_uac_transactions oracle send_status = Except.ok (PJ_SUCCESS, s') ∧
      s'._targets = [] ∧
      s'._uac_tsx.length = s._uac_tsx.length + s._targets.length ∧
      (∀ i < s._uac_tsx.length, s'._uac_tsx[i]? = s._uac_tsx[i]?) ∧
      s'.heap.length = s.heap.length + s._targets.length ∧
      (∀ q < s.heap.length, s'.heap[q]? = s.heap[q]?) ∧
      (∀ j target, s._targets[j]? = some target →
        s'._uac_tsx[s._uac_tsx.length + j]? = some (some (s.heap.length + j)) ∧
        (∃ u, s'.heap[s.heap.length + j]? = some u ∧ u._index = s._uac_tsx.length + j ∧
          u._uas_tsx = true ∧ u._tsx = true ∧ u.tp_sel = target.transport) ∧
        sends[j]? =
          some (Effect.uac_send_msg (s.heap.length + j) (apply_target req target))) ∧
      s'.out = s.out ++ sends ∧ sends.length = s._targets.length ∧
      s'._pending_targets = s._pending_targets + s._targets.length ∧
      s'._tsx = s._tsx ∧ s'._best_rsp = s._best_rsp := by
  have hne : s._targets ≠ [] := by
    intro h
    rw [h] at hn
    simp at hn
  refine ⟨_, send_effects req s.heap.length s._targets,
    init_uac_transactions_ok s oracle send_status tsx req htsx hreq hne hor hst, rfl, ?_, ?_,
    ?_, ?_, ?_, rfl, send_effects_length _ _ _, rfl, rfl, rfl⟩
  · simp
  · intro i hi
    exact List.getElem?_append_left hi
  · simp [dispatched_children_length]
  · intro q hq
    exact List.getElem?_append_left hq
  · intro j target hj
    have hjn : j < s._targets.length := by
      rcases List.getElem?_eq_some.1 hj with ⟨hlt, _⟩
      exact hlt
    refine ⟨?_, ⟨sent_child (dispatched_child req (s._uac_tsx.length + j) target), ?_, rfl, rfl,
      rfl, rfl⟩, ?_⟩
    · show (s._uac_tsx ++ (List.range' s.heap.length s._targets.length).map some)[
        s._uac_tsx.length + j]? = _
      rw [getElem?_append_add, getElem?_map_range' _ _ _ hjn]
    · show (s.heap ++ (dispatched_children req s._uac_tsx.length s._targets).map sent_child)[
        s.heap.length + j]? = _
      rw [getElem?_append_add, List.getElem?_map, dispatched_children_getElem?, hj]
      rfl
    · rw [send_effects_getElem?, hj]
      rfl

/-- The dispatch of `queued_state` with every allocation and every sending
succeeding. -/
theorem init_uac_transactions_success_witness :
    ∃ s' sends, queued_state.init_uac_transactions (fun _ => Alloc.created PJ_SUCCESS)
        (fun _ => PJ_SUCCESS) = Except.ok (PJ_SUCCESS, s') ∧
      s'._targets = [] ∧
      s'._uac_tsx.length = queued_state._uac_tsx.length + queued_state._targets.length ∧
      (∀ i < queued_state._uac_tsx.length, s'._uac_tsx[i]? = queued_state._uac_tsx[i]?) ∧
      s'.heap.length = queued_state.heap.length + queued_state._targets.length ∧
      (∀ q < queued_state.heap.length, s'.heap[q]? = queued_state.heap[q]?) ∧
      (∀ j target, queued_state._targets[j]? = some target →
        s'._uac_tsx[queued_state._uac_tsx.length + j]? =
          some (some (queued_state.heap.length + j)) ∧
        (∃ u, s'.heap[queued_state.heap.length + j]? = some u ∧
          u._index = queued_state._uac_tsx.length + j ∧
          u._uas_tsx = true ∧ u._tsx = true ∧ u.tp_sel = target.transport) ∧
        sends[j]? =
          some (Effect.uac_send_msg (queued_state.heap.length + j)
            (apply_target (sample_request pjsip_method_e.INVITE) target))) ∧
      s'.out = queued_state.out ++ sends ∧ sends.length = queued_state._targets.length ∧
      s'._pending_targets = queued_state._pending_targets + queued_state._targets.length ∧
      s'._tsx = queued_state._tsx ∧ s'._best_rsp = queued_state._best_rsp :=
  init_uac_transactions_success queued_state (fun _ => Alloc.created PJ_SUCCESS)
    (fun _ => PJ_SUCCESS)
    { method := pjsip_method_e.INVITE } (sample_request pjsip_method_e.INVITE)
    (by decide) (by decide) (by decide) (fun _ => rfl) (fun _ => rfl)

/-- The dispatch of `queued_state`: two children at slots 0 and 1, the request of
the first with the URI and the Route headers of `path_target`, the request of
the second as received. -/
theorem init_uac_transactions_sample :
    ∃ s', queued_state.init_uac_transactions (fun _ => Alloc.created PJ_SUCCESS)
        (fun _ => PJ_SUCCESS) = Except.ok (PJ_SUCCESS, s') ∧
      s'._uac_tsx = [some 0, some 1] ∧ s'._pending_targets = 2 ∧
      s'.heap.map (fun u => u._index) = [0, 1] ∧
      s'.out = [Effect.respond_stateful 100,
        Effect.uac_send_msg 0 { method := pjsip_method_e.INVITE, uri := strict_hop_uri,
                                routes := [proxy_uri, strict_hop_uri] },
        Effect.uac_send_msg 1 (sample_request pjsip_method_e.INVITE)] :=
  ⟨_, rfl, by decide, by decide, by decide, by decide⟩

/-! ## Failed fork dispatch -/

/-- When the allocations succeed for the first queued target and the clone of
the request fails for the second, the clean-up loop of `init_uac_transactions`
deletes the first child, whose destructor calls `dissociate`, which writes the
slot of the child's index: a slot that was never pushed. -/
theorem init_uac_transactions_cleanup_fault (s : UASTsx) (oracle : Nat → Alloc)
    (send_status : Nat → Int)
    (tsx : pjsip_transaction) (req : TxRequest) (t1 t2 : Target) (rest : List Target)
    (htsx : s._tsx = some tsx) (hreq : s._req = some req)
    (htargets : s._targets = t1 :: t2 :: rest)
    (h1 : oracle s._uac_tsx.length = Alloc.created PJ_SUCCESS)
    (h2 : oracle (s._uac_tsx.length + 1) = Alloc.clone_null) :
    s.init_uac_transactions oracle send_status = Except.error Fault.out_of_range := by
  have hi := init_new s req s._uac_tsx.length
  have ht := set_target_new s req s._uac_tsx.length t1 (t2 :: rest)
  rw [hreq] at hi ht
  have ha : UASTsx.alloc_loop oracle (t1 :: t2 :: rest) s._uac_tsx.length s [] PJ_EUNKNOWN =
      Except.ok (PJ_ENOMEM,
        { s with _targets := t2 :: rest,
                 heap := s.heap ++ [dispatched_child req s._uac_tsx.length t1] },
        [s.heap.length]) := by
    simp only [UASTsx.alloc_loop, hreq, h1, h2, hi, Except.bind, ne_eq, not_true_eq_false,
      if_false, ht, List.nil_append]
  have hd : UACTsx.destroy
      ({ s with _targets := t2 :: rest,
                heap := s.heap ++ [dispatched_child req s._uac_tsx.length t1] } : UASTsx)
      s.heap.length = Except.error Fault.out_of_range := by
    unfold UACTsx.destroy
    simp only [getElem?_concat s.heap _ [], dispatched_child, UACTsx.new, if_true,
      UASTsx.dissociate, lt_self_iff_false, if_false, Except.bind]
  unfold UASTsx.init_uac_transactions
  rw [htsx, htargets] at *
  rw [hreq] at ha hd
  simp only [ha, Except.bind, PJ_ENOMEM, PJ_SUCCESS, UASTsx.cleanup_loop, hd]
  rfl

/-- C22: evaluation at the failing input. An INVITE with two queued targets and
no child slot yet; the allocations succeed for the first target and the clone
of the request fails for the second. The clean-up loop deletes the first child,
whose destructor calls `dissociate`, which writes `_uac_tsx[0]` of an empty
vector; no 500 is sent. When `UACTsx::init` fails for the first target, the
child just created is in no list and is never deleted. Only when the clone
fails for the first target is the state left as it was and a 500 sent. -/
theorem failed_dispatch_writes_out_of_range :
    queued_state._uac_tsx = [] ∧ queued_state._targets.length = 2 ∧
    queued_state.init_uac_transactions fail_second (fun _ => PJ_SUCCESS) =
      Except.error Fault.out_of_range ∧
    UASTsx.process_tsx_request sample_is_home_domain sample_is_uri_local fail_second
      (fun _ => PJ_SUCCESS) queued_state = Except.error Fault.out_of_range ∧
    (∃ s', queued_state.init_uac_transactions (fun _ => Alloc.created PJ_ENOMEM)
        (fun _ => PJ_SUCCESS) = Except.ok (PJ_ENOMEM, s') ∧
      s'.heap.map (fun u => u.deleted) = [false] ∧ s'._uac_tsx = [] ∧
      s'._pending_targets = 0 ∧ s'.out = queued_state.out) ∧
    (∃ s', UASTsx.process_tsx_request sample_is_home_domain sample_is_uri_local
        (fun _ => Alloc.clone_null) (fun _ => PJ_SUCCESS) queued_state = Except.ok s' ∧
      s'.out = queued_state.out ++
        [Effect.tsx_send_msg { code := 500, origin := Origin.template }] ∧
      s'._uac_tsx = [] ∧ s'.heap = [] ∧ s'._pending_targets = 0) :=
  ⟨rfl, rfl, rfl, rfl, ⟨_, rfl, by decide, by decide, by decide, by decide⟩,
    ⟨_, rfl, by decide, by decide, by decide, by decide⟩⟩

/-! ## `cancel_pending_uac_tsx` -/

theorem mem_cancel_list_iff (status_text : Int → String) (st_code : Int)
    (heap : List UACTsx) (slots : List (Option Nat)) (e : Effect) :
    ∀ (idx : List Nat),
      e ∈ cancel_list status_text st_code heap slots idx ↔
        ∃ ii ∈ idx, ∃ p u, slots[ii]? = some (some p) ∧ heap[p]? = some u ∧
          u._tsx = true ∧ u.status_code < 200 ∧
          e = Effect.send_cancel p
            (if st_code ≠ 0 then some (reason_val st_code (status_text st_code)) else none)
            u.tp_sel := by
  intro idx
  induction idx with
  | nil => simp [cancel_list]
  | cons ii rest ih =>
    simp only [cancel_list, List.mem_append, ih, List.mem_cons, exists_eq_or_imp]
    apply or_congr_left
    cases hs : slots[ii]? with
    | none => simp
    | some o =>
      cases o with
      | none => simp
      | some p =>
        cases hh : heap[p]? with
        | none => simp [hh]
        | some u =>
          by_cases hc : u._tsx = true ∧ u.status_code < 200
          · simp [cancel_effects, hc, hh]
          · simp only [hh, cancel_effects, hc, if_false, List.not_mem_nil, false_iff]
            rintro ⟨q, v, hq, hv, h1, h2, _⟩
            have hqp : p = q := by simpa using hq
            subst hqp
            rw [hh] at hv
            have huv : u = v := by simpa using hv
            subst huv
            exact hc ⟨h1, h2⟩

/-- C24: `cancel_pending_uac_tsx(code, dissociate)` on a `UASTsx` whose non-null
slots hold children that do not await destruction. A CANCEL is sent for exactly
the children in a non-null slot that have a stack transaction whose status code
is below 200. Without dissociation the slots and the child objects, parent links
included, are as before; with dissociation every slot is null afterwards, every
child that was in a slot has a null parent link and is otherwise as before, and
the other objects are untouched. In both cases `_pending_targets` and
`_best_rsp` are unchanged. -/
theorem cancel_pending_uac_tsx_spec (status_text : Int → String) (s : UASTsx)
    (st_code : Int) (hok : ∀ ii < s._uac_tsx.length, s.slot_ok ii = true) :
    (∀ e, e ∈ cancel_list status_text st_code s.heap s._uac_tsx
        (List.range s._uac_tsx.length) ↔
      ∃ (ii p : Nat) (u : UACTsx), s._uac_tsx[ii]? = some (some p) ∧ s.heap[p]? = some u ∧
        u._tsx = true ∧ u.status_code < 200 ∧
        e = Effect.send_cancel p
          (if st_code ≠ 0 then some (reason_val st_code (status_text st_code)) else none)
          u.tp_sel) ∧
    (∃ s', s.cancel_pending_uac_tsx status_text st_code false = Except.ok s' ∧
      s'.out = s.out ++
        cancel_list status_text st_code s.heap s._uac_tsx (List.range s._uac_tsx.length) ∧
      s'._uac_tsx = s._uac_tsx ∧ s'.heap = s.heap ∧
      s'._pending_targets = s._pending_targets ∧ s'._best_rsp = s._best_rsp) ∧
    (∃ s', s.cancel_pending_uac_tsx status_text st_code true = Except.ok s' ∧
      s'.out = s.out ++
        cancel_list status_text st_code s.heap s._uac_tsx (List.range s._uac_tsx.length) ∧
      s'._uac_tsx = s._uac_tsx.map (fun _ => none) ∧ s'.children = [] ∧
      (∀ p ∈ s.children, ∃ u, s.heap[p]? = some u ∧
        s'.heap[p]? = some { u with _uas_tsx := false }) ∧
      (∀ q, q ∉ s.children → s'.heap[q]? = s.heap[q]?) ∧
      s'._pending_targets = s._pending_targets ∧ s'._best_rsp = s._best_rsp) := by
  refine ⟨?_, ?_, ?_⟩
  · intro e
    rw [mem_cancel_list_iff]
    constructor
    · rintro ⟨ii, _, p, u, h⟩
      exact ⟨ii, p, u, h⟩
    · rintro ⟨ii, p, u, h⟩
      have hlt : ii < s._uac_tsx.length := by
        rcases List.getElem?_eq_some.1 h.1 with ⟨hlt, _⟩
        exact hlt
      exact ⟨ii, List.mem_range.2 hlt, p, u, h⟩
  · have hloop := cancel_loop_keep status_text st_code (List.range s._uac_tsx.length)
      (UASTsx.enter_context s) (fun ii hii => hok ii (List.mem_range.1 hii))
    have hloop' : UASTsx.cancel_loop status_text st_code false
        (List.range (UASTsx.enter_context s)._uac_tsx.length) (UASTsx.enter_context s) = _ :=
      hloop
    refine ⟨UASTsx.exit_context
      ({ UASTsx.enter_context s with
         out := ((UASTsx.enter_context s).out ++
           cancel_list status_text st_code (UASTsx.enter_context s).heap
             (UASTsx.enter_context s)._uac_tsx (List.range s._uac_tsx.length)) } : UASTsx),
      ?_, ?_, ?_, ?_, ?_, ?_⟩
    · simp only [UASTsx.cancel_pending_uac_tsx, hloop', Except.bind]
    · simp [UASTsx.enter_context]
    · simp [UASTsx.enter_context]
    · simp [UASTsx.enter_context]
    · simp [UASTsx.enter_context]
    · simp [UASTsx.enter_context]
  · obtain ⟨sl, hrun, hA1, hA2, hB1, hB2, hC, hD⟩ :=
      cancel_loop_dissociate status_text st_code (List.range s._uac_tsx.length)
        (UASTsx.enter_context s) (List.nodup_range _)
        (fun ii hii => hok ii (List.mem_range.1 hii))
    have hrun' : UASTsx.cancel_loop status_text st_code true
        (List.range (UASTsx.enter_context s)._uac_tsx.length) (UASTsx.enter_context s) =
        Except.ok sl := hrun
    have hslots : sl._uac_tsx = s._uac_tsx.map (fun _ => none) := by
      apply List.ext_getElem?
      intro jj
      rw [List.getElem?_map]
      by_cases hj : jj < s._uac_tsx.length
      · exact hA1 jj (List.mem_range.2 hj)
      · rw [hA2 jj (fun hm' => hj (List.mem_range.1 hm'))]
        show s._uac_tsx[jj]? = _
        rw [List.getElem?_eq_none (Nat.le_of_not_lt hj)]
        rfl
    simp only [UASTsx.core, UASTsx.enter_context, Prod.mk.injEq] at hD
    obtain ⟨_, _, _, _, hpend, hbest, _, _, _⟩ := hD
    refine ⟨UASTsx.exit_context sl, ?_, ?_, ?_, ?_, ?_, ?_, ?_, ?_⟩
    · simp only [UASTsx.cancel_pending_uac_tsx, hrun', Except.bind]
    · simp only [exit_context_out]
      exact hC
    · simp only [exit_context_slots]
      exact hslots
    · unfold UASTsx.children
      simp only [exit_context_slots, hslots]
      exact children_map_none s._uac_tsx
    · intro p hp
      obtain ⟨ii, hlt, hi⟩ := (mem_children_iff s p).1 hp
      obtain ⟨u, hu, hu'⟩ := hB1 ii (List.mem_range.2 hlt) p hi
      exact ⟨u, hu, by simpa only [exit_context_heap] using hu'⟩
    · intro q hq
      simp only [exit_context_heap]
      exact hB2 q (fun ii hii hc =>
        hq ((mem_children_iff s q).2 ⟨ii, List.mem_range.1 hii, hc⟩))
    · simp only [exit_context_pending]
      exact hpend
    · simp only [exit_context_best]
      exact hbest

theorem cancel_pending_uac_tsx_spec_witness :
    ∃ s', (fork_state pjsip_method_e.INVITE false 2).cancel_pending_uac_tsx
        sample_status_text 486 true = Except.ok s' ∧
      s'.out = (fork_state pjsip_method_e.INVITE false 2).out ++
        cancel_list sample_status_text 486 (fork_state pjsip_method_e.INVITE false 2).heap
          (fork_state pjsip_method_e.INVITE false 2)._uac_tsx
          (List.range (fork_state pjsip_method_e.INVITE false 2)._uac_tsx.length) ∧
      s'._uac_tsx = (fork_state pjsip_method_e.INVITE false 2)._uac_tsx.map (fun _ => none) ∧
      s'.children = [] ∧
      (∀ p ∈ (fork_state pjsip_method_e.INVITE false 2).children,
        ∃ u, (fork_state pjsip_method_e.INVITE false 2).heap[p]? = some u ∧
          s'.heap[p]? = some { u with _uas_tsx := false }) ∧
      (∀ q, q ∉ (fork_state pjsip_method_e.INVITE false 2).children →
        s'.heap[q]? = (fork_state pjsip_method_e.INVITE false 2).heap[q]?) ∧
      s'._pending_targets = (fork_state pjsip_method_e.INVITE false 2)._pending_targets ∧
      s'._best_rsp = (fork_state pjsip_method_e.INVITE false 2)._best_rsp :=
  (cancel_pending_uac_tsx_spec sample_status_text (fork_state pjsip_method_e.INVITE false 2)
    486 (by decide)).2.2

/-- Cancellation with cause 486 of an INVITE forked to two children, with
dissociation: one CANCEL with a Reason header to each child, and no child
associated afterwards. -/
theorem cancel_pending_uac_tsx_sample :
    ∃ s', (fork_state pjsip_method_e.INVITE false 2).cancel_pending_uac_tsx
        sample_status_text 486 true = Except.ok s' ∧
      s'.out = (fork_state pjsip_method_e.INVITE false 2).out ++
        [Effect.send_cancel 0 (some "SIP ;cause=486 ;text=\"Busy Here\"") none,
          Effect.send_cancel 1 (some "SIP ;cause=486 ;text=\"Busy Here\"") none] ∧
      s'.children = [] ∧ s'.heap.map (fun u => u._uas_tsx) = [false, false] ∧
      s'._pending_targets = 2 :=
  ⟨_, rfl, by decide, by decide, by decide, by decide⟩

/-! ## The link invariant -/

theorem child_ok_iff (s : UASTsx) (p : Nat) :
    s.child_ok p = true ↔
      ∀ u, s.heap[p]? = some u →
        u._index < s._uac_tsx.length ∧ (u._uas_tsx = true → u._pending_destroy = false) ∧
        s._uac_tsx[u._index]? = some (if u._uas_tsx then some p else none) := by
  unfold UASTsx.child_ok
  cases h : s.heap[p]? with
  | none => simp
  | some u =>
    cases hl : u._uas_tsx <;> cases hp : u._pending_destroy <;> simp [hl, hp]

theorem slot_linked_iff (s : UASTsx) (i : Nat) :
    s.slot_linked i = true ↔
      ∀ p, s._uac_tsx[i]? = some (some p) →
        ∃ u, s.heap[p]? = some u ∧ u._index = i ∧ u._uas_tsx = true := by
  unfold UASTsx.slot_linked
  cases h : s._uac_tsx[i]? with
  | none => simp
  | some o =>
    cases o with
    | none => simp
    | some p =>
      cases hh : s.heap[p]? with
      | none => simp [hh]
      | some u => simp [hh]

theorem links_ok_iff (s : UASTsx) :
    s.links_ok = true ↔
      (∀ (p : Nat) (u : UACTsx), s.heap[p]? = some u →
        u._index < s._uac_tsx.length ∧ (u._uas_tsx = true → u._pending_destroy = false) ∧
        s._uac_tsx[u._index]? = some (if u._uas_tsx then some p else none)) ∧
      (∀ (i p : Nat), s._uac_tsx[i]? = some (some p) →
        ∃ u, s.heap[p]? = some u ∧ u._index = i ∧ u._uas_tsx = true) := by
  unfold UASTsx.links_ok
  simp only [Bool.and_eq_true, List.all_eq_true, List.mem_range]
  constructor
  · rintro ⟨h1, h2⟩
    constructor
    · intro p u hu
      have hlt : p < s.heap.length := by
        rcases List.getElem?_eq_some.1 hu with ⟨hlt, _⟩
        exact hlt
      exact (child_ok_iff s p).1 (h1 p hlt) u hu
    · intro i p hi
      have hlt : i < s._uac_tsx.length := by
        rcases List.getElem?_eq_some.1 hi with ⟨hlt, _⟩
        exact hlt
      exact (slot_linked_iff s i).1 (h2 i hlt) p hi
  · rintro ⟨h1, h2⟩
    exact ⟨fun p _ => (child_ok_iff s p).2 (h1 p), fun i _ => (slot_linked_iff s i).2 (h2 i)⟩

theorem links_ok_congr (s s' : UASTsx) (hh : s'.heap = s.heap)
    (hs : s'._uac_tsx = s._uac_tsx) : s'.links_ok = s.links_ok := by
  unfold UASTsx.links_ok UASTsx.child_ok UASTsx.slot_linked
  rw [hh, hs]

theorem dissociate_eq_ok (s s' : UASTsx) (uac : Nat) (hd : s.dissociate uac = Except.ok s') :
    ∃ u, s.heap[uac]? = some u ∧ u._index < s._uac_tsx.length ∧
      s' = { s with heap := s.heap.set uac { u with _uas_tsx := false },
                    _uac_tsx := s._uac_tsx.set u._index none } := by
  unfold UASTsx.dissociate at hd
  cases hu : s.heap[uac]? with
  | none => rw [hu] at hd; cases hd
  | some u =>
    rw [hu] at hd
    simp only at hd
    by_cases hi : u._index < s._uac_tsx.length
    · rw [if_pos hi] at hd
      cases hd
      exact ⟨u, rfl, hi, rfl⟩
    · rw [if_neg hi] at hd
      cases hd

/-- The link invariant is kept by `dissociate`. -/
theorem links_ok_dissociate (s s' : UASTsx) (uac : Nat) (hl : s.links_ok = true)
    (hd : s.dissociate uac = Except.ok s') : s'.links_ok = true := by
  obtain ⟨u, hu, hidx, rfl⟩ := dissociate_eq_ok s s' uac hd
  obtain ⟨h1, h2⟩ := (links_ok_iff s).1 hl
  have hlt : uac < s.heap.length := by
    rcases List.getElem?_eq_some.1 hu with ⟨hlt, _⟩
    exact hlt
  obtain ⟨_, hupd, huslot⟩ := h1 uac u hu
  rw [links_ok_iff]
  constructor
  · intro q v hv
    simp only at hv ⊢
    by_cases hq : q = uac
    · subst hq
      rw [List.getElem?_set_self hlt] at hv
      cases hv
      simp only [List.length_set, Bool.false_eq_true, if_false]
      exact ⟨hidx, fun h => absurd h (by simp), List.getElem?_set_self hidx⟩
    · rw [List.getElem?_set_ne (fun e => hq e.symm)] at hv
      obtain ⟨hvi, hvpd, hvslot⟩ := h1 q v hv
      refine ⟨by simpa using hvi, hvpd, ?_⟩
      by_cases hi : v._index = u._index
      · rw [hi] at hvslot ⊢
        rw [huslot] at hvslot
        rw [List.getElem?_set_self hidx]
        by_cases hvl : v._uas_tsx = true
        · exfalso
          rw [if_pos hvl] at hvslot
          by_cases hul : u._uas_tsx = true
          · rw [if_pos hul] at hvslot
            simp only [Option.some.injEq] at hvslot
            exact hq hvslot.symm
          · rw [if_neg hul] at hvslot
            simp at hvslot
        · rw [if_neg hvl]
      · rw [List.getElem?_set_ne (fun e => hi e.symm)]
        exact hvslot
  · intro i q hi
    simp only at hi ⊢
    have hne : i ≠ u._index := by
      intro e
      rw [e, List.getElem?_set_self hidx] at hi
      simp at hi
    rw [List.getElem?_set_ne (fun e => hne e.symm)] at hi
    obtain ⟨v, hv, hvi, hvl⟩ := h2 i q hi
    have hq : q ≠ uac := by
      intro e
      rw [e, hu] at hv
      cases hv
      exact hne hvi.symm
    exact ⟨v, by rw [List.getElem?_set_ne (fun e => hq e.symm)]; exact hv, hvi, hvl⟩

theorem on_final_response_frame (s s' : UASTsx) (h : s.on_final_response = Except.ok s') :
    s'.heap = s.heap ∧ s'._uac_tsx = s._uac_tsx ∧ s'._pending_targets = s._pending_targets ∧
      s'._tsx = s._tsx := by
  unfold UASTsx.on_final_response at h
  cases ht : s._tsx with
  | none =>
    rw [ht] at h
    cases h
    exact ⟨rfl, rfl, rfl, ht⟩
  | some tsx =>
    rw [ht] at h
    cases hb : s._best_rsp with
    | none => rw [hb] at h; cases h
    | some b =>
      rw [hb] at h
      simp only at h
      split_ifs at h <;> cases h <;> exact ⟨rfl, rfl, rfl, rfl⟩

/-- What `on_new_client_response` does to the slots, the child objects and
`_pending_targets` when it returns: nothing, or the dissociation of the child
and one off the count. -/
theorem on_new_client_response_links (s s' : UASTsx) (uac : Nat) (rdata : RxData)
    (h : s.on_new_client_response uac rdata = Except.ok s') :
    (s'.heap = s.heap ∧ s'._uac_tsx = s._uac_tsx ∧
      s'._pending_targets = s._pending_targets) ∨
    (∃ u, s.heap[uac]? = some u ∧ u._index < s._uac_tsx.length ∧
      s'.heap = s.heap.set uac { u with _uas_tsx := false } ∧
      s'._uac_tsx = s._uac_tsx.set u._index none ∧
      s'._pending_targets = s._pending_targets - 1) := by
  unfold UASTsx.on_new_client_response at h
  cases ht : s._tsx with
  | none =>
    rw [ht] at h
    cases h
    exact Or.inl ⟨rfl, rfl, rfl⟩
  | some tsx =>
    rw [ht] at h
    simp only at h
    by_cases c1 : tsx.method = pjsip_method_e.INVITE ∧ rdata.code = 100 ∧
        (UASTsx.enter_context s).delay_trying = false
    · rw [if_pos c1] at h
      cases h
      exact Or.inl ⟨by simp [UASTsx.enter_context], by simp [UASTsx.enter_context],
        by simp [UASTsx.enter_context]⟩
    · rw [if_neg c1] at h
      cases hf : create_response_fwd rdata with
      | none =>
        rw [hf] at h
        cases h
        exact Or.inl ⟨by simp [UASTsx.enter_context], by simp [UASTsx.enter_context],
          by simp [UASTsx.enter_context]⟩
      | some tdata =>
        rw [hf] at h
        simp only at h
        by_cases c2 : 100 < rdata.code ∧ rdata.code < 199
        · rw [if_pos c2] at h
          cases h
          exact Or.inl ⟨by simp [UASTsx.enter_context], by simp [UASTsx.enter_context],
            by simp [UASTsx.enter_context]⟩
        · rw [if_neg c2] at h
          by_cases c3 : rdata.code = 200
          · rw [if_pos c3] at h
            cases hd : UASTsx.dissociate
                { UASTsx.enter_context s with
                  _best_rsp := some tdata,
                  _pending_targets := (UASTsx.enter_context s)._pending_targets - 1 } uac with
            | error e => rw [hd] at h; cases h
            | ok s2 =>
              rw [hd] at h
              obtain ⟨u, hu, hidx, rfl⟩ := dissociate_eq_ok _ _ _ hd
              simp only [Except.bind] at h
              cases hfin : UASTsx.on_final_response
                  { ({ UASTsx.enter_context s with
                       _best_rsp := some tdata,
                       _pending_targets := (UASTsx.enter_context s)._pending_targets - 1 } :
                       UASTsx) with
                    heap := (UASTsx.enter_context s).heap.set uac { u with _uas_tsx := false },
                    _uac_tsx := (UASTsx.enter_context s)._uac_tsx.set u._index none } with
              | error e => rw [hfin] at h; cases h
              | ok s3 =>
                rw [hfin] at h
                cases h
                obtain ⟨f1, f2, f3, _⟩ := on_final_response_frame _ _ hfin
                refine Or.inr ⟨u, hu, hidx, ?_, ?_, ?_⟩
                · simp only [exit_context_heap, f1]; rfl
                · simp only [exit_context_slots, f2]; rfl
                · simp only [exit_context_pending, f3]; rfl
          · rw [if_neg c3] at h
            obtain ⟨sb, hsb, hbh, hbs, hbp⟩ : ∃ sb : UASTsx,
                sb = (match (UASTsx.enter_context s)._best_rsp with
                  | none => { UASTsx.enter_context s with _best_rsp := some tdata }
                  | some best_rsp =>
                    if compare_sip_sc rdata.code best_rsp.code > 0 then
                      { UASTsx.enter_context s with _best_rsp := some tdata }
                    else UASTsx.enter_context s) ∧
                sb.heap = s.heap ∧ sb._uac_tsx = s._uac_tsx ∧
                sb._pending_targets = s._pending_targets := by
              refine ⟨_, rfl, ?_, ?_, ?_⟩ <;>
                · cases (UASTsx.enter_context s)._best_rsp with
                  | none => rfl
                  | some b => simp only; split_ifs <;> rfl
            rw [← hsb] at h
            cases hd : UASTsx.dissociate sb uac with
            | error e => rw [hd] at h; cases h
            | ok s2 =>
              rw [hd] at h
              obtain ⟨u, hu, hidx, rfl⟩ := dissociate_eq_ok _ _ _ hd
              simp only [Except.bind] at h
              rw [hbh] at hu
              rw [hbs] at hidx
              by_cases hz : sb._pending_targets - 1 = 0
              · rw [if_pos hz] at h
                cases hfin : UASTsx.on_final_response
                    { ({ sb with heap := sb.heap.set uac { u with _uas_tsx := false },
                                 _uac_tsx := sb._uac_tsx.set u._index none } : UASTsx) with
                      _pending_targets := sb._pending_targets - 1 } with
                | error e => rw [hfin] at h; cases h
                | ok s3 =>
                  rw [hfin] at h
                  cases h
                  obtain ⟨f1, f2, f3, _⟩ := on_final_response_frame _ _ hfin
                  refine Or.inr ⟨u, hu, hidx, ?_, ?_, ?_⟩
                  · simp only [exit_context_heap, f1, hbh]
                  · simp only [exit_context_slots, f2, hbs]
                  · simp only [exit_context_pending, f3, hbp]
              · rw [if_neg hz] at h
                cases h
                refine Or.inr ⟨u, hu, hidx, ?_, ?_, ?_⟩
                · simp only [exit_context_heap, hbh]
                · simp only [exit_context_slots, hbs]
                · simp only [exit_context_pending, hbp]

/-- What `on_client_not_responding` does to the slots, the child objects and
`_pending_targets` when it returns: nothing when there is no stack transaction,
else the dissociation of the child and one off the count. -/
theorem on_client_not_responding_links (s s' : UASTsx) (uac : Nat)
    (h : s.on_client_not_responding uac = Except.ok s') :
    (s._tsx = none ∧ s' = s) ∨
    (∃ u, s.heap[uac]? = some u ∧ u._index < s._uac_tsx.length ∧
      s'.heap = s.heap.set uac { u with _uas_tsx := false } ∧
      s'._uac_tsx = s._uac_tsx.set u._index none ∧
      s'._pending_targets = s._pending_targets - 1) := by
  unfold UASTsx.on_client_not_responding at h
  cases ht : s._tsx with
  | none =>
    rw [ht] at h
    cases h
    exact Or.inl ⟨rfl, rfl⟩
  | some tsx =>
    rw [ht] at h
    simp only at h
    right
    obtain ⟨s3, hs3, f1, f2, f3⟩ : ∃ s3 : UASTsx,
        (if (UASTsx.enter_context s)._pending_targets - 1 = 0 then
          UASTsx.on_final_response
            { UASTsx.enter_context s with
              _pending_targets := (UASTsx.enter_context s)._pending_targets - 1 }
        else Except.ok
            { UASTsx.enter_context s with
              _pending_targets := (UASTsx.enter_context s)._pending_targets - 1 }) =
          Except.ok s3 ∧
        s3.heap = s.heap ∧ s3._uac_tsx = s._uac_tsx ∧
        s3._pending_targets = s._pending_targets - 1 := by
      by_cases hz : (UASTsx.enter_context s)._pending_targets - 1 = 0
      · rw [if_pos hz] at h ⊢
        cases hfin : UASTsx.on_final_response
            { UASTsx.enter_context s with
              _pending_targets := (UASTsx.enter_context s)._pending_targets - 1 } with
        | error e => rw [hfin] at h; cases h
        | ok s3 =>
          obtain ⟨g1, g2, g3, _⟩ := on_final_response_frame _ _ hfin
          exact ⟨s3, rfl, g1, g2, g3⟩
      · rw [if_neg hz]
        exact ⟨_, rfl, rfl, rfl, rfl⟩
    rw [hs3] at h
    simp only [Except.bind] at h
    cases hd : UASTsx.dissociate s3 uac with
    | error e => rw [hd] at h; cases h
    | ok s4 =>
      rw [hd] at h
      cases h
      obtain ⟨u, hu, hidx, rfl⟩ := dissociate_eq_ok _ _ _ hd
      rw [f1] at hu
      rw [f2] at hidx
      refine ⟨u, hu, hidx, ?_, ?_, ?_⟩
      · simp only [exit_context_heap, f1]
      · simp only [exit_context_slots, f2]
      · simp only [exit_context_pending, f3]

/-- A state with the slots and child objects that `dissociate` leaves satisfies
the link invariant when the state before did. -/
theorem links_ok_of_dissociated (s s' : UASTsx) (uac : Nat) (u : UACTsx)
    (hl : s.links_ok = true) (hu : s.heap[uac]? = some u)
    (hidx : u._index < s._uac_tsx.length)
    (hh : s'.heap = s.heap.set uac { u with _uas_tsx := false })
    (hs : s'._uac_tsx = s._uac_tsx.set u._index none) : s'.links_ok = true := by
  have hd := dissociate_ok s uac u hu hidx
  have h2 := links_ok_dissociate s _ uac hl hd
  rw [links_ok_congr
    ({ s with heap := s.heap.set uac { u with _uas_tsx := false },
              _uac_tsx := s._uac_tsx.set u._index none } : UASTsx) s' hh hs]
  exact h2

/-- The loop of `cancel_pending_uac_tsx` keeps the link invariant and
`_pending_targets`, and without dissociation the slots and the child objects. -/
theorem links_ok_cancel_loop (status_text : Int → String) (st_code : Int)
    (dissociate_uac : Bool) :
    ∀ (idx : List Nat) (s s' : UASTsx), s.links_ok = true →
      UASTsx.cancel_loop status_text st_code dissociate_uac idx s = Except.ok s' →
      s'.links_ok = true ∧ s'._pending_targets = s._pending_targets ∧
      (dissociate_uac = false → s'.heap = s.heap ∧ s'._uac_tsx = s._uac_tsx) := by
  intro idx
  induction idx with
  | nil =>
    intro s s' hl h
    simp only [UASTsx.cancel_loop] at h
    cases h
    exact ⟨hl, rfl, fun _ => ⟨rfl, rfl⟩⟩
  | cons ii rest ih =>
    intro s s' hl h
    obtain ⟨h1, h2⟩ := (links_ok_iff s).1 hl
    cases hs : s._uac_tsx[ii]? with
    | none =>
      simp only [UASTsx.cancel_loop, hs] at h
      exact ih s s' hl h
    | some o =>
      cases o with
      | none =>
        simp only [UASTsx.cancel_loop, hs] at h
        exact ih s s' hl h
      | some p =>
        obtain ⟨u, hu, _, hlk⟩ := h2 ii p hs
        obtain ⟨_, hpd, _⟩ := h1 p u hu
        have hc := cancel_pending_tsx_eq status_text s p u st_code hu (hpd hlk)
        simp only [UASTsx.cancel_loop, hs, hc, Except.bind] at h
        have hl1 : ({ s with out := s.out ++ cancel_effects status_text st_code u p } :
            UASTsx).links_ok = true :=
          (links_ok_congr s _ rfl rfl).trans hl
        cases hdis : dissociate_uac with
        | false =>
          rw [hdis] at h
          simp only [Bool.false_eq_true, if_false] at h
          obtain ⟨g1, g2, g3⟩ := ih _ s' hl1 (by rw [hdis]; exact h)
          refine ⟨g1, g2, fun _ => ?_⟩
          obtain ⟨g4, g5⟩ := g3 hdis
          exact ⟨g4, g5⟩
        | true =>
          rw [hdis] at h
          simp only [if_true] at h
          cases hd : UASTsx.dissociate
              ({ s with out := s.out ++ cancel_effects status_text st_code u p } : UASTsx)
              p with
          | error e => rw [hd] at h; cases h
          | ok s2 =>
            rw [hd] at h
            simp only at h
            have hl2 := links_ok_dissociate _ s2 p hl1 hd
            obtain ⟨v, _, _, hs2⟩ := dissociate_eq_ok _ _ _ hd
            obtain ⟨g1, g2, _⟩ := ih s2 s' hl2 (by rw [hdis]; exact h)
            refine ⟨g1, ?_, fun hf => by cases hf⟩
            rw [g2, hs2]

/-- Every call of one of the four methods keeps the link invariant. -/
theorem links_ok_call (status_text : Int → String) (s s' : UASTsx) (c : Call)
    (hl : s.links_ok = true) (h : s.call status_text c = Except.ok s') :
    s'.links_ok = true := by
  cases c with
  | on_new_client_response uac rdata =>
    rcases on_new_client_response_links s s' uac rdata h with ⟨hh, hs, _⟩ | ⟨u, hu, hi, hh, hs, _⟩
    · rw [links_ok_congr s s' hh hs]; exact hl
    · exact links_ok_of_dissociated s s' uac u hl hu hi hh hs
  | on_client_not_responding uac =>
    rcases on_client_not_responding_links s s' uac h with ⟨_, rfl⟩ | ⟨u, hu, hi, hh, hs, _⟩
    · exact hl
    · exact links_ok_of_dissociated s s' uac u hl hu hi hh hs
  | cancel_pending_uac_tsx st_code dissociate_uac =>
    simp only [UASTsx.call, UASTsx.cancel_pending_uac_tsx] at h
    cases hloop : UASTsx.cancel_loop status_text st_code dissociate_uac
        (List.range (UASTsx.enter_context s)._uac_tsx.length) (UASTsx.enter_context s) with
    | error e => rw [hloop] at h; cases h
    | ok sl =>
      rw [hloop] at h
      cases h
      have hle : (UASTsx.enter_context s).links_ok = true :=
        (links_ok_congr s _ rfl rfl).trans hl
      obtain ⟨g1, _, _⟩ := links_ok_cancel_loop status_text st_code dissociate_uac _ _ _ hle hloop
      rw [links_ok_congr sl _ (exit_context_heap sl) (exit_context_slots sl)]
      exact g1
  | dissociate uac => exact links_ok_dissociate s s' uac hl h

/-- Every sequence of calls of the four methods keeps the link invariant. -/
theorem links_ok_calls (status_text : Int → String) :
    ∀ (cs : List Call) (s s' : UASTsx), s.links_ok = true →
      UASTsx.calls status_text s cs = Except.ok s' → s'.links_ok = true := by
  intro cs
  induction cs with
  | nil =>
    intro s s' hl h
    simp only [UASTsx.calls] at h
    cases h
    exact hl
  | cons c rest ih =>
    intro s s' hl h
    simp only [UASTsx.calls] at h
    cases hc : s.call status_text c with
    | error e => rw [hc] at h; cases h
    | ok s1 =>
      rw [hc] at h
      exact ih s1 s' (links_ok_call status_text s s1 c hl hc) h

/-- The slots and child objects that a successful `init_uac_transactions` leaves
satisfy the link invariant when those before did. -/
theorem links_ok_dispatch (s s1 : UASTsx) (req : TxRequest) (ts : List Target)
    (hl : s.links_ok = true)
    (hh : s1.heap = s.heap ++ (dispatched_children req s._uac_tsx.length ts).map sent_child)
    (hs : s1._uac_tsx = s._uac_tsx ++ (List.range' s.heap.length ts.length).map some) :
    s1.links_ok = true := by
  obtain ⟨h1, h2⟩ := (links_ok_iff s).1 hl
  have hnew : ∀ j t, ts[j]? = some t →
      s1.heap[s.heap.length + j]? =
        some (sent_child (dispatched_child req (s._uac_tsx.length + j) t)) ∧
      s1._uac_tsx[s._uac_tsx.length + j]? = some (some (s.heap.length + j)) := by
    intro j t hj
    have hjn : j < ts.length := by
      rcases List.getElem?_eq_some.1 hj with ⟨hlt, _⟩
      exact hlt
    constructor
    · rw [hh, getElem?_append_add, List.getElem?_map, dispatched_children_getElem?, hj]
      rfl
    · rw [hs, getElem?_append_add, getElem?_map_range' _ _ _ hjn]
  have hlen : s1._uac_tsx.length = s._uac_tsx.length + ts.length := by
    rw [hs]
    simp
  have hhlen : s1.heap.length = s.heap.length + ts.length := by
    rw [hh]
    simp [dispatched_children_length]
  rw [links_ok_iff]
  constructor
  · intro p u hu
    by_cases hp : p < s.heap.length
    · rw [hh, List.getElem?_append_left hp] at hu
      obtain ⟨g1, g2, g3⟩ := h1 p u hu
      refine ⟨by omega, g2, ?_⟩
      rw [hs, List.getElem?_append_left g1]
      exact g3
    · have hplt : p < s1.heap.length := by
        rcases List.getElem?_eq_some.1 hu with ⟨hlt, _⟩
        exact hlt
      obtain ⟨j, rfl⟩ : ∃ j, p = s.heap.length + j := ⟨p - s.heap.length, by omega⟩
      have hjn : j < ts.length := by omega
      obtain ⟨t, ht⟩ : ∃ t, ts[j]? = some t := ⟨ts[j], List.getElem?_eq_getElem hjn⟩
      obtain ⟨g1, g2⟩ := hnew j t ht
      rw [g1] at hu
      cases hu
      refine ⟨?_, fun _ => rfl, ?_⟩
      · show s._uac_tsx.length + j < _
        omega
      · show s1._uac_tsx[s._uac_tsx.length + j]? = _
        rw [g2]
        rfl
  · intro i p hi
    by_cases hik : i < s._uac_tsx.length
    · rw [hs, List.getElem?_append_left hik] at hi
      obtain ⟨u, hu, g1, g2⟩ := h2 i p hi
      have hp : p < s.heap.length := by
        rcases List.getElem?_eq_some.1 hu with ⟨hlt, _⟩
        exact hlt
      exact ⟨u, by rw [hh, List.getElem?_append_left hp]; exact hu, g1, g2⟩
    · have hilt : i < s1._uac_tsx.length := by
        rcases List.getElem?_eq_some.1 hi with ⟨hlt, _⟩
        exact hlt
      obtain ⟨j, rfl⟩ : ∃ j, i = s._uac_tsx.length + j := ⟨i - s._uac_tsx.length, by omega⟩
      have hjn : j < ts.length := by omega
      obtain ⟨t, ht⟩ : ∃ t, ts[j]? = some t := ⟨ts[j], List.getElem?_eq_getElem hjn⟩
      obtain ⟨g1, g2⟩ := hnew j t ht
      rw [g2] at hi
      have hp : s.heap.length + j = p := by simpa using hi
      subst hp
      exact ⟨_, g1, rfl, rfl⟩

/-- The link invariant is kept when a child object and its slot are appended:
the child has the index of the new slot, and either its parent link is set, it
does not await destruction and the slot holds it, or its parent link is null and
so is the slot. -/
theorem links_ok_snoc (s : UASTsx) (c : UACTsx) (o : Option Nat) (hl : s.links_ok = true)
    (hidx : c._index = s._uac_tsx.length)
    (hc : (c._uas_tsx = true ∧ c._pending_destroy = false ∧ o = some s.heap.length) ∨
      (c._uas_tsx = false ∧ o = none)) :
    ({ s with heap := s.heap ++ [c], _uac_tsx := s._uac_tsx ++ [o] } : UASTsx).links_ok =
      true := by
  obtain ⟨h1, h2⟩ := (links_ok_iff s).1 hl
  rw [links_ok_iff]
  constructor
  · intro p u hu
    simp only at hu ⊢
    by_cases hp : p < s.heap.length
    · rw [List.getElem?_append_left hp] at hu
      obtain ⟨g1, g2, g3⟩ := h1 p u hu
      refine ⟨by simp only [List.length_append, List.length_singleton]; omega, g2, ?_⟩
      rw [List.getElem?_append_left g1]
      exact g3
    · have hplt : p < (s.heap ++ [c]).length := by
        rcases List.getElem?_eq_some.1 hu with ⟨hlt, _⟩
        exact hlt
      have hpe : p = s.heap.length := by
        simp only [List.length_append, List.length_singleton] at hplt
        omega
      subst hpe
      rw [getElem?_concat] at hu
      cases hu
      refine ⟨by simp only [List.length_append, List.length_singleton]; omega, ?_, ?_⟩
      · intro hlk
        rcases hc with ⟨_, g, _⟩ | ⟨g, _⟩
        · exact g
        · rw [g] at hlk; cases hlk
      · rw [hidx, getElem?_concat]
        rcases hc with ⟨g1, _, g3⟩ | ⟨g1, g3⟩
        · rw [g1, g3]; rfl
        · rw [g1, g3]; rfl
  · intro i p hi
    simp only at hi ⊢
    by_cases hik : i < s._uac_tsx.length
    · rw [List.getElem?_append_left hik] at hi
      obtain ⟨u, hu, g1, g2⟩ := h2 i p hi
      have hp : p < s.heap.length := by
        rcases List.getElem?_eq_some.1 hu with ⟨hlt, _⟩
        exact hlt
      exact ⟨u, by rw [List.getElem?_append_left hp]; exact hu, g1, g2⟩
    · have hilt : i < (s._uac_tsx ++ [o]).length := by
        rcases List.getElem?_eq_some.1 hi with ⟨hlt, _⟩
        exact hlt
      have hie : i = s._uac_tsx.length := by
        simp only [List.length_append, List.length_singleton] at hilt
        omega
      subst hie
      rw [getElem?_concat] at hi
      rcases hc with ⟨g1, _, g3⟩ | ⟨_, g3⟩
      · rw [g3] at hi
        have hp : s.heap.length = p := by simpa using hi
        subst hp
        exact ⟨c, getElem?_concat _ _ _, hidx, g1⟩
      · rw [g3] at hi
        simp at hi

/-- The sending loop of `init_uac_transactions` returns, whatever the results of
`pjsip_tsx_send_msg`, and leaves the link invariant in place: a child whose
request is sent is in its slot, a child whose sending failed is destroyed and
its slot is null. -/
theorem send_loop_links (req : TxRequest) (send_status : Nat → Int) :
    ∀ (targets : List Target) (s : UASTsx) (H : List UACTsx),
      s.heap = H ++ dispatched_children req s._uac_tsx.length targets →
      ({ s with heap := H } : UASTsx).links_ok = true →
      ∃ s', UASTsx.send_loop send_status (List.range' H.length targets.length) s =
          Except.ok s' ∧ s'.links_ok = true := by
  intro targets
  induction targets with
  | nil =>
    intro s H hheap hl
    simp only [dispatched_children, List.append_nil] at hheap
    exact ⟨s, by simp [UASTsx.send_loop],
      (links_ok_congr ({ s with heap := H } : UASTsx) s hheap rfl).trans hl⟩
  | cons target rest ih =>
    intro s H hheap hl
    simp only [dispatched_children] at hheap
    have hu : ({ s with _uac_tsx := s._uac_tsx ++ [some H.length] } : UASTsx).heap[H.length]? =
        some (dispatched_child req s._uac_tsx.length target) := by
      show s.heap[H.length]? = _
      rw [hheap]
      exact getElem?_concat H _ _
    by_cases hst : send_status H.length = PJ_SUCCESS
    · have hsend := send_request_ok
        ({ s with _uac_tsx := s._uac_tsx ++ [some H.length] } : UASTsx) H.length
        (dispatched_child req s._uac_tsx.length target) (apply_target req target) hu rfl rfl
      have hl1 := links_ok_snoc ({ s with heap := H } : UASTsx)
        (sent_child (dispatched_child req s._uac_tsx.length target)) (some H.length) hl rfl
        (Or.inl ⟨rfl, rfl, rfl⟩)
      have hstep : UASTsx.send_loop send_status
            (List.range' H.length (target :: rest).length) s =
          UASTsx.send_loop send_status
            (List.range' (H ++ [sent_child (dispatched_child req s._uac_tsx.length target)]
              ).length rest.length)
            { s with _uac_tsx := s._uac_tsx ++ [some H.length],
                     out := s.out ++ [Effect.uac_send_msg H.length (apply_target req target)],
                     heap := (H ++ [sent_child (dispatched_child req s._uac_tsx.length target)]) ++
                       dispatched_children req (s._uac_tsx.length + 1) rest,
                     _pending_targets := s._pending_targets + 1 } := by
        dsimp only at hsend
        simp only [List.length_cons, List.range'_succ, UASTsx.send_loop, hst, hsend,
          Except.bind]
        simp only [hheap, set_concat, List.length_append, List.length_singleton,
          List.append_assoc, List.singleton_append]
      obtain ⟨s', hrun, hl'⟩ := ih
        ({ s with _uac_tsx := s._uac_tsx ++ [some H.length],
                  out := s.out ++ [Effect.uac_send_msg H.length (apply_target req target)],
                  heap := (H ++ [sent_child (dispatched_child req s._uac_tsx.length target)]) ++
                    dispatched_children req (s._uac_tsx.length + 1) rest,
                  _pending_targets := s._pending_targets + 1 } : UASTsx)
        (H ++ [sent_child (dispatched_child req s._uac_tsx.length target)])
        (by
          show _ = _ ++ dispatched_children req (s._uac_tsx ++ [some H.length]).length rest
          rw [List.length_append, List.length_singleton])
        ((links_ok_congr _ _ rfl rfl).trans hl1)
      exact ⟨s', hstep.trans hrun, hl'⟩
    · have hsend := send_request_failed
        ({ s with _uac_tsx := s._uac_tsx ++ [some H.length] } : UASTsx) H.length
        (dispatched_child req s._uac_tsx.length target) (apply_target req target)
        (send_status H.length) hst hu rfl rfl rfl rfl
        (by
          show s._uac_tsx.length < (s._uac_tsx ++ [some H.length]).length
          simp)
      have hl1 := links_ok_snoc ({ s with heap := H } : UASTsx)
        (unsent_child (dispatched_child req s._uac_tsx.length target)) none hl rfl
        (Or.inr ⟨rfl, rfl⟩)
      have hset : (s._uac_tsx ++ [some H.length]).set s._uac_tsx.length none =
          s._uac_tsx ++ [none] := set_concat s._uac_tsx _ _ []
      have hstep : UASTsx.send_loop send_status
            (List.range' H.length (target :: rest).length) s =
          UASTsx.send_loop send_status
            (List.range' (H ++ [unsent_child (dispatched_child req s._uac_tsx.length target)]
              ).length rest.length)
            { s with _uac_tsx := s._uac_tsx ++ [none],
                     heap := (H ++ [unsent_child (dispatched_child req s._uac_tsx.length target)]) ++
                       dispatched_children req (s._uac_tsx.length + 1) rest,
                     _pending_targets := s._pending_targets + 1 } := by
        dsimp only at hsend
        simp only [List.length_cons, List.range'_succ, UASTsx.send_loop, hsend, Except.bind]
        simp only [hheap, set_concat, List.length_append, List.length_singleton,
          List.append_assoc, List.singleton_append, dispatched_child, UACTsx.new, hset]
      obtain ⟨s', hrun, hl'⟩ := ih
        ({ s with _uac_tsx := s._uac_tsx ++ [none],
                  heap := (H ++ [unsent_child (dispatched_child req s._uac_tsx.length target)]) ++
                    dispatched_children req (s._uac_tsx.length + 1) rest,
                  _pending_targets := s._pending_targets + 1 } : UASTsx)
        (H ++ [unsent_child (dispatched_child req s._uac_tsx.length target)])
        (by
          show _ = _ ++ dispatched_children req (s._uac_tsx ++ [none]).length rest
          rw [List.length_append, List.length_singleton])
        ((links_ok_congr _ _ rfl rfl).trans hl1)
      exact ⟨s', hstep.trans hrun, hl'⟩

/-- When every allocation succeeds `init_uac_transactions` returns success,
whatever the results of `pjsip_tsx_send_msg`, and keeps the link invariant. -/
theorem init_uac_transactions_links (s : UASTsx) (oracle : Nat → Alloc)
    (send_status : Nat → Int) (tsx : pjsip_transaction) (req : TxRequest)
    (htsx : s._tsx = some tsx) (hreq : s._req = some req)
    (hne : s._targets ≠ []) (hor : ∀ i, oracle i = Alloc.created PJ_SUCCESS)
    (hl : s.links_ok = true) :
    ∃ s', s.init_uac_transactions oracle send_status = Except.ok (PJ_SUCCESS, s') ∧
      s'.links_ok = true := by
  have ha := alloc_loop_ok oracle hor req s._targets s._uac_tsx.length s [] PJ_EUNKNOWN hreq
  obtain ⟨s', hs, hl'⟩ := send_loop_links req send_status s._targets
    ({ s with _targets := [],
              heap := s.heap ++ dispatched_children req s._uac_tsx.length s._targets } : UASTsx)
    s.heap rfl ((links_ok_congr s _ rfl rfl).trans hl)
  simp only [hne, if_false, List.nil_append] at ha
  refine ⟨s', ?_, hl'⟩
  unfold UASTsx.init_uac_transactions
  rw [htsx] at ha hs ⊢
  simp only [ha, Except.bind, if_true, hs]

/-- C28: the slot and back-link invariant. After a successful
`init_uac_transactions` on a `UASTsx` whose slots and child objects satisfy the
link invariant (a `UASTsx` without children does), whatever the results of
`pjsip_tsx_send_msg` for the new children, in every state that a sequence of
calls of `on_new_client_response`, `on_client_not_responding`,
`cancel_pending_uac_tsx` and `dissociate` returns: every non-null slot `i` holds
a child object whose index is `i` and whose parent link is set; every child
object with a null parent link has a null slot at its index; and `dissociate`
nulls the parent link and the slot of its child and changes no other slot. -/
theorem slot_back_link_invariant (status_text : Int → String) (s0 : UASTsx)
    (oracle : Nat → Alloc) (send_status : Nat → Int) (tsx : pjsip_transaction)
    (req : TxRequest)
    (htsx : s0._tsx = some tsx) (hreq : s0._req = some req)
    (hn : 1 ≤ s0._targets.length) (hor : ∀ i, oracle i = Alloc.created PJ_SUCCESS)
    (hl : s0.links_ok = true) :
    ∃ s, s0.init_uac_transactions oracle send_status = Except.ok (PJ_SUCCESS, s) ∧
      ∀ (cs : List Call) (s' : UASTsx), s.calls status_text cs = Except.ok s' →
        (∀ (i p : Nat), s'._uac_tsx[i]? = some (some p) →
          ∃ u, s'.heap[p]? = some u ∧ u._index = i ∧ u._uas_tsx = true) ∧
        (∀ (p : Nat) (u : UACTsx), s'.heap[p]? = some u → u._uas_tsx = false →
          s'._uac_tsx[u._index]? = some none) ∧
        (∀ (uac : Nat) (s'' : UASTsx), s'.dissociate uac = Except.ok s'' →
          ∃ u, s'.heap[uac]? = some u ∧
            s''.heap[uac]? = some { u with _uas_tsx := false } ∧
            s''._uac_tsx[u._index]? = some none ∧
            ∀ i, i ≠ u._index → s''._uac_tsx[i]? = s'._uac_tsx[i]?) := by
  have hne : s0._targets ≠ [] := by
    intro h
    rw [h] at hn
    simp at hn
  obtain ⟨s, hs, hl1⟩ :=
    init_uac_transactions_links s0 oracle send_status tsx req htsx hreq hne hor hl
  refine ⟨s, hs, ?_⟩
  intro cs s' hrun
  have hl' := links_ok_calls status_text cs _ s' hl1 hrun
  obtain ⟨h1, h2⟩ := (links_ok_iff s').1 hl'
  refine ⟨h2, ?_, ?_⟩
  · intro p u hu hlink
    obtain ⟨_, _, g⟩ := h1 p u hu
    rw [g, hlink]
    rfl
  · intro uac s'' hd
    obtain ⟨u, hu, hidx, rfl⟩ := dissociate_eq_ok s' s'' uac hd
    have hlt : uac < s'.heap.length := by
      rcases List.getElem?_eq_some.1 hu with ⟨hlt, _⟩
      exact hlt
    refine ⟨u, hu, List.getElem?_set_self hlt, List.getElem?_set_self hidx, ?_⟩
    intro i hi
    exact List.getElem?_set_ne (fun e => hi e.symm)

theorem slot_back_link_invariant_witness :
    ∃ s, queued_state.init_uac_transactions (fun _ => Alloc.created PJ_SUCCESS)
        fail_first_send = Except.ok (PJ_SUCCESS, s) ∧
      ∀ (cs : List Call) (s' : UASTsx), s.calls sample_status_text cs = Except.ok s' →
        (∀ (i p : Nat), s'._uac_tsx[i]? = some (some p) →
          ∃ u, s'.heap[p]? = some u ∧ u._index = i ∧ u._uas_tsx = true) ∧
        (∀ (p : Nat) (u : UACTsx), s'.heap[p]? = some u → u._uas_tsx = false →
          s'._uac_tsx[u._index]? = some none) ∧
        (∀ (uac : Nat) (s'' : UASTsx), s'.dissociate uac = Except.ok s'' →
          ∃ u, s'.heap[uac]? = some u ∧
            s''.heap[uac]? = some { u with _uas_tsx := false } ∧
            s''._uac_tsx[u._index]? = some none ∧
            ∀ i, i ≠ u._index → s''._uac_tsx[i]? = s'._uac_tsx[i]?) :=
  slot_back_link_invariant sample_status_text queued_state (fun _ => Alloc.created PJ_SUCCESS)
    fail_first_send
    { method := pjsip_method_e.INVITE } (sample_request pjsip_method_e.INVITE)
    (by decide) (by decide) (by decide) (fun _ => rfl) (by decide)

/-- A sequence of calls on an INVITE forked to three children: a 486 from
child 0, a cancellation without dissociation, a timeout of child 1, and
`dissociate` on child 0 again. Child 2 alone is still in its slot. -/
theorem calls_sample :
    ∃ s', (fork_state pjsip_method_e.INVITE false 3).calls sample_status_text
        [Call.on_new_client_response 0 (rx 486 7), Call.cancel_pending_uac_tsx 0 false,
          Call.on_client_not_responding 1, Call.dissociate 0] = Except.ok s' ∧
      s'._uac_tsx = [none, none, some 2] ∧
      s'.heap.map (fun u => u._uas_tsx) = [false, false, true] ∧ s'.links_ok = true :=
  ⟨_, rfl, by decide, by decide, by decide⟩

/-! ## The count of pending children -/

theorem children_length_set (slots : List (Option Nat)) :
    ∀ (i p : Nat), slots[i]? = some (some p) →
      ((slots.set i none).filterMap id).length + 1 = (slots.filterMap id).length := by
  induction slots with
  | nil => intro i p h; simp at h
  | cons a rest ih =>
    intro i p h
    cases i with
    | zero =>
      simp only [List.getElem?_cons_zero, Option.some.injEq] at h
      subst h
      simp [List.filterMap_cons]
    | succ i =>
      simp only [List.getElem?_cons_succ] at h
      have := ih i p h
      cases a with
      | none => simpa [List.filterMap_cons] using this
      | some q => simpa [List.filterMap_cons] using this

/-- The count of pending children: `_pending_targets` is the number of non-null
slots, and the link invariant holds. -/
theorem pending_ok_of_dissociated (s s' : UASTsx) (uac : Nat) (u : UACTsx)
    (hl : s.links_ok = true) (hp : s._pending_targets = s.children.length)
    (hu : s.heap[uac]? = some u) (hlink : u._uas_tsx = true)
    (hs : s'._uac_tsx = s._uac_tsx.set u._index none)
    (hpend : s'._pending_targets = s._pending_targets - 1) :
    s'._pending_targets = s'.children.length := by
  obtain ⟨h1, _⟩ := (links_ok_iff s).1 hl
  obtain ⟨_, _, hslot⟩ := h1 uac u hu
  rw [hlink] at hslot
  simp only [if_true] at hslot
  have hc := children_length_set s._uac_tsx u._index uac hslot
  unfold UASTsx.children at hp ⊢
  rw [hpend, hs, hp]
  omega

/-- Every step keeps the link invariant and the count of pending children. -/
theorem pending_ok_step (status_text : Int → String) (s s' : UASTsx) (c : Step)
    (hl : s.links_ok = true) (hp : s._pending_targets = s.children.length)
    (h : s.step status_text c = Except.ok s') :
    s'.links_ok = true ∧ s'._pending_targets = s'.children.length := by
  have hsame : ∀ t : UASTsx, t.heap = s.heap → t._uac_tsx = s._uac_tsx →
      t._pending_targets = s._pending_targets →
      t.links_ok = true ∧ t._pending_targets = t.children.length := by
    intro t hh hs hpd
    refine ⟨(links_ok_congr s t hh hs).trans hl, ?_⟩
    unfold UASTsx.children at hp ⊢
    rw [hpd, hs, hp]
  cases c with
  | event e =>
    simp only [UASTsx.step, UACTsx.report] at h
    cases hu : s.heap[e.child]? with
    | none => rw [hu] at h; cases h
    | some u =>
      rw [hu] at h
      simp only at h
      by_cases hlink : u._uas_tsx = true
      · rw [if_pos hlink] at h
        cases e with
        | response uac rdata =>
          rcases on_new_client_response_links s s' uac rdata h with
            ⟨hh, hs, hpd⟩ | ⟨v, hv, hi, hh, hs, hpd⟩
          · exact hsame s' hh hs hpd
          · have huv : u = v := by
              have : s.heap[uac]? = some u := hu
              rw [this] at hv
              simpa using hv
            subst huv
            exact ⟨links_ok_of_dissociated s s' uac u hl hv hi hh hs,
              pending_ok_of_dissociated s s' uac u hl hp hv hlink hs hpd⟩
        | not_responding uac =>
          rcases on_client_not_responding_links s s' uac h with
            ⟨_, rfl⟩ | ⟨v, hv, hi, hh, hs, hpd⟩
          · exact ⟨hl, hp⟩
          · have huv : u = v := by
              have : s.heap[uac]? = some u := hu
              rw [this] at hv
              simpa using hv
            subst huv
            exact ⟨links_ok_of_dissociated s s' uac u hl hv hi hh hs,
              pending_ok_of_dissociated s s' uac u hl hp hv hlink hs hpd⟩
      · rw [if_neg hlink] at h
        cases h
        exact ⟨hl, hp⟩
  | cancel st_code =>
    simp only [UASTsx.step, UASTsx.cancel_pending_uac_tsx] at h
    cases hloop : UASTsx.cancel_loop status_text st_code false
        (List.range (UASTsx.enter_context s)._uac_tsx.length) (UASTsx.enter_context s) with
    | error e => rw [hloop] at h; cases h
    | ok sl =>
      rw [hloop] at h
      cases h
      have hle : (UASTsx.enter_context s).links_ok = true :=
        (links_ok_congr s _ rfl rfl).trans hl
      obtain ⟨_, g2, g3⟩ := links_ok_cancel_loop status_text st_code false _ _ _ hle hloop
      obtain ⟨g4, g5⟩ := g3 rfl
      exact hsame _ (by rw [exit_context_heap, g4]; rfl) (by rw [exit_context_slots, g5]; rfl)
        (by rw [exit_context_pending, g2]; rfl)

/-- Every sequence of steps keeps the link invariant and the count of pending
children. -/
theorem pending_ok_steps (status_text : Int → String) :
    ∀ (cs : List Step) (s s' : UASTsx), s.links_ok = true →
      s._pending_targets = s.children.length →
      UASTsx.steps status_text s cs = Except.ok s' →
      s'.links_ok = true ∧ s'._pending_targets = s'.children.length := by
  intro cs
  induction cs with
  | nil =>
    intro s s' hl hp h
    simp only [UASTsx.steps] at h
    cases h
    exact ⟨hl, hp⟩
  | cons c rest ih =>
    intro s s' hl hp h
    simp only [UASTsx.steps] at h
    cases hc : s.step status_text c with
    | error e => rw [hc] at h; cases h
    | ok s1 =>
      rw [hc] at h
      obtain ⟨g1, g2⟩ := pending_ok_step status_text s s1 c hl hp hc
      exact ih s1 s' g1 g2 h

/-- C29 (counterexample): every allocation succeeds for the two queued targets
and `pjsip_tsx_send_msg` fails for the first child. `init_uac_transactions`
returns success with `_pending_targets` 2 and one non-null slot; when the other
child then answers 486, `_pending_targets` is 1 with no non-null slot, and no
final response is sent. -/
theorem failed_send_is_counted_as_pending :
    queued_state.links_ok = true ∧
    queued_state._pending_targets = queued_state.children.length ∧
    ∃ s, queued_state.init_uac_transactions (fun _ => Alloc.created PJ_SUCCESS)
        fail_first_send = Except.ok (PJ_SUCCESS, s) ∧
      s._pending_targets = 2 ∧ (s._uac_tsx.filter fun o => o.isSome).length = 1 ∧
      ∃ s', s.steps sample_status_text [Step.event (ChildEvent.response 1 (rx 486 7))] =
          Except.ok s' ∧
        s'._pending_targets = 1 ∧ (s'._uac_tsx.filter fun o => o.isSome).length = 0 ∧
        uas_finals s'.out = [] :=
  ⟨by decide, by decide, _, rfl, by decide, by decide, _, rfl, by decide, by decide,
    by decide⟩

/-- C29 (amended): the pending-count invariant. After a successful
`init_uac_transactions` in which `pjsip_tsx_send_msg` succeeded for every child,
on a `UASTsx` that satisfies the link invariant and whose `_pending_targets`
counts its non-null slots (a `UASTsx` without children does), in every state
that a sequence of child reports returns, responses of any status and timeouts
from any children in any order, with calls of `cancel_pending_uac_tsx` without
dissociation in between: `_pending_targets` is the number of non-null child
slots, and so is not negative. A child reports the way `UACTsx::on_tsx_state`
does it, only while its parent link is set. -/
theorem pending_count_invariant (status_text : Int → String) (s0 : UASTsx)
    (oracle : Nat → Alloc) (send_status : Nat → Int) (tsx : pjsip_transaction)
    (req : TxRequest)
    (htsx : s0._tsx = some tsx) (hreq : s0._req = some req)
    (hn : 1 ≤ s0._targets.length) (hor : ∀ i, oracle i = Alloc.created PJ_SUCCESS)
    (hst : ∀ p, send_status p = PJ_SUCCESS)
    (hl : s0.links_ok = true) (hp : s0._pending_targets = s0.children.length) :
    ∃ s, s0.init_uac_transactions oracle send_status = Except.ok (PJ_SUCCESS, s) ∧
      ∀ (cs : List Step) (s' : UASTsx), s.steps status_text cs = Except.ok s' →
        s'._pending_targets = (s'._uac_tsx.filter fun o => o.isSome).length ∧
        s'._pending_targets = s'.children.length ∧ 0 ≤ s'._pending_targets := by
  have hne : s0._targets ≠ [] := by
    intro h
    rw [h] at hn
    simp at hn
  obtain ⟨s1, hs1, hh1, hsl1, hpd1⟩ : ∃ s1 : UASTsx,
      s0.init_uac_transactions oracle send_status = Except.ok (PJ_SUCCESS, s1) ∧
      s1.heap = s0.heap ++
        (dispatched_children req s0._uac_tsx.length s0._targets).map sent_child ∧
      s1._uac_tsx =
        s0._uac_tsx ++ (List.range' s0.heap.length s0._targets.length).map some ∧
      s1._pending_targets = s0._pending_targets + s0._targets.length :=
    ⟨_, init_uac_transactions_ok s0 oracle send_status tsx req htsx hreq hne hor hst, rfl, rfl,
      rfl⟩
  refine ⟨s1, hs1, ?_⟩
  intro cs s' hrun
  have hl1 := links_ok_dispatch s0 s1 req s0._targets hl hh1 hsl1
  have hp1 : s1._pending_targets = s1.children.length := by
    unfold UASTsx.children at hp ⊢
    rw [hpd1, hsl1, hp]
    simp [List.filterMap_append, List.filterMap_map]
  obtain ⟨_, g2⟩ := pending_ok_steps status_text cs _ s' hl1 hp1 hrun
  have hcount : s'.children.length = (s'._uac_tsx.filter fun o => o.isSome).length := by
    unfold UASTsx.children
    generalize s'._uac_tsx = l
    induction l with
    | nil => rfl
    | cons a rest ih =>
      cases a with
      | none => simpa [List.filterMap_cons] using ih
      | some q => simpa [List.filterMap_cons] using ih
  refine ⟨by rw [g2, hcount], g2, ?_⟩
  rw [g2]
  exact Int.natCast_nonneg _

theorem pending_count_invariant_witness :
    ∃ s, queued_state.init_uac_transactions (fun _ => Alloc.created PJ_SUCCESS)
        (fun _ => PJ_SUCCESS) = Except.ok (PJ_SUCCESS, s) ∧
      ∀ (cs : List Step) (s' : UASTsx), s.steps sample_status_text cs = Except.ok s' →
        s'._pending_targets = (s'._uac_tsx.filter fun o => o.isSome).length ∧
        s'._pending_targets = s'.children.length ∧ 0 ≤ s'._pending_targets :=
  pending_count_invariant sample_status_text queued_state (fun _ => Alloc.created PJ_SUCCESS)
    (fun _ => PJ_SUCCESS)
    { method := pjsip_method_e.INVITE } (sample_request pjsip_method_e.INVITE)
    (by decide) (by decide) (by decide) (fun _ => rfl) (fun _ => rfl) (by decide) (by decide)

/-- A sequence of steps on an INVITE forked to three children: a 180 and then a
486 from child 0, a second 486 from child 0, which it no longer reports, a
cancellation without dissociation, and a timeout of child 1. One child is
pending and one slot is non-null. -/
theorem steps_sample :
    ∃ s', (fork_state pjsip_method_e.INVITE false 3).steps sample_status_text
        [Step.event (ChildEvent.response 0 (rx 180 6)),
          Step.event (ChildEvent.response 0 (rx 486 7)),
          Step.event (ChildEvent.response 0 (rx 486 8)), Step.cancel 0,
          Step.event (ChildEvent.not_responding 1)] = Except.ok s' ∧
      s'._uac_tsx = [none, none, some 2] ∧ s'._pending_targets = 1 ∧
      s'._best_rsp = some (fwd_of (rx 486 7)) :=
  ⟨_, rfl, by decide, by decide, by decide⟩

/-! ## The null best response -/

/-- C30: evaluation at the failing input. A request is forked to two children
and child 0 answers 200: the 200 is sent, `_best_rsp` is null, the stack
transaction is still set and child 1 is still pending. When child 1 then times
out, `on_client_not_responding` brings `_pending_targets` to zero and
`on_final_response` reads the status code of the null `_best_rsp`. It happens
for an INVITE as for another method, with the events delivered by
`UACTsx::on_tsx_state`. When child 1 answers instead, its response is stored
first and no null pointer is read. -/
theorem best_rsp_null_after_200_then_timeout :
    (∃ s1, UACTsx.on_tsx_state (fork_state pjsip_method_e.OTHER false 2) 0
        pjsip_tsx_state_e.COMPLETED (TsxEvent.RX_MSG (rx 200 7)) = Except.ok s1 ∧
      uas_finals s1.out = [fwd_of (rx 200 7)] ∧
      s1._tsx = some { method := pjsip_method_e.OTHER } ∧ s1._best_rsp = none ∧
      s1._pending_targets = 1 ∧ s1.children = [1] ∧
      UACTsx.on_tsx_state s1 1 pjsip_tsx_state_e.TERMINATED TsxEvent.TIMER =
        Except.error Fault.null_deref ∧
      s1.steps sample_status_text [Step.event (ChildEvent.not_responding 1)] =
        Except.error Fault.null_deref ∧
      ∃ s2, UACTsx.on_tsx_state s1 1 pjsip_tsx_state_e.COMPLETED
          (TsxEvent.RX_MSG (rx 404 8)) = Except.ok s2) ∧
    (∃ s1, UACTsx.on_tsx_state (fork_state pjsip_method_e.INVITE false 2) 0
        pjsip_tsx_state_e.TERMINATED (TsxEvent.RX_MSG (rx 200 7)) = Except.ok s1 ∧
      s1._tsx = some { method := pjsip_method_e.INVITE } ∧ s1._best_rsp = none ∧
      s1._pending_targets = 1 ∧ s1.children = [1] ∧
      UACTsx.on_tsx_state s1 1 pjsip_tsx_state_e.TERMINATED TsxEvent.TRANSPORT_ERROR =
        Except.error Fault.null_deref) :=
  ⟨⟨_, rfl, by decide, by decide, by decide, by decide, by decide, rfl, rfl, _, rfl⟩,
    ⟨_, rfl, by decide, by decide, by decide, by decide, rfl⟩⟩

end BasicProxy

namespace Authentication

/-! # Theorems on the authentication filter -/

/-- The challenge path never admits a request. -/
theorem challenge_outcome_ne_admitted (env : Env) (store : List AuthChallenge)
    (impi impu : String) (aka : Bool) (autn : Option String) (stale : Bool)
    (fn fo : String) :
    (challenge env store impi impu aka autn stale fn fo).outcome ≠ Outcome.admitted := by
  unfold challenge
  dsimp only
  split
  · simp
  · simp
  · split_ifs
    · split <;> simp
    · split <;> simp

/-- The verification path admits a request only for a stored challenge and the
expected response. -/
theorem verify_admitted (env : Env) (store : List AuthChallenge) (method impu : String)
    (a : Authorization) (response : String) (fn fo : String)
    (h : (verify env store method impu a response fn fo).outcome = Outcome.admitted) :
    ∃ ch, lookup store (impi_of env impu a) a.nonce = some ch ∧
      expected_response env ch a method = some response := by
  unfold verify at h
  dsimp only at h
  split at h
  · exact absurd h (challenge_outcome_ne_admitted _ _ _ _ _ _ _ _ _)
  · rename_i ch hch
    split_ifs at h with h1 h2 h3
    all_goals first
      | exact ⟨ch, hch, h3⟩
      | exact absurd h (challenge_outcome_ne_admitted _ _ _ _ _ _ _ _ _)

/-- The verification path never admits a response other than the expected one
for the stored challenge, and answers it 403 once the comparison is reached: a
nonce-count not used before, the stored realm. -/
theorem verify_mismatch (env : Env) (store : List AuthChallenge) (method impu : String)
    (a : Authorization) (response : String) (fn fo : String) (ch : AuthChallenge)
    (hch : lookup store (impi_of env impu a) a.nonce = some ch)
    (hne : expected_response env ch a method ≠ some response) :
    (verify env store method impu a response fn fo).outcome ≠ Outcome.admitted ∧
    (a.nc ∉ ch.nc_used → a.realm = ch.realm →
      (verify env store method impu a response fn fo).outcome = Outcome.rejected 403 none) := by
  constructor
  · intro h
    obtain ⟨ch2, h2, h3⟩ := verify_admitted _ _ _ _ _ _ _ _ h
    rw [hch] at h2
    cases h2
    exact hne h3
  · intro hnc hrealm
    unfold verify
    dsimp only
    rw [hch]
    simp [hnc, hrealm, hne]

/-- The filter on a header, its `auts` aside, admits a request only by the bypass
for an asserted integrity or for the expected response. -/
theorem check_header_admitted (env : Env) (store : List AuthChallenge) (req : Request)
    (a : Authorization) (fn fo : String)
    (h : (check_header env store req a fn fo).outcome = Outcome.admitted) :
    (a.response = none ∧
      (a.integrity_protected = some "yes" ∨ a.integrity_protected = some "tls-yes" ∨
        a.integrity_protected = some "ip-assoc-yes")) ∨
    (∃ response ch, a.response = some response ∧
      lookup store (impi_of env req.impu a) a.nonce = some ch ∧
      expected_response env ch a req.method = some response) := by
  unfold check_header at h
  cases hresp : a.response with
  | none =>
    left
    rw [hresp] at h
    dsimp only at h
    split_ifs at h with hs
    · exact ⟨rfl, by simpa [integrity_asserted] using hs⟩
    · exact absurd h (challenge_outcome_ne_admitted _ _ _ _ _ _ _ _ _)
  | some response =>
    right
    rw [hresp] at h
    dsimp only at h
    obtain ⟨ch, h1, h2⟩ := verify_admitted _ _ _ _ _ _ _ _ h
    exact ⟨response, ch, rfl, h1, h2⟩

/-- The resynchronisation admits a request only where the filter on the header,
its `auts` aside, does. -/
theorem resync_admitted (env : Env) (store : List AuthChallenge) (req : Request)
    (a : Authorization) (auts : String) (fn fo : String)
    (h : (resync env store req a auts fn fo).outcome = Outcome.admitted) :
    (check_header env store req a fn fo).outcome = Outcome.admitted := by
  unfold resync at h
  split_ifs at h with h1
  · split at h
    · split_ifs at h with h2
      · exact absurd h (challenge_outcome_ne_admitted _ _ _ _ _ _ _ _ _)
      · exact h
    · exact h

/-- The filter on a REGISTER on the S-CSCF port with an Authorization header
without `auts`. -/
theorem auth_filter_check_header (env : Env) (store : List AuthChallenge) (req : Request)
    (a : Authorization) (fn fo : String)
    (hport : req.port = env.scscf_port) (hmethod : req.method = "REGISTER")
    (hauth : req.authorization = some a) (hauts : a.auts = none) :
    auth_filter env store req fn fo = check_header env store req a fn fo := by
  have hf : ¬ (req.port ≠ env.scscf_port ∨ req.method ≠ "REGISTER") := by
    simp [hport, hmethod]
  unfold auth_filter
  rw [if_neg hf, hauth]
  dsimp only
  rw [hauts]

/-- The filter on a REGISTER on the S-CSCF port with an Authorization header that
contains `auts`. -/
theorem auth_filter_resync (env : Env) (store : List AuthChallenge) (req : Request)
    (a : Authorization) (auts : String) (fn fo : String)
    (hport : req.port = env.scscf_port) (hmethod : req.method = "REGISTER")
    (hauth : req.authorization = some a) (hauts : a.auts = some auts) :
    auth_filter env store req fn fo = resync env store req a auts fn fo := by
  have hf : ¬ (req.port ≠ env.scscf_port ∨ req.method ≠ "REGISTER") := by
    simp [hport, hmethod]
  unfold auth_filter
  rw [if_neg hf, hauth]
  dsimp only
  rw [hauts]

set_option maxRecDepth 20000 in
/-- C17 (counterexample): a response that differs from the digest expected for
the stored challenge is not always answered 403. The second message of
`DigestAuthFailWrongRealm` with the response `00000000000000000000000000000000`
is answered 401 with a new challenge, the realm being compared before the
response; and the second message of `AKAAuthFailBadResponse` with the `auts` of
`AKAAuthResyncSuccess` is answered 401 by the resynchronisation. -/
theorem wrong_response_is_answered_401 :
    lookup digest_step1.store "6505550001@homedomain" "n1" = some digest_challenge1 ∧
    expected_response (test_env hss_digest) digest_challenge1
      { username := "6505550001@homedomain", realm := "otherdomain", nonce := "n1",
        uri := "sip:homedomain", response := some "00000000000000000000000000000000",
        opq := "o1", nc := "00000001", cnonce := "8765432187654321", qop := "auth",
        auts := none, integrity_protected := none, algorithm := "MD5" } "REGISTER" ≠
      some "00000000000000000000000000000000" ∧
    (auth_filter (test_env hss_digest) digest_step1.store
      ((wrong_realm_msg2 "00000000000000000000000000000000").get sample_md5 5058)
      "n2" "o2").outcome = Outcome.rejected 401 (some
        { realm := "homedomain", nonce := "n2", opq := "o2", qop := "auth",
          algorithm := "MD5", stale := false, ck := none, ik := none }) ∧
    lookup aka_step1.store "6505550001@homedomain" "87654321876543218765432187654321" =
      some aka_challenge1 ∧
    expected_response (test_env hss_aka) aka_challenge1
      { username := "6505550001@homedomain", realm := "homedomain",
        nonce := "87654321876543218765432187654321", uri := "sip:homedomain",
        response := some "00000000000000000000000000000000", opq := "o1",
        nc := "00000001", cnonce := "8765432187654321", qop := "auth",
        auts := some "32132132132132", integrity_protected := some "yes",
        algorithm := "AKAv1-MD5" } "REGISTER" ≠
      some "00000000000000000000000000000000" ∧
    (auth_filter (test_env hss_aka) aka_step1.store
      (({ aka_bad_msg2 with _auts := "32132132132132" } : AuthenticationMessage).get
        sample_md5 5058)
      "n2" "o2").outcome = Outcome.rejected 401 (some
        { realm := "homedomain", nonce := "12345678123456781234567812345678", opq := "o2",
          qop := "auth", algorithm := "AKAv1-MD5", stale := false,
          ck := some "fedcba9876543210", ik := some "0123456789abcdef" }) := by
  decide

/-- C17 (amended): every REGISTER the authentication filter admits on the S-CSCF
port met one of the two bypass rules (no Authorization header and every Contact
with `sos`; a header asserting integrity without response) or carried a response
equal to the digest expected from the stored challenge for its (IMPI, nonce);
and a response that differs from the expected digest for a stored challenge,
Digest or AKA alike, is never admitted, and is answered 403 when the header has
no `auts`, its nonce-count was not used on the challenge before and its realm is
the stored one. -/
theorem admitted_register_verified_or_bypassed (env : Env) (store : List AuthChallenge)
    (req : Request) (fn fo : String)
    (hport : req.port = env.scscf_port) (hmethod : req.method = "REGISTER") :
    ((auth_filter env store req fn fo).outcome = Outcome.admitted →
      (req.authorization = none ∧ ∀ c ∈ req.contacts_sos, c = true) ∨
      (∃ a, req.authorization = some a ∧ a.response = none ∧
        (a.integrity_protected = some "yes" ∨ a.integrity_protected = some "tls-yes" ∨
          a.integrity_protected = some "ip-assoc-yes")) ∨
      (∃ a response ch, req.authorization = some a ∧ a.response = some response ∧
        lookup store (impi_of env req.impu a) a.nonce = some ch ∧
        expected_response env ch a req.method = some response)) ∧
    (∀ a response ch, req.authorization = some a → a.response = some response →
      lookup store (impi_of env req.impu a) a.nonce = some ch →
      expected_response env ch a req.method ≠ some response →
      (auth_filter env store req fn fo).outcome ≠ Outcome.admitted ∧
      (a.auts = none → a.nc ∉ ch.nc_used → a.realm = ch.realm →
        (auth_filter env store req fn fo).outcome = Outcome.rejected 403 none)) := by
  have hf : ¬ (req.port ≠ env.scscf_port ∨ req.method ≠ "REGISTER") := by
    simp [hport, hmethod]
  have hadm : ∀ a, req.authorization = some a →
      (auth_filter env store req fn fo).outcome = Outcome.admitted →
      (check_header env store req a fn fo).outcome = Outcome.admitted := by
    intro a hauth h
    cases hauts : a.auts with
    | none => rwa [auth_filter_check_header env store req a fn fo hport hmethod hauth hauts] at h
    | some auts =>
      rw [auth_filter_resync env store req a auts fn fo hport hmethod hauth hauts] at h
      exact resync_admitted _ _ _ _ _ _ _ h
  constructor
  · intro h
    cases hauth : req.authorization with
    | none =>
      left
      unfold auth_filter at h
      rw [if_neg hf, hauth] at h
      dsimp only at h
      split_ifs at h with hs
      · exact ⟨rfl, by simpa using hs⟩
      · exact absurd h (challenge_outcome_ne_admitted _ _ _ _ _ _ _ _ _)
    | some a =>
      right
      rcases check_header_admitted _ _ _ _ _ _ (hadm a hauth h) with ⟨h1, h2⟩ | ⟨r, ch, h1, h2, h3⟩
      · exact Or.inl ⟨a, rfl, h1, h2⟩
      · exact Or.inr ⟨a, r, ch, rfl, h1, h2, h3⟩
  · intro a response ch hauth hresp hch hne
    have hv : check_header env store req a fn fo =
        verify env store req.method req.impu a response fn fo := by
      unfold check_header
      rw [hresp]
    constructor
    · intro h
      have h2 := hadm a hauth h
      rw [hv] at h2
      exact (verify_mismatch _ _ _ _ _ _ _ _ ch hch hne).1 h2
    · intro hauts hnc hrealm
      rw [auth_filter_check_header env store req a fn fo hport hmethod hauth hauts, hv]
      exact (verify_mismatch _ _ _ _ _ _ _ _ ch hch hne).2 hnc hrealm

set_option maxRecDepth 20000 in
/-- The wrong responses of the tests: the second message of
`DigestAuthFailBadResponse`, to the stored Digest challenge, and the second
message of `AKAAuthFailBadResponse`, to the stored AKA challenge, are answered
403. -/
theorem admitted_register_verified_or_bypassed_witness :
    ((digest_msg2 "00000000000000000000000000000000").get sample_md5 5058).port =
      (test_env hss_digest).scscf_port ∧
    ((digest_msg2 "00000000000000000000000000000000").get sample_md5 5058).method =
      "REGISTER" ∧
    (digest_step2 "00000000000000000000000000000000").outcome =
      Outcome.rejected 403 none ∧
    (auth_filter (test_env hss_aka) aka_step1.store (aka_bad_msg2.get sample_md5 5058)
      "n2" "o2").outcome = Outcome.rejected 403 none :=
  ⟨rfl, rfl,
    ((admitted_register_verified_or_bypassed (test_env hss_digest) digest_step1.store
      ((digest_msg2 "00000000000000000000000000000000").get sample_md5 5058) "n2" "o2"
      rfl rfl).2
      { username := "6505550001@homedomain", realm := "homedomain", nonce := "n1",
        uri := "sip:homedomain", response := some "00000000000000000000000000000000",
        opq := "o1", nc := "00000001", cnonce := "8765432187654321", qop := "auth",
        auts := none, integrity_protected := none, algorithm := "MD5" }
      "00000000000000000000000000000000" digest_challenge1
      (by decide) rfl (by decide) (by decide)).2 rfl (by decide) rfl,
    ((admitted_register_verified_or_bypassed (test_env hss_aka) aka_step1.store
      (aka_bad_msg2.get sample_md5 5058) "n2" "o2" rfl rfl).2
      { username := "6505550001@homedomain", realm := "homedomain",
        nonce := "87654321876543218765432187654321", uri := "sip:homedomain",
        response := some "00000000000000000000000000000000", opq := "o1",
        nc := "00000001", cnonce := "8765432187654321", qop := "auth",
        auts := none, integrity_protected := some "yes", algorithm := "AKAv1-MD5" }
      "00000000000000000000000000000000" aka_challenge1
      (by decide) rfl (by decide) (by decide)).2 rfl (by decide) rfl⟩

/-- The digit `hash2str` prints for a value below 16 is the lowercase
hexadecimal digit of that value. -/
theorem hex_digit_eq (n : Nat) (h : n < 16) : hex_digit n = lowercase_digits.getD n '0' := by
  interval_cases n <;> rfl

/-- A loop over the positions of a list is the list itself. -/
theorem flatMap_range_getD {β : Type} (g : Nat → List β) :
    ∀ h : List Nat, (List.range h.length).flatMap (fun i => g (h.getD i 0)) = h.flatMap g
  | [] => rfl
  | b :: t => by
    have ih := flatMap_range_getD g t
    rw [List.length_cons, List.range_succ_eq_map, List.flatMap_cons, List.flatMap_cons]
    simp only [List.getD_cons_zero]
    congr 1
    rw [List.flatMap_map]
    simpa using ih

/-- On a hash of 16 bytes `hash2str` of the tests writes the lowercase
hexadecimal form the specification speaks of. -/
theorem hash2str_eq_lowercase_hex (hash : List Nat) (hlen : hash.length = 16)
    (hb : ∀ b ∈ hash, b < 256) : hash2str hash = lowercase_hex hash := by
  have hr := flatMap_range_getD (fun b => [hex_digit (b % 256 / 16), hex_digit (b % 16)]) hash
  rw [hlen] at hr
  unfold hash2str lowercase_hex
  rw [hr]
  congr 1
  apply List.flatMap_congr
  intro b hmem
  have h1 := hb b hmem
  rw [Nat.mod_eq_of_lt h1, hex_digit_eq _ (by omega), hex_digit_eq _ (Nat.mod_lt _ (by decide))]

/-- On a hexadecimal digit `pj_hex_digit_to_val` gives its value. -/
theorem pj_hex_digit_to_val_eq (c : Char) (v : Nat) (h : hex_value c = some v) :
    pj_hex_digit_to_val c.toNat = v := by
  unfold hex_value at h
  unfold pj_hex_digit_to_val
  split_ifs at h with h1 h2 h3 <;> simp only [Option.some.injEq] at h <;>
    split_ifs <;> omega

/-- The value of a hexadecimal digit is below 16. -/
theorem hex_value_lt (c : Char) (v : Nat) (h : hex_value c = some v) : v < 16 := by
  unfold hex_value at h
  split_ifs at h with h1 h2 h3 <;> simp only [Option.some.injEq] at h <;> omega

/-- On a text made of pairs of hexadecimal digits the loop of
`calculate_digest_response` gives the bytes the text stands for. -/
theorem hex_decode_eq : ∀ (k raw : List Char), hex_decoded k = some raw → hex_decode k = raw
  | [], raw, h => by
    simp only [hex_decoded, Option.some.injEq] at h
    rw [← h]
    rfl
  | [_], raw, h => by simp [hex_decoded] at h
  | a :: b :: rest, raw, h => by
    unfold hex_decoded at h
    cases ha : hex_value a with
    | none => rw [ha] at h; simp at h
    | some x =>
      cases hb : hex_value b with
      | none => rw [ha, hb] at h; simp at h
      | some y =>
        cases hr : hex_decoded rest with
        | none => rw [ha, hb, hr] at h; simp at h
        | some bytes =>
          rw [ha, hb, hr] at h
          simp only [Option.some.injEq] at h
          have hx := hex_value_lt a x ha
          have hy := hex_value_lt b y hb
          have hd : hex_decode (a :: b :: rest) =
              Char.ofNat ((pj_hex_digit_to_val a.toNat * 16 + pj_hex_digit_to_val b.toNat) %
                256) :: hex_decode rest := by
            rw [hex_decode]
          have hm : (x * 16 + y) % 256 = x * 16 + y := Nat.mod_eq_of_lt (by omega)
          rw [hd, pj_hex_digit_to_val_eq a x ha, pj_hex_digit_to_val_eq b y hb,
            hex_decode_eq rest bytes hr, ← h, hm]

/-- The hexadecimal form of a hash is not empty. -/
theorem hash2str_ne_empty (hash : List Nat) : hash2str hash ≠ "" := by
  intro hc
  have hd := congrArg String.data hc
  simp [hash2str, List.range_succ_eq_map] at hd

/-- The digest of the client is not empty. -/
theorem digest_response_ne_empty (md5 : String → List Nat) (m : AuthenticationMessage) :
    digest_response md5 m ≠ "" := by
  unfold digest_response
  exact hash2str_ne_empty _

/-- The request of a message of the tests that has an Authorization header, a
key, no response of its own and no `auts`: the header carries the computed
response. -/
theorem get_answer (md5 : String → List Nat) (port : Nat) (m : AuthenticationMessage)
    (hhdr : m._auth_hdr = true) (hresp : m._response = "")
    (hkey : m._key ≠ "") (hauts : m._auts = "") :
    m.get md5 port =
      { port := port, method := m._method, impu := "sip:" ++ m._user ++ "@" ++ m._domain,
        contacts_sos := if m._extra_contact = "" then [m._sos] else [m._sos, false],
        authorization := some (m.answer md5) } := by
  have hne := digest_response_ne_empty md5 m
  simp [AuthenticationMessage.get, AuthenticationMessage.calculate_digest_response,
    AuthenticationMessage.answer, hhdr, hresp, hkey, hauts, opt_param, hne]

/-- The response the filter expects, computed as the specification words it,
equals the digest `calculate_digest_response` computes when the stored challenge
holds the key and the realm of the client, with the scheme of its algorithm, the
key of AKAv1-MD5 being pairs of hexadecimal digits. -/
theorem expected_response_eq (env : Env) (m : AuthenticationMessage) (ch : AuthChallenge)
    (hmd5 : ∀ x, (env.md5 x).length = 16 ∧ ∀ b ∈ env.md5 x, b < 256)
    (hkeyeq : ch.ha1_or_xres = m._key)
    (hscheme : ch.scheme = if m._algorithm = "AKAv1-MD5" then Scheme.AKA else Scheme.Digest)
    (hhex : m._algorithm = "AKAv1-MD5" → hex_decoded m._key.data ≠ none) :
    expected_response env ch (m.answer env.md5) m._method =
      some (digest_response env.md5 m) := by
  have hh : ∀ x, hash2str (env.md5 x) = lowercase_hex (env.md5 x) :=
    fun x => hash2str_eq_lowercase_hex _ (hmd5 x).1 (hmd5 x).2
  unfold expected_response digest_response
  by_cases halg : m._algorithm = "AKAv1-MD5"
  · cases hd : hex_decoded m._key.data with
    | none => exact absurd hd (hhex halg)
    | some raw =>
      simp [halg, hscheme, hkeyeq, AuthenticationMessage.answer, hh, hd,
        hex_decode_eq _ _ hd]
  · simp [halg, hscheme, hkeyeq, AuthenticationMessage.answer, hh]

/-- The stand-in for MD5 gives 16 bytes. -/
theorem sample_md5_bytes (x : String) :
    (sample_md5 x).length = 16 ∧ ∀ b ∈ sample_md5 x, b < 256 := by
  have hf : ∀ (i : Nat) (l : List Char) (acc : Nat), acc < 256 →
      l.foldl (fun acc c => (acc * 31 + c.toNat + i) % 256) acc < 256 := by
    intro i l
    induction l with
    | nil => intro acc h; exact h
    | cons c t ih =>
      intro acc _
      exact ih _ (Nat.mod_lt _ (by decide))
  constructor
  · simp [sample_md5]
  · intro b hb
    simp only [sample_md5, List.mem_map] at hb
    obtain ⟨i, _, rfl⟩ := hb
    exact hf i _ 7 (by decide)

set_option maxRecDepth 20000 in
/-- C18 (counterexample): a response computed by the formula of the client for
the stored challenge is not always admitted. The second message of
`AKAAuthResyncSuccess` carries the correct response to the stored AKA challenge,
and an `auts`: it is answered 401 with a new challenge. The second message of
`DigestAuthSuccess`, sent after the one of `DigestAuthFailBadResponse` with the
same nonce and nonce-count, carries the correct response to the stored Digest
challenge: the nonce-count is a replay and the request is rejected. -/
theorem correct_response_is_not_admitted :
    lookup aka_step1.store "6505550001@homedomain" "87654321876543218765432187654321" =
      some aka_challenge1 ∧
    ((aka_msg2 "32132132132132").get sample_md5 5058).authorization =
      some (aka_header2 "32132132132132") ∧
    expected_response (test_env hss_aka) aka_challenge1 (aka_header2 "32132132132132")
      "REGISTER" = some (digest_response sample_md5 (aka_msg2 "32132132132132")) ∧
    (aka_step2 "32132132132132").outcome = Outcome.rejected 401 (some
      { realm := "homedomain", nonce := "12345678123456781234567812345678", opq := "o2",
        qop := "auth", algorithm := "AKAv1-MD5", stale := false,
        ck := some "fedcba9876543210", ik := some "0123456789abcdef" }) ∧
    lookup (digest_step2 "00000000000000000000000000000000").store "6505550001@homedomain"
      "n1" = some { digest_challenge1 with nc_used := ["00000001"] } ∧
    ((digest_msg2 "").get sample_md5 5058).authorization =
      some ((digest_msg2 "").answer sample_md5) ∧
    expected_response (test_env hss_digest) { digest_challenge1 with nc_used := ["00000001"] }
      ((digest_msg2 "").answer sample_md5) "REGISTER" =
      some (digest_response sample_md5 (digest_msg2 "")) ∧
    digest_step3.outcome = Outcome.rejected 403 none := by
  decide

/-- C18 (amended): digest round trip. For every key, method, URI, nonce, nc,
cnonce and qop of a message of the tests, the response
`calculate_digest_response` computes (the key taken as HA1 for Digest, and hashed
with username and realm after hexadecimal decoding for AKAv1-MD5, a key of pairs
of hexadecimal digits) is the response the filter expects, computed as the
specification words it - MD5 in lowercase hexadecimal, of 16 bytes - for a stored
challenge that holds the same key and realm under the nonce of the message; and
when the header has no `auts` and the nonce-count was not used on the challenge
before, the verification accepts it: the challenge is deleted and the request is
admitted, with no response and no query to the HSS. -/
theorem digest_round_trip (env : Env) (store : List AuthChallenge)
    (m : AuthenticationMessage) (ch : AuthChallenge) (fn fo : String)
    (hmd5 : ∀ x, (env.md5 x).length = 16 ∧ ∀ b ∈ env.md5 x, b < 256)
    (hhdr : m._auth_hdr = true) (hresp : m._response = "") (hkey : m._key ≠ "")
    (hauts : m._auts = "")
    (hch : lookup store (m.impi env) m._nonce = some ch)
    (hkeyeq : ch.ha1_or_xres = m._key) (hrealm : ch.realm = m._auth_realm)
    (hscheme : ch.scheme = if m._algorithm = "AKAv1-MD5" then Scheme.AKA else Scheme.Digest)
    (hhex : m._algorithm = "AKAv1-MD5" → hex_decoded m._key.data ≠ none) :
    (m.get env.md5 env.scscf_port).authorization = some (m.answer env.md5) ∧
    expected_response env ch (m.answer env.md5) m._method =
      some (digest_response env.md5 m) ∧
    (m._nc ∉ ch.nc_used →
      verify env store m._method ("sip:" ++ m._user ++ "@" ++ m._domain) (m.answer env.md5)
          (digest_response env.md5 m) fn fo =
        { outcome := Outcome.admitted, store := erase store (m.impi env) m._nonce,
          queries := [] } ∧
      (auth_filter env store (m.get env.md5 env.scscf_port) fn fo).outcome =
        Outcome.admitted ∧
      (auth_filter env store (m.get env.md5 env.scscf_port) fn fo).queries = []) := by
  have hget := get_answer env.md5 env.scscf_port m hhdr hresp hkey hauts
  have hexp := expected_response_eq env m ch hmd5 hkeyeq hscheme hhex
  refine ⟨by rw [hget], hexp, ?_⟩
  intro hnc
  have himpi : impi_of env ("sip:" ++ m._user ++ "@" ++ m._domain) (m.answer env.md5) =
      m.impi env := rfl
  have hv : verify env store m._method ("sip:" ++ m._user ++ "@" ++ m._domain)
      (m.answer env.md5) (digest_response env.md5 m) fn fo =
      { outcome := Outcome.admitted, store := erase store (m.impi env) m._nonce,
        queries := [] } := by
    unfold verify
    dsimp only
    rw [himpi]
    have hn : (m.answer env.md5).nonce = m._nonce := rfl
    rw [hn, hch]
    have hc : (m.answer env.md5).nc = m._nc := rfl
    have hr : (m.answer env.md5).realm = m._auth_realm := rfl
    simp only [hc, hr, hexp, hrealm, hnc, if_false, ne_eq, not_true_eq_false, if_true]
  have hf : auth_filter env store (m.get env.md5 env.scscf_port) fn fo =
      if env.scscf_port ≠ env.scscf_port ∨ m._method ≠ "REGISTER" then
        { outcome := Outcome.admitted, store := store, queries := [] }
      else verify env store m._method ("sip:" ++ m._user ++ "@" ++ m._domain)
        (m.answer env.md5) (digest_response env.md5 m) fn fo := by
    rw [hget]
    rfl
  refine ⟨hv, ?_, ?_⟩
  · rw [hf]
    split_ifs
    · rfl
    · rw [hv]
  · rw [hf]
    split_ifs
    · rfl
    · rw [hv]

set_option maxRecDepth 20000 in
/-- The round trip in the tests: the second message of `DigestAuthSuccess` and the
third message of `AKAAuthResyncSuccess` are admitted. -/
theorem digest_round_trip_witness :
    (digest_step2 "").outcome = Outcome.admitted ∧
    aka_step3.outcome = Outcome.admitted :=
  ⟨((digest_round_trip (test_env hss_digest) digest_step1.store (digest_msg2 "")
      digest_challenge1 "n2" "o2" sample_md5_bytes rfl rfl (by decide) rfl
      (by decide) rfl rfl (by decide) (by decide)).2.2 (by decide)).2.1,
   ((digest_round_trip (test_env hss_aka) (aka_step2 "32132132132132").store
      aka_msg3
      { impi := "6505550001@homedomain", nonce := "12345678123456781234567812345678",
        scheme := Scheme.AKA, ha1_or_xres := "87654321876543218765432187654321",
        realm := "homedomain", qop := "auth", opq := "o2",
        ck := some "fedcba9876543210", ik := some "0123456789abcdef", nc_used := [] }
      "n3" "o3" sample_md5_bytes rfl rfl (by decide) rfl
      (by decide) rfl rfl (by decide) (by decide)).2.2 (by decide)).2.1⟩

/-- The challenge path answers 401 with a Digest challenge, and stores it, when
the HSS returns a body with the three Digest fields. -/
theorem challenge_digest (env : Env) (store : List AuthChallenge) (impi impu : String)
    (autn : Option String) (stale : Bool) (fn fo : String) (av : AvBody)
    (realm qop ha1 : String)
    (hhss : env.hss { impi := impi, impu := impu, aka := false, autn := autn } =
      HssResult.body av)
    (hrealm : av.digest_realm = some realm) (hqop : av.digest_qop = some qop)
    (hha1 : av.digest_ha1 = some ha1) :
    challenge env store impi impu false autn stale fn fo =
      { outcome := Outcome.rejected 401 (some
          { realm := realm, nonce := fn, opq := fo, qop := "auth", algorithm := "MD5",
            stale := stale, ck := none, ik := none }),
        store := insert store
          { impi := impi, nonce := fn, scheme := Scheme.Digest, ha1_or_xres := ha1,
            realm := realm, qop := qop, opq := fo, ck := none, ik := none, nc_used := [] },
        queries := [{ impi := impi, impu := impu, aka := false, autn := autn }] } := by
  unfold challenge
  dsimp only
  rw [hhss]
  simp [hrealm, hqop, hha1]

/-- The challenge path answers 403, and stores nothing, when the HSS does not
know the subscriber or returns a body that lacks a Digest field, and 504 when the
HSS is overloaded. -/
theorem challenge_digest_refused (env : Env) (store : List AuthChallenge)
    (impi impu : String) (autn : Option String) (stale : Bool) (fn fo : String) :
    (env.hss { impi := impi, impu := impu, aka := false, autn := autn } =
        HssResult.not_found →
      challenge env store impi impu false autn stale fn fo =
        { outcome := Outcome.rejected 403 none, store := store,
          queries := [{ impi := impi, impu := impu, aka := false, autn := autn }] }) ∧
    (env.hss { impi := impi, impu := impu, aka := false, autn := autn } =
        HssResult.overload →
      challenge env store impi impu false autn stale fn fo =
        { outcome := Outcome.rejected 504 none, store := store,
          queries := [{ impi := impi, impu := impu, aka := false, autn := autn }] }) ∧
    (∀ av, env.hss { impi := impi, impu := impu, aka := false, autn := autn } =
        HssResult.body av →
      av.digest_realm = none ∨ av.digest_qop = none ∨ av.digest_ha1 = none →
      challenge env store impi impu false autn stale fn fo =
        { outcome := Outcome.rejected 403 none, store := store,
          queries := [{ impi := impi, impu := impu, aka := false, autn := autn }] }) := by
  refine ⟨?_, ?_, ?_⟩
  · intro h
    unfold challenge
    dsimp only
    rw [h]
  · intro h
    unfold challenge
    dsimp only
    rw [h]
  · intro av h hm
    unfold challenge
    dsimp only
    rw [h]
    dsimp only
    rw [if_neg (by decide)]
    split
    · rename_i h1 h2 h3
      rcases hm with hm | hm | hm
      · rw [hm] at h1; cases h1
      · rw [hm] at h2; cases h2
      · rw [hm] at h3; cases h3
    · rfl

/-- The challenge path sends exactly one query to the HSS. -/
theorem challenge_queries (env : Env) (store : List AuthChallenge) (impi impu : String)
    (aka : Bool) (autn : Option String) (stale : Bool) (fn fo : String) :
    (challenge env store impi impu aka autn stale fn fo).queries =
      [{ impi := impi, impu := impu, aka := aka, autn := autn }] := by
  unfold challenge
  dsimp only
  split
  · rfl
  · rfl
  · split_ifs
    · split <;> rfl
    · split <;> rfl

set_option maxRecDepth 20000 in
/-- C19 (counterexample): a REGISTER without Authorization header of which a
Contact URI lacks `sos` is not always challenged with 401. The message of
`AuthorizationEmergencyReg` is answered 403 when the HSS does not know the
subscriber, and 504 when the HSS is overloaded; nothing is stored. -/
theorem register_without_sos_is_answered_403_or_504 :
    ((emergency_msg extra_contact).get sample_md5 5058).authorization = none ∧
    ((emergency_msg extra_contact).get sample_md5 5058).contacts_sos = [true, false] ∧
    auth_filter (test_env hss_empty) [] ((emergency_msg extra_contact).get sample_md5 5058)
      "n1" "o1" =
      { outcome := Outcome.rejected 403 none, store := [],
        queries := [{ impi := "6505550001@homedomain", impu := "sip:6505550001@homedomain",
                      aka := false, autn := none }] } ∧
    auth_filter (test_env hss_overloaded) []
      ((emergency_msg extra_contact).get sample_md5 5058) "n1" "o1" =
      { outcome := Outcome.rejected 504 none, store := [],
        queries := [{ impi := "6505550001@homedomain", impu := "sip:6505550001@homedomain",
                      aka := false, autn := none }] } := by
  decide

/-- C19 (amended): a REGISTER on the S-CSCF port without Authorization header is
admitted if and only if every Contact URI in it carries `sos`, and then nothing
is asked of the HSS and nothing is stored; if a Contact URI lacks `sos` the
request is not admitted and the HSS is asked for a Digest vector of the default
private identity: the answer is 401 with a Digest challenge when the HSS returns
a vector, 403 when the HSS does not know the subscriber or returns a body that
lacks a Digest field, and 504 when the HSS is overloaded. -/
theorem register_without_authorization (env : Env) (store : List AuthChallenge)
    (req : Request) (fn fo : String)
    (hport : req.port = env.scscf_port) (hmethod : req.method = "REGISTER")
    (hauth : req.authorization = none) :
    ((auth_filter env store req fn fo).outcome = Outcome.admitted ↔
      ∀ c ∈ req.contacts_sos, c = true) ∧
    ((∀ c ∈ req.contacts_sos, c = true) →
      auth_filter env store req fn fo =
        { outcome := Outcome.admitted, store := store, queries := [] }) ∧
    ((∃ c ∈ req.contacts_sos, c = false) →
      (auth_filter env store req fn fo).outcome ≠ Outcome.admitted ∧
      (auth_filter env store req fn fo).queries =
        [{ impi := env.default_impi req.impu, impu := req.impu, aka := false,
           autn := none }] ∧
      (∀ (av : AvBody) (realm qop ha1 : String),
        env.hss { impi := env.default_impi req.impu, impu := req.impu, aka := false,
                  autn := none } = HssResult.body av →
        av.digest_realm = some realm → av.digest_qop = some qop →
        av.digest_ha1 = some ha1 →
        (auth_filter env store req fn fo).outcome = Outcome.rejected 401 (some
          { realm := realm, nonce := fn, opq := fo, qop := "auth", algorithm := "MD5",
            stale := false, ck := none, ik := none })) ∧
      (env.hss { impi := env.default_impi req.impu, impu := req.impu, aka := false,
                 autn := none } = HssResult.not_found →
        (auth_filter env store req fn fo).outcome = Outcome.rejected 403 none) ∧
      (∀ av : AvBody,
        env.hss { impi := env.default_impi req.impu, impu := req.impu, aka := false,
                  autn := none } = HssResult.body av →
        av.digest_realm = none ∨ av.digest_qop = none ∨ av.digest_ha1 = none →
        (auth_filter env store req fn fo).outcome = Outcome.rejected 403 none) ∧
      (env.hss { impi := env.default_impi req.impu, impu := req.impu, aka := false,
                 autn := none } = HssResult.overload →
        (auth_filter env store req fn fo).outcome = Outcome.rejected 504 none)) := by
  have hf : ¬ (req.port ≠ env.scscf_port ∨ req.method ≠ "REGISTER") := by
    simp [hport, hmethod]
  have hall : req.contacts_sos.all id = true ↔ ∀ c ∈ req.contacts_sos, c = true := by
    simp
  have hyes : (∀ c ∈ req.contacts_sos, c = true) →
      auth_filter env store req fn fo =
        { outcome := Outcome.admitted, store := store, queries := [] } := by
    intro h
    unfold auth_filter
    rw [if_neg hf, hauth]
    dsimp only
    rw [if_pos (hall.2 h)]
  have hno : ¬ (∀ c ∈ req.contacts_sos, c = true) →
      auth_filter env store req fn fo =
        challenge env store (env.default_impi req.impu) req.impu false none false fn fo := by
    intro h
    unfold auth_filter
    rw [if_neg hf, hauth]
    dsimp only
    rw [if_neg (fun hc => h (hall.1 hc))]
  refine ⟨⟨?_, fun h => by rw [hyes h]⟩, hyes, ?_⟩
  · intro h
    by_contra hc
    rw [hno hc] at h
    exact challenge_outcome_ne_admitted _ _ _ _ _ _ _ _ _ h
  · rintro ⟨c, hc, hcf⟩
    have hn : ¬ (∀ c ∈ req.contacts_sos, c = true) := by
      intro h
      have := h c hc
      rw [hcf] at this
      cases this
    rw [hno hn]
    have hr := challenge_digest_refused env store (env.default_impi req.impu) req.impu none
      false fn fo
    refine ⟨challenge_outcome_ne_admitted _ _ _ _ _ _ _ _ _, challenge_queries _ _ _ _ _ _ _ _ _,
      ?_, ?_, ?_, ?_⟩
    · intro av realm qop ha1 hhss hrealm hqop hha1
      rw [challenge_digest env store _ _ none false fn fo av realm qop ha1 hhss hrealm hqop
        hha1]
    · intro h
      rw [hr.1 h]
    · intro av h hm
      rw [hr.2.2 av h hm]
    · intro h
      rw [hr.2.1 h]

set_option maxRecDepth 20000 in
/-- The emergency registrations of the tests: the message of
`NoAuthorizationEmergencyReg` is admitted, the message of
`AuthorizationEmergencyReg`, with a second Contact without `sos`, is answered
401. -/
theorem register_without_authorization_witness :
    (auth_filter (test_env hss_digest) [] ((emergency_msg "").get sample_md5 5058)
      "n1" "o1").outcome = Outcome.admitted ∧
    (auth_filter (test_env hss_digest) []
      ((emergency_msg extra_contact).get sample_md5 5058)
      "n1" "o1").outcome = Outcome.rejected 401 (some
        { realm := "homedomain", nonce := "n1", opq := "o1", qop := "auth",
          algorithm := "MD5", stale := false, ck := none, ik := none }) :=
  ⟨(register_without_authorization (test_env hss_digest) []
      ((emergency_msg "").get sample_md5 5058) "n1" "o1" rfl rfl rfl).1.2 (by decide),
   ((register_without_authorization (test_env hss_digest) []
      ((emergency_msg extra_contact).get sample_md5 5058)
      "n1" "o1" rfl rfl rfl).2.2 ⟨false, by decide, rfl⟩).2.2.1
      { digest_realm := some "homedomain", digest_qop := some "auth",
        digest_ha1 := some "12345678123456781234567812345678" }
      "homedomain" "auth" "12345678123456781234567812345678" (by decide) rfl rfl rfl⟩

end Authentication
